import Mathlib

/-!
# ASID allocator (`src/kern/asid_alloc.h`)

A shallow embedding of the generation-based ASID allocator: the packed value
type `Asid_t`, the occupancy bitmap `Asid_bitmap_t`, the per-CPU record
`Asids_per_cpu_t` and the allocator `Asid_alloc_t`.

Conventions of the embedding:

* values of `ASID_TYPE` are natural numbers below `2 ^ width`; the only
  arithmetic that can leave this range (`atomic_add_fetch` on the generation)
  is reduced modulo `2 ^ width`;
* values of C type `unsigned` are reduced modulo `2 ^ 32`;
* `Bitmap` and `Cpu_mask` are functions from indices to `Bool`;
* memory reached through pointers is passed explicitly: the value of the
  address-space slot `*asid` goes in and comes out, and `active_asid` is the
  `active` field of the calling CPU (what `get_active_asid` hands out);
* the allocator's lock is held through the whole of `alloc_asid`, so a call is
  one atomic transition of the state.
-/

namespace AsidAlloc

/-- Template parameters and the platform collaborators of the allocator:
the width of `ASID_TYPE`, the width of `Mword`, `ASID_BITS`, `ASID_BASE`,
`Config::max_num_cpus()` and `Cpu::online` (which is also the bit test of
`Cpu::online_mask()`). -/
structure Config where
  width : Nat
  mword_width : Nat
  ASID_BITS : Nat
  ASID_BASE : Nat
  max_num_cpus : Nat
  online : Nat → Bool

/-- Conversion to the C type `unsigned`. -/
def to_unsigned (x : Nat) : Nat := x % 2 ^ 32

/-! ## `Asid_t` -/

/-- `Generation_inc = ((ASID_TYPE)1) << ASID_BITS`. -/
def Generation_inc (cfg : Config) : Nat := (1 <<< cfg.ASID_BITS) % 2 ^ cfg.width

/-- `Mask = Generation_inc - 1`. -/
def Mask (cfg : Config) : Nat := (Generation_inc cfg + 2 ^ cfg.width - 1) % 2 ^ cfg.width

/-- `Invalid = (ASID_TYPE)(~0ULL)`. -/
def Invalid (cfg : Config) : Nat := 2 ^ cfg.width - 1

/-- The complement `~Mask` at the width of `ASID_TYPE`. -/
def not_Mask (cfg : Config) : Nat := Invalid cfg ^^^ Mask cfg

/-- `Asid_t::is_valid`: a plain comparison when the value has the size of a
machine word, otherwise the test on the two 32-bit halves. -/
def is_valid (cfg : Config) (a : Nat) : Bool :=
  if cfg.width = cfg.mword_width then
    a != Invalid cfg
  else
    ((a >>> 32) % 2 ^ 32 &&& a % 2 ^ 32) != 2 ^ 32 - 1

/-- `Asid_t::is_invalid_generation`. -/
def is_invalid_generation (cfg : Config) (a : Nat) : Bool :=
  a == (Invalid cfg &&& not_Mask cfg)

/-- `Asid_t::asid`: the numeric id. -/
def asid (cfg : Config) (a : Nat) : Nat := a &&& Mask cfg

/-- `Asid_t::is_same_generation`. -/
def is_same_generation (cfg : Config) (a generation : Nat) : Bool :=
  (a &&& not_Mask cfg) == generation

/-! ## `Asid_bitmap_t` -/

/-- `Asid_bitmap_t`: the bits of the `Bitmap` base class and `_current_idx`. -/
structure Asid_bitmap where
  bits : Nat → Bool
  current_idx : Nat

/-- `Asid_bitmap_t::Asid_num = 1UL << ASID_BITS`. -/
def Asid_num (cfg : Config) : Nat := 1 <<< cfg.ASID_BITS

/-- `Asid_bitmap_t::reset`. -/
def Asid_bitmap.reset (cfg : Config) (_bm : Asid_bitmap) : Asid_bitmap :=
  { bits := fun _ => false, current_idx := to_unsigned cfg.ASID_BASE }

/-- `Bitmap::set_bit`. -/
def Asid_bitmap.set_bit (bm : Asid_bitmap) (k : Nat) : Asid_bitmap :=
  { bm with bits := fun j => if j = k then true else bm.bits j }

/-- The loop of `Asid_bitmap_t::find_next`, started at `i`; `fuel` bounds the
number of iterations and `Asid_num - _current_idx` is always enough. -/
def find_next_loop (cfg : Config) (bm : Asid_bitmap) : Nat → Nat → Nat × Asid_bitmap
  | 0, _ => (to_unsigned (Asid_num cfg), bm)
  | fuel + 1, i =>
    if i < Asid_num cfg then
      if bm.bits i == false then
        (i, { bm with current_idx := to_unsigned (i + 1) })
      else
        find_next_loop cfg bm fuel (to_unsigned (i + 1))
    else
      (to_unsigned (Asid_num cfg), bm)

/-- `Asid_bitmap_t::find_next`: the id found (or `Asid_num`) and the bitmap
with its moved cursor. -/
def find_next (cfg : Config) (bm : Asid_bitmap) : Nat × Asid_bitmap :=
  find_next_loop cfg bm (Asid_num cfg - bm.current_idx) bm.current_idx

/-! ## `Asids_per_cpu_t` -/

/-- `Asids_per_cpu_t`. -/
structure Asids_per_cpu where
  active : Nat
  reserved : Nat

/-- `Asids_per_cpu_t::check_and_update_reserved`. -/
def Asids_per_cpu.check_and_update_reserved (p : Asids_per_cpu) (a update : Nat) :
    Bool × Asids_per_cpu :=
  if p.reserved = a then (true, { p with reserved := update }) else (false, p)

/-! ## `Asid_alloc_t` -/

/-- `Asid_alloc_t`: `_gen`, `_asids`, `_tlb_flush_pending`, `_reserved`. -/
structure Asid_alloc where
  gen : Nat
  asids : Nat → Asids_per_cpu
  tlb_flush_pending : Nat → Bool
  reserved : Asid_bitmap

/-- Replace the per-CPU record of one CPU. -/
def set_cpu (f : Nat → Asids_per_cpu) (cpu : Nat) (p : Asids_per_cpu) : Nat → Asids_per_cpu :=
  fun c => if c = cpu then p else f c

/-- The allocator as constructed: `_gen = Generation_inc`, every per-CPU field
`Invalid`, an empty bitmap with the cursor at `Asid_base`, no flush pending. -/
def Asid_alloc.init (cfg : Config) : Asid_alloc :=
  { gen := Generation_inc cfg
    asids := fun _ => { active := Invalid cfg, reserved := Invalid cfg }
    tlb_flush_pending := fun _ => false
    reserved := Asid_bitmap.reset cfg { bits := fun _ => false, current_idx := 0 } }

/-- One iteration of the loop of `Asid_alloc_t::check_and_update_reserved`. -/
def check_and_update_reserved_body (cfg : Config) (a update : Nat)
    (st : Bool × Asid_alloc) (cpu : Nat) : Bool × Asid_alloc :=
  if !cfg.online cpu then st
  else
    let r := (st.2.asids cpu).check_and_update_reserved a update
    (st.1 || r.1, { st.2 with asids := set_cpu st.2.asids cpu r.2 })

/-- `Asid_alloc_t::check_and_update_reserved`. -/
def check_and_update_reserved (cfg : Config) (a update : Nat) (s : Asid_alloc) :
    Bool × Asid_alloc :=
  (List.range cfg.max_num_cpus).foldl (check_and_update_reserved_body cfg a update) (false, s)

/-- One iteration of the loop of `Asid_alloc_t::roll_over`. -/
def roll_over_body (cfg : Config) (s : Asid_alloc) (cpu : Nat) : Asid_alloc :=
  if !cfg.online cpu then s
  else
    let a := s.asids cpu
    let old := a.active
    let a1 : Asids_per_cpu := { a with active := Invalid cfg }
    let a2 : Asids_per_cpu := if is_valid cfg old then { a1 with reserved := old } else a1
    let v := if is_valid cfg old then old else a1.reserved
    let s1 := { s with asids := set_cpu s.asids cpu a2 }
    if is_valid cfg v then { s1 with reserved := s1.reserved.set_bit (asid cfg v) } else s1

/-- `Asid_alloc_t::roll_over`. -/
def roll_over (cfg : Config) (s : Asid_alloc) : Asid_alloc :=
  let s0 := { s with reserved := s.reserved.reset cfg }
  let s1 := (List.range cfg.max_num_cpus).foldl (roll_over_body cfg) s0
  { s1 with tlb_flush_pending := cfg.online }

/-- `atomic_add_fetch(&_gen, Generation_inc)`. -/
def bump_gen (cfg : Config) (s : Asid_alloc) : Asid_alloc :=
  { s with gen := (s.gen + Generation_inc cfg) % 2 ^ cfg.width }

/-- The second half of `Asid_alloc_t::new_asid`, from `// Get a new ASID`. -/
def new_asid_fresh (cfg : Config) (generation : Nat) (s : Asid_alloc) : Nat × Asid_alloc :=
  let r := find_next cfg s.reserved
  let s1 := { s with reserved := r.2 }
  if r.1 = Asid_num cfg then
    let s2 := bump_gen cfg s1
    let s3 := if is_invalid_generation cfg s2.gen then bump_gen cfg s2 else s2
    let s4 := roll_over cfg s3
    let r2 := find_next cfg s4.reserved
    (r2.1 ||| s3.gen, { s4 with reserved := r2.2 })
  else
    (r.1 ||| generation, s1)

/-- `Asid_alloc_t::new_asid`. -/
def new_asid (cfg : Config) (a generation : Nat) (s : Asid_alloc) : Nat × Asid_alloc :=
  if is_valid cfg a && s.reserved.bits (asid cfg a) then
    let update := asid cfg a ||| generation
    let r := check_and_update_reserved cfg a update s
    if r.1 then (update, r.2) else new_asid_fresh cfg generation r.2
  else
    new_asid_fresh cfg generation s

/-- `Asid_alloc_t::can_use_asid`, called on `cpu` with `*asid = a`: the result
and the allocator (the slot is only read). -/
def can_use_asid (cfg : Config) (cpu : Nat) (a : Nat) (s : Asid_alloc) : Bool × Asid_alloc :=
  if is_same_generation cfg a s.gen then
    let old := (s.asids cpu).active
    (is_valid cfg old, { s with asids := set_cpu s.asids cpu { s.asids cpu with active := a } })
  else
    (false, s)

/-- `Cpu_mask::atomic_get_and_clear`. -/
def atomic_get_and_clear (m : Nat → Bool) (cpu : Nat) : Bool × (Nat → Bool) :=
  (m cpu, fun c => if c = cpu then false else m c)

/-- `Asid_alloc_t::alloc_asid`, called on `cpu` with `*asid = a`: the result,
the new value of `*asid`, and the allocator. -/
def alloc_asid (cfg : Config) (cpu : Nat) (a : Nat) (s : Asid_alloc) :
    Bool × Nat × Asid_alloc :=
  let generation := s.gen
  let r : Nat × Asid_alloc :=
    if !is_same_generation cfg a generation then new_asid cfg a generation s else (a, s)
  let a1 := r.1
  let s1 := r.2
  let s2 := { s1 with asids := set_cpu s1.asids cpu { s1.asids cpu with active := a1 } }
  let f := atomic_get_and_clear s2.tlb_flush_pending cpu
  (f.1, a1, { s2 with tlb_flush_pending := f.2 })

/-! ## Whether a call rolls over -/

/-- Whether this call of `new_asid` reaches `roll_over`: the carry-over branch
does not return and the first `find_next` yields `Asid_num`. -/
def new_asid_rolls_over (cfg : Config) (a generation : Nat) (s : Asid_alloc) : Bool :=
  if is_valid cfg a && s.reserved.bits (asid cfg a) then
    let r := check_and_update_reserved cfg a (asid cfg a ||| generation) s
    if r.1 then false else (find_next cfg r.2.reserved).1 == Asid_num cfg
  else
    (find_next cfg s.reserved).1 == Asid_num cfg

/-- Whether this call of `alloc_asid` reaches `roll_over`. -/
def alloc_asid_rolls_over (cfg : Config) (a : Nat) (s : Asid_alloc) : Bool :=
  !is_same_generation cfg a s.gen && new_asid_rolls_over cfg a s.gen s

/-! ## The allocator together with the address-space slots -/

/-- The allocator and the Asid slots of the address spaces it serves. -/
structure Sys where
  alloc : Asid_alloc
  slots : Nat → Nat

/-- The start: a freshly constructed allocator, every slot `Invalid`. -/
def Sys.init (cfg : Config) : Sys :=
  { alloc := Asid_alloc.init cfg, slots := fun _ => Invalid cfg }

/-- A `can_use_asid` call on `cpu` for the address space `slot`. -/
def Sys.can_use_asid (cfg : Config) (cpu slot : Nat) (w : Sys) : Sys :=
  { w with alloc := (AsidAlloc.can_use_asid cfg cpu (w.slots slot) w.alloc).2 }

/-- An `alloc_asid` call on `cpu` for the address space `slot`. -/
def Sys.alloc_asid (cfg : Config) (cpu slot : Nat) (w : Sys) : Sys :=
  let r := AsidAlloc.alloc_asid cfg cpu (w.slots slot) w.alloc
  { alloc := r.2.2, slots := fun i => if i = slot then r.2.1 else w.slots i }

/-- A CPU the loops of the allocator visit: below `max_num_cpus` and online. -/
def Cpu_online (cfg : Config) (cpu : Nat) : Prop :=
  cpu < cfg.max_num_cpus ∧ cfg.online cpu = true

instance (cfg : Config) (cpu : Nat) : Decidable (Cpu_online cfg cpu) := by
  unfold Cpu_online; infer_instance

/-- The number of online CPUs. -/
def num_online (cfg : Config) : Nat :=
  ((List.range cfg.max_num_cpus).filter cfg.online).length

/-- States reachable from the start by calls made on online CPUs. -/
inductive Reachable (cfg : Config) : Sys → Prop
  | init : Reachable cfg (Sys.init cfg)
  | can_use_asid (w : Sys) (cpu slot : Nat) :
      Reachable cfg w → Cpu_online cfg cpu → Reachable cfg (Sys.can_use_asid cfg cpu slot w)
  | alloc_asid (w : Sys) (cpu slot : Nat) :
      Reachable cfg w → Cpu_online cfg cpu → Reachable cfg (Sys.alloc_asid cfg cpu slot w)

/-- States reachable while the generation counter has not wrapped around: no
call has made `_gen` smaller. -/
inductive Reachable_no_wrap (cfg : Config) : Sys → Prop
  | init : Reachable_no_wrap cfg (Sys.init cfg)
  | can_use_asid (w : Sys) (cpu slot : Nat) :
      Reachable_no_wrap cfg w → Cpu_online cfg cpu →
      Reachable_no_wrap cfg (Sys.can_use_asid cfg cpu slot w)
  | alloc_asid (w : Sys) (cpu slot : Nat) :
      Reachable_no_wrap cfg w → Cpu_online cfg cpu →
      w.alloc.gen ≤ (Sys.alloc_asid cfg cpu slot w).alloc.gen →
      Reachable_no_wrap cfg (Sys.alloc_asid cfg cpu slot w)

/-- The parameters the allocator is instantiated with: at least one id bit,
at least two generation bits above the id bits, ids that fit an `unsigned`,
and a value that is one machine word or 64 bits wide. -/
structure Config.wf (cfg : Config) : Prop where
  bits_pos : 0 < cfg.ASID_BITS
  bits_lt : cfg.ASID_BITS + 2 ≤ cfg.width
  bits_unsigned : cfg.ASID_BITS < 32
  word : cfg.width = cfg.mword_width ∨ cfg.width = 64

/-! ## Specification predicates used by the proofs -/

/-- What a run of the loop of `find_next` returns. -/
def find_next_post (cfg : Config) (bm : Asid_bitmap) (i : Nat) (r : Nat × Asid_bitmap) : Prop :=
  (r.1 = Asid_num cfg ∧ r.2 = bm ∧ ∀ j, i ≤ j → j < Asid_num cfg → bm.bits j = true) ∨
  (i ≤ r.1 ∧ r.1 < Asid_num cfg ∧ bm.bits r.1 = false ∧
    (∀ j, i ≤ j → j < r.1 → bm.bits j = true) ∧
    r.2 = { bm with current_idx := r.1 + 1 })

/-- What `check_and_update_reserved` has done after the CPUs below `n`. -/
def check_and_update_reserved_post (cfg : Config) (a update : Nat) (s : Asid_alloc) (n : Nat)
    (r : Bool × Asid_alloc) : Prop :=
  r.2.gen = s.gen ∧ r.2.tlb_flush_pending = s.tlb_flush_pending ∧ r.2.reserved = s.reserved ∧
  (∀ c, r.2.asids c =
    if c < n ∧ cfg.online c = true ∧ (s.asids c).reserved = a then
      { s.asids c with reserved := update }
    else s.asids c) ∧
  (r.1 = true ↔ ∃ c, c < n ∧ cfg.online c = true ∧ (s.asids c).reserved = a)

/-- The `reserved` field `roll_over` leaves on an online CPU. -/
def rolled_reserved (cfg : Config) (s : Asid_alloc) (c : Nat) : Nat :=
  if is_valid cfg (s.asids c).active then (s.asids c).active else (s.asids c).reserved

/-- What the loop of `roll_over` has done after the CPUs below `n`. -/
def roll_over_post (cfg : Config) (s : Asid_alloc) (n : Nat) (r : Asid_alloc) : Prop :=
  r.gen = s.gen ∧ r.tlb_flush_pending = s.tlb_flush_pending ∧
  r.reserved.current_idx = s.reserved.current_idx ∧
  (∀ c, r.asids c =
    if c < n ∧ cfg.online c = true then
      { active := Invalid cfg, reserved := rolled_reserved cfg s c }
    else s.asids c) ∧
  (∀ k, r.reserved.bits k = true ↔
    s.reserved.bits k = true ∨
    ∃ c, c < n ∧ cfg.online c = true ∧ is_valid cfg (rolled_reserved cfg s c) = true ∧
      asid cfg (rolled_reserved cfg s c) = k)

/-- The generation after the bump (or two) that precedes a roll-over. -/
def next_gen (cfg : Config) (g : Nat) : Nat :=
  if is_invalid_generation cfg ((g + Generation_inc cfg) % 2 ^ cfg.width) then
    ((g + Generation_inc cfg) % 2 ^ cfg.width + Generation_inc cfg) % 2 ^ cfg.width
  else (g + Generation_inc cfg) % 2 ^ cfg.width

/-- The carry-over branch of `new_asid` is taken: the old Asid is valid, its
id is marked in the bitmap and some online CPU has exactly it reserved. -/
def carries_over (cfg : Config) (a : Nat) (s : Asid_alloc) : Prop :=
  is_valid cfg a = true ∧ s.reserved.bits (asid cfg a) = true ∧
    ∃ c, Cpu_online cfg c ∧ (s.asids c).reserved = a

/-- The value `alloc_asid` settles on and the allocator at the point where
the value is stored into the CPU's `active` field. -/
def slow_path (cfg : Config) (a : Nat) (s : Asid_alloc) : Nat × Asid_alloc :=
  if !is_same_generation cfg a s.gen then new_asid cfg a s.gen s else (a, s)

/-- The allocator after `roll_over` under the next generation. -/
def rolled (cfg : Config) (s : Asid_alloc) : Asid_alloc :=
  roll_over cfg { s with gen := next_gen cfg s.gen }

/-! ## Invariants -/

/-- What holds of the allocator in every reachable state: the generation
counter is a valid, aligned value, the per-CPU fields are in range, and every
valid reservation of an online CPU is marked in the bitmap. -/
structure Alloc_ok (cfg : Config) (s : Asid_alloc) : Prop where
  gen_aligned : s.gen % 2 ^ cfg.ASID_BITS = 0
  gen_lt : s.gen < 2 ^ cfg.width
  gen_ok : is_invalid_generation cfg s.gen = false
  active_lt : ∀ c, (s.asids c).active < 2 ^ cfg.width
  reserved_lt : ∀ c, (s.asids c).reserved < 2 ^ cfg.width
  reserved_marked : ∀ c, Cpu_online cfg c → is_valid cfg (s.asids c).reserved = true →
    s.reserved.bits (asid cfg (s.asids c).reserved) = true

/-- The basic invariant of allocator and slots. -/
structure Sys_ok (cfg : Config) (w : Sys) : Prop where
  alloc_ok : Alloc_ok cfg w.alloc
  slot_lt : ∀ i, w.slots i < 2 ^ cfg.width

/-- The slot holds a value of the allocator's current generation. -/
def is_current (cfg : Config) (w : Sys) (i : Nat) : Prop :=
  is_same_generation cfg (w.slots i) w.alloc.gen = true

/-- The invariant behind the uniqueness of ids: slots are never ahead of the
counter, current slots have distinct ids, a current slot with an unmarked id
lies below the cursor, a current slot with a marked id is reserved on some
online CPU, reservations of one id agree, and a valid `active` field is the
value of a current slot. -/
structure Unique_inv (cfg : Config) (w : Sys) : Prop where
  slot_gen : ∀ i, w.slots i = Invalid cfg ∨
    2 ^ cfg.ASID_BITS * (w.slots i / 2 ^ cfg.ASID_BITS) ≤ w.alloc.gen
  unique : ∀ i j, i ≠ j → is_current cfg w i → is_current cfg w j →
    asid cfg (w.slots i) ≠ asid cfg (w.slots j)
  fresh_below : ∀ i, is_current cfg w i →
    w.alloc.reserved.bits (asid cfg (w.slots i)) = false →
    asid cfg (w.slots i) < w.alloc.reserved.current_idx
  carried_reserved : ∀ i, is_current cfg w i →
    w.alloc.reserved.bits (asid cfg (w.slots i)) = true →
    ∃ c, Cpu_online cfg c ∧ (w.alloc.asids c).reserved = w.slots i
  reserved_agree : ∀ c d, Cpu_online cfg c → Cpu_online cfg d →
    is_valid cfg (w.alloc.asids c).reserved = true →
    is_valid cfg (w.alloc.asids d).reserved = true →
    asid cfg (w.alloc.asids c).reserved = asid cfg (w.alloc.asids d).reserved →
    (w.alloc.asids c).reserved = (w.alloc.asids d).reserved
  active_slot : ∀ c, Cpu_online cfg c → is_valid cfg (w.alloc.asids c).active = true →
    ∃ i, w.slots i = (w.alloc.asids c).active ∧ is_current cfg w i

/-- Every id the allocator holds lies at or above `ASID_BASE`: the cursor and
the ids of the valid per-CPU fields. -/
structure Range_ok (cfg : Config) (s : Asid_alloc) : Prop where
  cursor_ge : cfg.ASID_BASE ≤ s.reserved.current_idx
  active_ge : ∀ c, is_valid cfg (s.asids c).active = true →
    cfg.ASID_BASE ≤ asid cfg (s.asids c).active
  reserved_ge : ∀ c, is_valid cfg (s.asids c).reserved = true →
    cfg.ASID_BASE ≤ asid cfg (s.asids c).reserved

/-- The ids of the allocator and of the valid slots lie at or above
`ASID_BASE`. -/
structure Sys_range (cfg : Config) (w : Sys) : Prop where
  alloc_range : Range_ok cfg w.alloc
  slot_ge : ∀ i, is_valid cfg (w.slots i) = true → cfg.ASID_BASE ≤ asid cfg (w.slots i)

/-! ## Further notions the claims speak of -/

/-- The number of set bits of the bitmap, over its indices `0 .. Asid_num - 1`. -/
def Asid_bitmap.count_set (cfg : Config) (bm : Asid_bitmap) : Nat :=
  ((List.range (Asid_num cfg)).filter bm.bits).length

/-- A sequence of `can_use_asid` calls, each given as (CPU, slot). -/
def Sys.can_use_asid_calls (cfg : Config) (calls : List (Nat × Nat)) (w : Sys) : Sys :=
  calls.foldl (fun st c => Sys.can_use_asid cfg c.1 c.2 st) w

/-- Modelled from the spec: the context-switch path, which is not under
`src/` (spec section 2: it asks `can_use_asid` and, if that fails, takes the
slow path `alloc_asid`, on the same CPU and for the same address space). -/
def context_switch (cfg : Config) (cpu slot : Nat) (w : Sys) : Sys :=
  if (AsidAlloc.can_use_asid cfg cpu (w.slots slot) w.alloc).1 then
    Sys.can_use_asid cfg cpu slot w
  else
    Sys.alloc_asid cfg cpu slot (Sys.can_use_asid cfg cpu slot w)

/-- States reachable from the start by context switches on online CPUs. -/
inductive Reachable_switch (cfg : Config) : Sys → Prop
  | init : Reachable_switch cfg (Sys.init cfg)
  | switch (w : Sys) (cpu slot : Nat) :
      Reachable_switch cfg w → Cpu_online cfg cpu →
      Reachable_switch cfg (context_switch cfg cpu slot w)

/-- An online CPU that owes a flush has no valid `active` value. -/
def Flush_inv (cfg : Config) (w : Sys) : Prop :=
  ∀ c, Cpu_online cfg c → w.alloc.tlb_flush_pending c = true →
    is_valid cfg (w.alloc.asids c).active = false

/-- The check in the second branch of `Asid_t::is_valid`, for a 64-bit value
on a machine with a narrower word: the 32-bit AND of the two halves is not
all ones. -/
def is_valid_split (a : Nat) : Bool :=
  ((a >>> 32) % 2 ^ 32 &&& a % 2 ^ 32) != 2 ^ 32 - 1

/-- Validity as the specification words it: `is_valid(v)` iff `v != Invalid`. -/
def is_valid_spec (cfg : Config) (v : Nat) : Bool := v != Invalid cfg

/-- Equality of generations as the specification words it:
`(a & ~Mask) == (b & ~Mask)`. -/
def same_generation_spec (cfg : Config) (a b : Nat) : Bool :=
  (a &&& not_Mask cfg) == (b &&& not_Mask cfg)

/-- The invalid generation as the specification words it: the generation
field of `v`, id bits cleared, equals the generation field of `Invalid`. -/
def is_invalid_generation_spec (cfg : Config) (v : Nat) : Bool :=
  (v &&& not_Mask cfg) == (Invalid cfg &&& not_Mask cfg)

/-- The bitmap after `n` successive calls of `find_next` (no `reset` in
between). -/
def find_next_iter (cfg : Config) : Nat → Asid_bitmap → Asid_bitmap
  | 0, bm => bm
  | n + 1, bm => (find_next cfg (find_next_iter cfg n bm)).2

/-! ## Concrete instances -/

/-- The instance of the example scenario: 64-bit values on a 64-bit machine,
two id bits, `ASID_BASE = 1`, CPUs 0 and 1 online. -/
def scenario_cfg : Config :=
  { width := 64, mword_width := 64, ASID_BITS := 2, ASID_BASE := 1, max_num_cpus := 2,
    online := fun _ => true }

/-- The scenario after A was allocated on CPU 0. -/
def scenario_1 : Sys := Sys.alloc_asid scenario_cfg 0 0 (Sys.init scenario_cfg)

/-- The scenario after B was allocated on CPU 1. -/
def scenario_2 : Sys := Sys.alloc_asid scenario_cfg 1 1 scenario_1

/-- The scenario after C was allocated on CPU 0. -/
def scenario_3 : Sys := Sys.alloc_asid scenario_cfg 0 2 scenario_2

/-- The scenario after D was allocated on CPU 1 (with a roll-over). -/
def scenario_4 : Sys := Sys.alloc_asid scenario_cfg 1 3 scenario_3

/-- The scenario after CPU 1 switched back to B. -/
def scenario_5 : Sys := Sys.alloc_asid scenario_cfg 1 1 scenario_4

/-- An instance with a single assignable id: one id bit, `ASID_BASE = 1`, one
online CPU. -/
def small_cfg : Config :=
  { width := 64, mword_width := 64, ASID_BITS := 1, ASID_BASE := 1, max_num_cpus := 1,
    online := fun _ => true }

/-- The single-id instance after one address space was given the id on CPU 0. -/
def small_1 : Sys := Sys.alloc_asid small_cfg 0 0 (Sys.init small_cfg)

/-- Six allocations on CPU 0 for the address spaces 0 to 5 in the scenario
instance: two roll-overs happen, address space 1 keeps its stale value with
id 2, and CPU 0 has the later owner of id 2 reserved. -/
def reuse_w : Sys :=
  Sys.alloc_asid scenario_cfg 0 5 (Sys.alloc_asid scenario_cfg 0 4
    (Sys.alloc_asid scenario_cfg 0 3 (Sys.alloc_asid scenario_cfg 0 2
      (Sys.alloc_asid scenario_cfg 0 1 (Sys.alloc_asid scenario_cfg 0 0
        (Sys.init scenario_cfg))))))

/-- Five context switches in the scenario instance: to A on CPU 0, B on CPU 1,
C on CPU 0, D on CPU 1 (which rolls over), and again to C on CPU 0. -/
def switch_w : Sys :=
  context_switch scenario_cfg 0 2 (context_switch scenario_cfg 1 3
    (context_switch scenario_cfg 0 2 (context_switch scenario_cfg 1 1
      (context_switch scenario_cfg 0 0 (Sys.init scenario_cfg)))))

/-- The scenario instance on a machine with 32-bit words: `is_valid` takes its
second branch. -/
def split_cfg : Config :=
  { width := 64, mword_width := 32, ASID_BITS := 2, ASID_BASE := 1, max_num_cpus := 2,
    online := fun _ => true }

/-! # Theorems -/

/-! ## Arithmetic of the packed value -/

theorem and_not_low (a W B : Nat) (ha : a < 2 ^ W) (hB : B ≤ W) :
    a &&& ((2 ^ W - 1) ^^^ (2 ^ B - 1)) = 2 ^ B * (a / 2 ^ B) := by
  apply Nat.eq_of_testBit_eq
  intro i
  rw [Nat.testBit_and, Nat.testBit_xor, Nat.testBit_two_pow_sub_one, Nat.testBit_two_pow_sub_one,
    Nat.testBit_mul_pow_two, ← Nat.shiftRight_eq_div_pow, Nat.testBit_shiftRight]
  by_cases h1 : i < B
  · have h2 : i < W := by omega
    simp [h1, h2]
  · have h3 : B + (i - B) = i := by omega
    rw [h3]
    by_cases h2 : i < W
    · simp [h1, h2]; omega
    · have : a.testBit i = false := by
        apply Nat.testBit_lt_two_pow
        exact lt_of_lt_of_le ha (Nat.pow_le_pow_right (by decide) (by omega))
      simp [this]

theorem Generation_inc_eq {cfg : Config} (wf : cfg.wf) : Generation_inc cfg = 2 ^ cfg.ASID_BITS := by
  unfold Generation_inc
  rw [Nat.one_shiftLeft]
  apply Nat.mod_eq_of_lt
  exact Nat.pow_lt_pow_right (by decide) (by have := wf.bits_lt; omega)

theorem Asid_num_eq (cfg : Config) : Asid_num cfg = 2 ^ cfg.ASID_BITS := by
  unfold Asid_num; rw [Nat.one_shiftLeft]

theorem pow_bits_lt {cfg : Config} (wf : cfg.wf) : 4 * 2 ^ cfg.ASID_BITS ≤ 2 ^ cfg.width := by
  have h := wf.bits_lt
  have : 2 ^ (cfg.ASID_BITS + 2) ≤ 2 ^ cfg.width := Nat.pow_le_pow_right (by decide) h
  rw [Nat.pow_add] at this
  omega

theorem Mask_eq {cfg : Config} (wf : cfg.wf) : Mask cfg = 2 ^ cfg.ASID_BITS - 1 := by
  unfold Mask
  rw [Generation_inc_eq wf]
  have h := pow_bits_lt wf
  have hp : 0 < 2 ^ cfg.ASID_BITS := Nat.two_pow_pos _
  have e : 2 ^ cfg.ASID_BITS + 2 ^ cfg.width - 1 = (2 ^ cfg.ASID_BITS - 1) + 2 ^ cfg.width := by omega
  rw [e, Nat.add_mod_right]
  apply Nat.mod_eq_of_lt
  omega

theorem asid_eq {cfg : Config} (wf : cfg.wf) (a : Nat) : asid cfg a = a % 2 ^ cfg.ASID_BITS := by
  unfold asid
  rw [Mask_eq wf, Nat.and_pow_two_sub_one_eq_mod]

theorem gen_part_eq {cfg : Config} (wf : cfg.wf) (a : Nat) (ha : a < 2 ^ cfg.width) :
    a &&& not_Mask cfg = 2 ^ cfg.ASID_BITS * (a / 2 ^ cfg.ASID_BITS) := by
  unfold not_Mask Invalid
  rw [Mask_eq wf]
  exact and_not_low a cfg.width cfg.ASID_BITS ha (by have := wf.bits_lt; omega)

theorem div_pred (p k : Nat) (hp : 0 < p) : (p * (k + 1) - 1) / p = k := by
  apply Nat.div_eq_of_lt_le
  · rw [Nat.mul_succ, Nat.mul_comm k p]; omega
  · rw [Nat.mul_succ, Nat.succ_mul, Nat.mul_comm k p]; omega

theorem invalid_gen_eq {cfg : Config} (wf : cfg.wf) :
    Invalid cfg &&& not_Mask cfg = 2 ^ cfg.width - 2 ^ cfg.ASID_BITS := by
  have hW : 0 < 2 ^ cfg.width := Nat.two_pow_pos _
  rw [gen_part_eq wf _ (by unfold Invalid; omega)]
  unfold Invalid
  have hle : cfg.ASID_BITS ≤ cfg.width := by have := wf.bits_lt; omega
  obtain ⟨d, hd⟩ := Nat.exists_eq_add_of_le hle
  have hp : 0 < 2 ^ cfg.ASID_BITS := Nat.two_pow_pos _
  have hd0 : 0 < 2 ^ d := Nat.two_pow_pos _
  obtain ⟨k, hk⟩ : ∃ k, 2 ^ d = k + 1 := ⟨2 ^ d - 1, by omega⟩
  have e : 2 ^ cfg.width = 2 ^ cfg.ASID_BITS * (k + 1) := by rw [hd, Nat.pow_add, hk]
  rw [e, div_pred _ _ hp, Nat.mul_succ]
  omega

theorem is_valid_iff {cfg : Config} (wf : cfg.wf) (a : Nat) (ha : a < 2 ^ cfg.width) :
    is_valid cfg a = true ↔ a ≠ Invalid cfg := by
  unfold is_valid
  by_cases hw : cfg.width = cfg.mword_width
  · simp [hw]
  · have h64 : cfg.width = 64 := by cases wf.word with
      | inl h => exact absurd h hw
      | inr h => exact h
    rw [if_neg hw]
    unfold Invalid
    rw [h64] at ha ⊢
    have h1 : (a >>> 32) % 2 ^ 32 &&& a % 2 ^ 32 ≤ (a >>> 32) % 2 ^ 32 := Nat.and_le_left
    have h2 : (a >>> 32) % 2 ^ 32 &&& a % 2 ^ 32 ≤ a % 2 ^ 32 := Nat.and_le_right
    rw [Nat.shiftRight_eq_div_pow] at h1 h2 ⊢
    constructor
    · intro h e
      subst e
      revert h
      decide
    · intro h
      simp only [bne_iff_ne, ne_eq]
      intro e
      apply h
      rw [e] at h1 h2
      omega

theorem or_eq_add {B n g : Nat} (hn : n < 2 ^ B) (hg : g % 2 ^ B = 0) : n ||| g = g + n := by
  have e : g = 2 ^ B * (g / 2 ^ B) := by
    have := Nat.div_add_mod g (2 ^ B)
    omega
  rw [Nat.or_comm]
  conv_lhs => rw [e]
  conv_rhs => rw [e]
  exact (Nat.mul_add_lt_is_or hn _).symm

theorem is_same_generation_iff {cfg : Config} (wf : cfg.wf) (a g : Nat) (ha : a < 2 ^ cfg.width) :
    is_same_generation cfg a g = true ↔ 2 ^ cfg.ASID_BITS * (a / 2 ^ cfg.ASID_BITS) = g := by
  unfold is_same_generation
  rw [gen_part_eq wf a ha]
  simp

theorem is_invalid_generation_iff {cfg : Config} (wf : cfg.wf) (g : Nat) :
    is_invalid_generation cfg g = true ↔ g = 2 ^ cfg.width - 2 ^ cfg.ASID_BITS := by
  unfold is_invalid_generation
  rw [invalid_gen_eq wf]
  simp

/-! ## `find_next` -/

theorem to_unsigned_of_lt {x : Nat} (h : x < 2 ^ 32) : to_unsigned x = x :=
  Nat.mod_eq_of_lt h

theorem Asid_num_lt {cfg : Config} (wf : cfg.wf) : Asid_num cfg < 2 ^ 32 := by
  rw [Asid_num_eq]
  exact Nat.pow_lt_pow_right (by decide) wf.bits_unsigned

theorem find_next_loop_spec {cfg : Config} (wf : cfg.wf) (bm : Asid_bitmap) :
    ∀ fuel i, Asid_num cfg - i ≤ fuel → find_next_post cfg bm i (find_next_loop cfg bm fuel i) := by
  have hN := Asid_num_lt wf
  intro fuel
  induction fuel with
  | zero =>
    intro i hi
    left
    refine ⟨?_, rfl, ?_⟩
    · simp only [find_next_loop]; exact to_unsigned_of_lt hN
    · intro j h1 h2; omega
  | succ fuel ih =>
    intro i hi
    unfold find_next_loop
    by_cases h1 : i < Asid_num cfg
    · rw [if_pos h1]
      have hu : to_unsigned (i + 1) = i + 1 := to_unsigned_of_lt (by omega)
      by_cases h2 : bm.bits i = false
      · have hb : (bm.bits i == false) = true := by rw [h2]; rfl
        rw [if_pos hb, hu]
        right
        refine ⟨le_refl _, h1, h2, ?_, rfl⟩
        intro j h3 h4; omega
      · have h2t : bm.bits i = true := by simpa using h2
        have hb : ¬ ((bm.bits i == false) = true) := by rw [h2t]; decide
        rw [if_neg hb, hu]
        have := ih (i + 1) (by omega)
        rcases this with ⟨e1, e2, e3⟩ | ⟨e1, e2, e3, e4, e5⟩
        · left
          refine ⟨e1, e2, ?_⟩
          intro j h3 h4
          by_cases hj : j = i
          · rw [hj]; exact h2t
          · exact e3 j (by omega) h4
        · right
          refine ⟨by omega, e2, e3, ?_, e5⟩
          intro j h3 h4
          by_cases hj : j = i
          · rw [hj]; exact h2t
          · exact e4 j (by omega) h4
    · rw [if_neg h1]
      left
      refine ⟨to_unsigned_of_lt hN, rfl, ?_⟩
      intro j h3 h4; omega

theorem find_next_spec {cfg : Config} (wf : cfg.wf) (bm : Asid_bitmap) :
    find_next_post cfg bm bm.current_idx (find_next cfg bm) :=
  find_next_loop_spec wf bm _ _ (le_refl _)

/-! ## Loops over the CPUs -/

theorem foldl_range_succ {σ : Type} (f : σ → Nat → σ) (x : σ) (n : Nat) :
    (List.range (n + 1)).foldl f x = f ((List.range n).foldl f x) n := by
  rw [List.range_succ, List.foldl_append]
  rfl

theorem check_and_update_reserved_loop (cfg : Config) (a update : Nat) (s : Asid_alloc) :
    ∀ n, check_and_update_reserved_post cfg a update s n
      ((List.range n).foldl (check_and_update_reserved_body cfg a update) (false, s)) := by
  intro n
  induction n with
  | zero =>
    refine ⟨rfl, rfl, rfl, ?_, ?_⟩
    · intro c; simp
    · simp
  | succ n ih =>
    rw [foldl_range_succ]
    generalize (List.range n).foldl (check_and_update_reserved_body cfg a update) (false, s) = r at ih
    obtain ⟨h1, h2, h3, h4, h5⟩ := ih
    unfold check_and_update_reserved_body
    by_cases ho : cfg.online n = true
    · have hn : r.2.asids n = s.asids n := by rw [h4 n]; simp
      simp only [ho, Bool.not_true, Bool.false_eq_true, if_false]
      unfold Asids_per_cpu.check_and_update_reserved
      rw [hn]
      by_cases hr : (s.asids n).reserved = a
      · rw [if_pos hr]
        refine ⟨h1, h2, h3, ?_, ?_⟩
        · intro c
          simp only [set_cpu]
          by_cases hc : c = n
          · subst hc; simp [ho, hr]
          · rw [if_neg hc, h4 c]
            have : c < n + 1 ↔ c < n := by omega
            simp only [this]
        · simp only [Bool.or_true, true_iff]
          exact ⟨n, by omega, ho, hr⟩
      · rw [if_neg hr]
        refine ⟨h1, h2, h3, ?_, ?_⟩
        · intro c
          simp only [set_cpu]
          by_cases hc : c = n
          · subst hc; simp [hr]
          · rw [if_neg hc, h4 c]
            have : c < n + 1 ↔ c < n := by omega
            simp only [this]
        · simp only [Bool.or_false]
          rw [h5]
          constructor
          · rintro ⟨c, c1, c2, c3⟩; exact ⟨c, by omega, c2, c3⟩
          · rintro ⟨c, c1, c2, c3⟩
            have : c ≠ n := by rintro rfl; exact hr c3
            exact ⟨c, by omega, c2, c3⟩
    · have ho2 : cfg.online n = false := by simpa using ho
      simp only [ho2, Bool.not_false, if_true]
      refine ⟨h1, h2, h3, ?_, ?_⟩
      · intro c
        rw [h4 c]
        by_cases hc : c = n
        · subst hc; simp [ho2]
        · have : c < n + 1 ↔ c < n := by omega
          simp only [this]
      · rw [h5]
        constructor
        · rintro ⟨c, c1, c2, c3⟩; exact ⟨c, by omega, c2, c3⟩
        · rintro ⟨c, c1, c2, c3⟩
          have : c ≠ n := by rintro rfl; rw [ho2] at c2; exact Bool.noConfusion c2
          exact ⟨c, by omega, c2, c3⟩

theorem check_and_update_reserved_spec (cfg : Config) (a update : Nat) (s : Asid_alloc) :
    check_and_update_reserved_post cfg a update s cfg.max_num_cpus
      (check_and_update_reserved cfg a update s) :=
  check_and_update_reserved_loop cfg a update s cfg.max_num_cpus

theorem roll_over_loop (cfg : Config) (s : Asid_alloc) :
    ∀ n, roll_over_post cfg s n ((List.range n).foldl (roll_over_body cfg) s) := by
  intro n
  induction n with
  | zero =>
    refine ⟨rfl, rfl, rfl, ?_, ?_⟩
    · intro c; simp
    · intro k; simp
  | succ n ih =>
    rw [foldl_range_succ]
    generalize (List.range n).foldl (roll_over_body cfg) s = r at ih
    obtain ⟨h1, h2, h3, h4, h5⟩ := ih
    unfold roll_over_body
    by_cases ho : cfg.online n = true
    · have hn : r.asids n = s.asids n := by rw [h4 n]; simp
      simp only [ho, Bool.not_true, Bool.false_eq_true, if_false]
      rw [hn]
      have hv : (if is_valid cfg (s.asids n).active = true then (s.asids n).active
          else (s.asids n).reserved) = rolled_reserved cfg s n := rfl
      rw [hv]
      have hasids : ∀ c, set_cpu r.asids n
          (if is_valid cfg (s.asids n).active = true then
            { active := Invalid cfg, reserved := (s.asids n).active }
          else { active := Invalid cfg, reserved := (s.asids n).reserved }) c =
          if c < n + 1 ∧ cfg.online c = true then
            { active := Invalid cfg, reserved := rolled_reserved cfg s c }
          else s.asids c := by
        intro c
        simp only [set_cpu]
        by_cases hc : c = n
        · subst hc
          simp only [if_true, ho, and_true, Nat.lt_succ_self, rolled_reserved]
          split <;> rfl
        · rw [if_neg hc, h4 c]
          have : c < n + 1 ↔ c < n := by omega
          simp only [this]
      by_cases hval : is_valid cfg (rolled_reserved cfg s n) = true
      · rw [if_pos hval]
        refine ⟨h1, h2, h3, hasids, ?_⟩
        intro k
        simp only [Asid_bitmap.set_bit]
        by_cases hk : k = asid cfg (rolled_reserved cfg s n)
        · simp only [hk, if_true, true_iff]
          right
          exact ⟨n, by omega, ho, hval, rfl⟩
        · rw [if_neg hk, h5 k]
          constructor
          · rintro (h | ⟨c, c1, c2, c3, c4⟩)
            · left; exact h
            · right; exact ⟨c, by omega, c2, c3, c4⟩
          · rintro (h | ⟨c, c1, c2, c3, c4⟩)
            · left; exact h
            · right
              have : c ≠ n := by rintro rfl; exact hk c4.symm
              exact ⟨c, by omega, c2, c3, c4⟩
      · rw [if_neg hval]
        refine ⟨h1, h2, h3, hasids, ?_⟩
        intro k
        rw [h5 k]
        constructor
        · rintro (h | ⟨c, c1, c2, c3, c4⟩)
          · left; exact h
          · right; exact ⟨c, by omega, c2, c3, c4⟩
        · rintro (h | ⟨c, c1, c2, c3, c4⟩)
          · left; exact h
          · right
            have : c ≠ n := by rintro rfl; exact hval c3
            exact ⟨c, by omega, c2, c3, c4⟩
    · have ho2 : cfg.online n = false := by simpa using ho
      simp only [ho2, Bool.not_false, if_true]
      refine ⟨h1, h2, h3, ?_, ?_⟩
      · intro c
        rw [h4 c]
        by_cases hc : c = n
        · subst hc; simp [ho2]
        · have : c < n + 1 ↔ c < n := by omega
          simp only [this]
      · intro k
        rw [h5 k]
        constructor
        · rintro (h | ⟨c, c1, c2, c3, c4⟩)
          · left; exact h
          · right; exact ⟨c, by omega, c2, c3, c4⟩
        · rintro (h | ⟨c, c1, c2, c3, c4⟩)
          · left; exact h
          · right
            have : c ≠ n := by rintro rfl; rw [ho2] at c2; exact Bool.noConfusion c2
            exact ⟨c, by omega, c2, c3, c4⟩

/-- The state `roll_over` produces, field by field. -/
theorem roll_over_spec (cfg : Config) (s : Asid_alloc) :
    (roll_over cfg s).gen = s.gen ∧
    (roll_over cfg s).tlb_flush_pending = cfg.online ∧
    (roll_over cfg s).reserved.current_idx = to_unsigned cfg.ASID_BASE ∧
    (∀ c, (roll_over cfg s).asids c =
      if c < cfg.max_num_cpus ∧ cfg.online c = true then
        { active := Invalid cfg, reserved := rolled_reserved cfg s c }
      else s.asids c) ∧
    (∀ k, (roll_over cfg s).reserved.bits k = true ↔
      ∃ c, c < cfg.max_num_cpus ∧ cfg.online c = true ∧
        is_valid cfg (rolled_reserved cfg s c) = true ∧ asid cfg (rolled_reserved cfg s c) = k) := by
  obtain ⟨h1, _, h3, h4, h5⟩ :=
    roll_over_loop cfg { s with reserved := s.reserved.reset cfg } cfg.max_num_cpus
  refine ⟨h1, rfl, h3, h4, ?_⟩
  intro k
  have := h5 k
  simp only [roll_over]
  rw [this]
  simp [Asid_bitmap.reset, rolled_reserved]

/-! ## The paths through `new_asid` and `alloc_asid` -/

theorem check_and_update_reserved_true_iff (cfg : Config) (a update : Nat) (s : Asid_alloc) :
    (check_and_update_reserved cfg a update s).1 = true ↔
      ∃ c, Cpu_online cfg c ∧ (s.asids c).reserved = a := by
  obtain ⟨_, _, _, _, h5⟩ := check_and_update_reserved_spec cfg a update s
  rw [h5]
  constructor
  · rintro ⟨c, c1, c2, c3⟩; exact ⟨c, ⟨c1, c2⟩, c3⟩
  · rintro ⟨c, ⟨c1, c2⟩, c3⟩; exact ⟨c, c1, c2, c3⟩

theorem check_and_update_reserved_false (cfg : Config) (a update : Nat) (s : Asid_alloc)
    (h : (check_and_update_reserved cfg a update s).1 = false) :
    (check_and_update_reserved cfg a update s).2 = s := by
  have hne : ¬ ∃ c, Cpu_online cfg c ∧ (s.asids c).reserved = a := by
    rw [← check_and_update_reserved_true_iff cfg a update s, h]; decide
  obtain ⟨h1, h2, h3, h4, _⟩ := check_and_update_reserved_spec cfg a update s
  generalize (check_and_update_reserved cfg a update s).2 = t at h1 h2 h3 h4
  have h4e : t.asids = s.asids := by
    funext c
    rw [h4 c, if_neg]
    rintro ⟨c1, c2, c3⟩
    exact hne ⟨c, ⟨c1, c2⟩, c3⟩
  cases t; cases s
  simp only at h1 h2 h3 h4e
  subst h1 h2 h3 h4e
  rfl

theorem new_asid_carry (cfg : Config) (a g : Nat) (s : Asid_alloc) (h : carries_over cfg a s) :
    new_asid cfg a g s = (asid cfg a ||| g, (check_and_update_reserved cfg a (asid cfg a ||| g) s).2) := by
  obtain ⟨h1, h2, h3⟩ := h
  have h4 := (check_and_update_reserved_true_iff cfg a (asid cfg a ||| g) s).2 h3
  unfold new_asid
  simp only [h1, h2, Bool.and_self, if_true, h4]

theorem new_asid_no_carry (cfg : Config) (a g : Nat) (s : Asid_alloc) (h : ¬ carries_over cfg a s) :
    new_asid cfg a g s = new_asid_fresh cfg g s := by
  unfold new_asid
  by_cases hc : (is_valid cfg a && s.reserved.bits (asid cfg a)) = true
  · rw [if_pos hc]
    have hf : (check_and_update_reserved cfg a (asid cfg a ||| g) s).1 = false := by
      cases hr : (check_and_update_reserved cfg a (asid cfg a ||| g) s).1 with
      | false => rfl
      | true =>
        exfalso
        apply h
        rw [Bool.and_eq_true] at hc
        exact ⟨hc.1, hc.2, (check_and_update_reserved_true_iff cfg a _ s).1 hr⟩
    simp only [hf, Bool.false_eq_true, if_false]
    rw [check_and_update_reserved_false cfg a _ s hf]
  · rw [if_neg hc]

theorem new_asid_fresh_found {cfg : Config} (wf : cfg.wf) (g : Nat) (s : Asid_alloc)
    (h : (find_next cfg s.reserved).1 ≠ Asid_num cfg) :
    new_asid_fresh cfg g s =
      ((find_next cfg s.reserved).1 ||| g,
        { s with reserved :=
          { s.reserved with current_idx := (find_next cfg s.reserved).1 + 1 } }) := by
  unfold new_asid_fresh
  simp only [h, if_false]
  rcases find_next_spec wf s.reserved with ⟨e1, _, _⟩ | ⟨_, _, _, _, e5⟩
  · exact absurd e1 h
  · rw [e5]

theorem new_asid_fresh_roll {cfg : Config} (wf : cfg.wf) (g : Nat) (s : Asid_alloc)
    (h : (find_next cfg s.reserved).1 = Asid_num cfg) :
    new_asid_fresh cfg g s =
      ((find_next cfg (roll_over cfg { s with gen := next_gen cfg s.gen }).reserved).1 |||
          next_gen cfg s.gen,
        { roll_over cfg { s with gen := next_gen cfg s.gen } with
          reserved := (find_next cfg (roll_over cfg { s with gen := next_gen cfg s.gen }).reserved).2 }) := by
  have h2 : (find_next cfg s.reserved).2 = s.reserved := by
    rcases find_next_spec wf s.reserved with ⟨_, e2, _⟩ | ⟨_, e2, _⟩
    · exact e2
    · omega
  unfold new_asid_fresh
  simp only [h, if_true, h2]
  have e : (if is_invalid_generation cfg (bump_gen cfg { s with reserved := s.reserved }).gen = true
      then bump_gen cfg (bump_gen cfg { s with reserved := s.reserved })
      else bump_gen cfg { s with reserved := s.reserved }) = { s with gen := next_gen cfg s.gen } := by
    unfold next_gen bump_gen
    split <;> rfl
  rw [e]

/-! ## A free id after `roll_over` -/

theorem num_online_eq_card (cfg : Config) :
    num_online cfg =
      ((Finset.range cfg.max_num_cpus).filter (fun c => cfg.online c = true)).card := by
  unfold num_online
  rw [← List.toFinset_card_of_nodup ((List.nodup_range _).filter _)]
  congr 1
  ext c
  simp

theorem roll_over_bits_card_le (cfg : Config) (s : Asid_alloc) (F : Finset Nat)
    (hF : ∀ k ∈ F, (roll_over cfg s).reserved.bits k = true) : F.card ≤ num_online cfg := by
  rw [num_online_eq_card]
  have hsub : F ⊆ ((Finset.range cfg.max_num_cpus).filter (fun c => cfg.online c = true)).image
      (fun c => asid cfg (rolled_reserved cfg s c)) := by
    intro k hk
    obtain ⟨c, c1, c2, _, c4⟩ := ((roll_over_spec cfg s).2.2.2.2 k).1 (hF k hk)
    rw [Finset.mem_image]
    exact ⟨c, by simp [c1, c2], c4⟩
  exact le_trans (Finset.card_le_card hsub) Finset.card_image_le

theorem roll_over_free_id (cfg : Config) (s : Asid_alloc)
    (hn : num_online cfg < Asid_num cfg - cfg.ASID_BASE) :
    ∃ i, cfg.ASID_BASE ≤ i ∧ i < Asid_num cfg ∧ (roll_over cfg s).reserved.bits i = false := by
  by_contra hcon
  have hall : ∀ k ∈ Finset.Ico cfg.ASID_BASE (Asid_num cfg),
      (roll_over cfg s).reserved.bits k = true := by
    intro k hk
    rw [Finset.mem_Ico] at hk
    cases hb : (roll_over cfg s).reserved.bits k with
    | true => rfl
    | false => exact absurd ⟨k, hk.1, hk.2, hb⟩ hcon
  have := roll_over_bits_card_le cfg s _ hall
  rw [Nat.card_Ico] at this
  omega

/-- After a roll-over the retried `find_next` finds a free id at or above
`ASID_BASE`, provided there are more such ids than online CPUs. -/
theorem find_next_after_roll_over {cfg : Config} (wf : cfg.wf) (s : Asid_alloc)
    (hn : num_online cfg < Asid_num cfg - cfg.ASID_BASE) :
    cfg.ASID_BASE ≤ (find_next cfg (roll_over cfg s).reserved).1 ∧
    (find_next cfg (roll_over cfg s).reserved).1 < Asid_num cfg ∧
    (roll_over cfg s).reserved.bits (find_next cfg (roll_over cfg s).reserved).1 = false ∧
    (find_next cfg (roll_over cfg s).reserved).2 =
      { (roll_over cfg s).reserved with
        current_idx := (find_next cfg (roll_over cfg s).reserved).1 + 1 } := by
  obtain ⟨i, i1, i2, i3⟩ := roll_over_free_id cfg s hn
  have hcur : (roll_over cfg s).reserved.current_idx = cfg.ASID_BASE := by
    rw [(roll_over_spec cfg s).2.2.1]
    apply to_unsigned_of_lt
    have := Asid_num_lt wf
    omega
  have := find_next_spec wf (roll_over cfg s).reserved
  rw [hcur] at this
  rcases this with ⟨_, _, e3⟩ | ⟨e1, e2, e3, _, e5⟩
  · have := e3 i i1 i2
    rw [i3] at this
    exact Bool.noConfusion this
  · exact ⟨e1, e2, e3, e5⟩

/-! ## Packed values -/

theorem asid_lt {cfg : Config} (wf : cfg.wf) (a : Nat) : asid cfg a < 2 ^ cfg.ASID_BITS := by
  rw [asid_eq wf]
  exact Nat.mod_lt _ (Nat.two_pow_pos _)

theorem Invalid_lt (cfg : Config) : Invalid cfg < 2 ^ cfg.width := by
  have := Nat.two_pow_pos cfg.width
  unfold Invalid
  omega

theorem pow_bits_lt_pow_width {cfg : Config} (wf : cfg.wf) : 2 ^ cfg.ASID_BITS < 2 ^ cfg.width := by
  have := pow_bits_lt wf
  have := Nat.two_pow_pos cfg.ASID_BITS
  omega

theorem packed_lt {cfg : Config} (wf : cfg.wf) {n g : Nat} (hn : n ≤ 2 ^ cfg.ASID_BITS)
    (hg : g < 2 ^ cfg.width) : n ||| g < 2 ^ cfg.width :=
  Nat.or_lt_two_pow (lt_of_le_of_lt hn (pow_bits_lt_pow_width wf)) hg

theorem asid_packed {cfg : Config} (wf : cfg.wf) {n g : Nat} (hn : n < 2 ^ cfg.ASID_BITS)
    (hg : g % 2 ^ cfg.ASID_BITS = 0) : asid cfg (n ||| g) = n := by
  rw [asid_eq wf, or_eq_add hn hg, Nat.add_mod, hg, Nat.zero_add, Nat.mod_mod, Nat.mod_eq_of_lt hn]

theorem gen_packed {cfg : Config} {n g : Nat} (hn : n < 2 ^ cfg.ASID_BITS)
    (hg : g % 2 ^ cfg.ASID_BITS = 0) :
    2 ^ cfg.ASID_BITS * ((n ||| g) / 2 ^ cfg.ASID_BITS) = g := by
  rw [or_eq_add hn hg]
  have hp : 0 < 2 ^ cfg.ASID_BITS := Nat.two_pow_pos _
  obtain ⟨q, hq⟩ := Nat.dvd_of_mod_eq_zero hg
  rw [hq, Nat.mul_add_div hp, Nat.div_eq_of_lt hn, Nat.add_zero]

theorem is_same_generation_packed {cfg : Config} (wf : cfg.wf) {n g : Nat} (g2 : Nat)
    (hn : n < 2 ^ cfg.ASID_BITS) (hg : g % 2 ^ cfg.ASID_BITS = 0) (hl : g < 2 ^ cfg.width) :
    is_same_generation cfg (n ||| g) g2 = true ↔ g = g2 := by
  rw [is_same_generation_iff wf _ _ (packed_lt wf (le_of_lt hn) hl), gen_packed hn hg]

theorem is_same_generation_Invalid {cfg : Config} (g : Nat)
    (h : is_same_generation cfg (Invalid cfg) g = true) : is_invalid_generation cfg g = true := by
  unfold is_same_generation at h
  unfold is_invalid_generation
  rw [beq_iff_eq] at h ⊢
  exact h.symm

theorem is_valid_of_same_generation {cfg : Config} (wf : cfg.wf) {a g : Nat}
    (ha : a < 2 ^ cfg.width) (hg : is_invalid_generation cfg g = false)
    (h : is_same_generation cfg a g = true) : is_valid cfg a = true := by
  rw [is_valid_iff wf a ha]
  rintro rfl
  rw [is_same_generation_Invalid g h] at hg
  exact Bool.noConfusion hg

theorem eq_of_same_generation_of_asid {cfg : Config} (wf : cfg.wf) {a b g : Nat}
    (ha : a < 2 ^ cfg.width) (hb : b < 2 ^ cfg.width)
    (h1 : is_same_generation cfg a g = true) (h2 : is_same_generation cfg b g = true)
    (h3 : asid cfg a = asid cfg b) : a = b := by
  rw [is_same_generation_iff wf a g ha] at h1
  rw [is_same_generation_iff wf b g hb] at h2
  rw [asid_eq wf, asid_eq wf] at h3
  have e1 := Nat.div_add_mod a (2 ^ cfg.ASID_BITS)
  have e2 := Nat.div_add_mod b (2 ^ cfg.ASID_BITS)
  omega

/-! ## The generation counter -/

theorem aligned_succ_le {P q m : Nat} (h : P * q < P * m) : P * q + P ≤ P * m := by
  have : q < m := Nat.lt_of_mul_lt_mul_left h
  calc P * q + P = P * (q + 1) := by rw [Nat.mul_succ]
    _ ≤ P * m := Nat.mul_le_mul_left P this

theorem aligned_le {cfg : Config} (wf : cfg.wf) {g : Nat} (h1 : g % 2 ^ cfg.ASID_BITS = 0)
    (h2 : g < 2 ^ cfg.width) : g + 2 ^ cfg.ASID_BITS ≤ 2 ^ cfg.width := by
  obtain ⟨q, hq⟩ := Nat.dvd_of_mod_eq_zero h1
  have hle : cfg.ASID_BITS ≤ cfg.width := by have := wf.bits_lt; omega
  obtain ⟨d, hd⟩ := Nat.exists_eq_add_of_le hle
  have e : 2 ^ cfg.width = 2 ^ cfg.ASID_BITS * 2 ^ d := by rw [hd, Nat.pow_add]
  rw [hq, e] at h2 ⊢
  exact aligned_succ_le h2

theorem pow_bits_dvd {cfg : Config} (wf : cfg.wf) : 2 ^ cfg.ASID_BITS ∣ 2 ^ cfg.width :=
  Nat.pow_dvd_pow 2 (by have := wf.bits_lt; omega)

theorem bump_aligned {cfg : Config} (wf : cfg.wf) {g : Nat} (h1 : g % 2 ^ cfg.ASID_BITS = 0) :
    ((g + Generation_inc cfg) % 2 ^ cfg.width) % 2 ^ cfg.ASID_BITS = 0 := by
  rw [Generation_inc_eq wf, Nat.mod_mod_of_dvd _ (pow_bits_dvd wf), Nat.add_mod_right, h1]

theorem next_gen_aligned {cfg : Config} (wf : cfg.wf) {g : Nat} (h1 : g % 2 ^ cfg.ASID_BITS = 0) :
    next_gen cfg g % 2 ^ cfg.ASID_BITS = 0 := by
  unfold next_gen
  split
  · exact bump_aligned wf (bump_aligned wf h1)
  · exact bump_aligned wf h1

theorem next_gen_lt (cfg : Config) (g : Nat) : next_gen cfg g < 2 ^ cfg.width := by
  unfold next_gen
  split <;> exact Nat.mod_lt _ (Nat.two_pow_pos _)

theorem next_gen_ok {cfg : Config} (wf : cfg.wf) (g : Nat) :
    is_invalid_generation cfg (next_gen cfg g) = false := by
  unfold next_gen
  split
  · rename_i h
    rw [is_invalid_generation_iff wf] at h
    rw [h, Generation_inc_eq wf]
    have h4 := pow_bits_lt wf
    have hp := Nat.two_pow_pos cfg.ASID_BITS
    have e : 2 ^ cfg.width - 2 ^ cfg.ASID_BITS + 2 ^ cfg.ASID_BITS = 2 ^ cfg.width := by omega
    rw [e, Nat.mod_self]
    cases hb : is_invalid_generation cfg 0 with
    | false => rfl
    | true =>
      rw [is_invalid_generation_iff wf] at hb
      omega
  · rename_i h
    simpa using h

/-- While the counter does not wrap, a roll-over adds exactly one increment. -/
theorem next_gen_of_le {cfg : Config} (wf : cfg.wf) {g : Nat} (h1 : g % 2 ^ cfg.ASID_BITS = 0)
    (h2 : g < 2 ^ cfg.width) (h3 : is_invalid_generation cfg g = false)
    (h4 : g ≤ next_gen cfg g) : next_gen cfg g = g + 2 ^ cfg.ASID_BITS := by
  have hle := aligned_le wf h1 h2
  have hp := Nat.two_pow_pos cfg.ASID_BITS
  have h4P := pow_bits_lt wf
  have hne : g ≠ 2 ^ cfg.width - 2 ^ cfg.ASID_BITS := by
    intro e
    have := (is_invalid_generation_iff wf g).2 e
    rw [h3] at this
    exact Bool.noConfusion this
  have hlt : g + 2 ^ cfg.ASID_BITS < 2 ^ cfg.width := by omega
  have e1 : (g + Generation_inc cfg) % 2 ^ cfg.width = g + 2 ^ cfg.ASID_BITS := by
    rw [Generation_inc_eq wf]; exact Nat.mod_eq_of_lt hlt
  unfold next_gen at h4 ⊢
  rw [e1] at h4 ⊢
  by_cases hi : is_invalid_generation cfg (g + 2 ^ cfg.ASID_BITS) = true
  · rw [if_pos hi] at h4
    rw [is_invalid_generation_iff wf] at hi
    rw [Generation_inc_eq wf] at h4
    have e : g + 2 ^ cfg.ASID_BITS + 2 ^ cfg.ASID_BITS = 2 ^ cfg.width := by omega
    rw [e, Nat.mod_self] at h4
    omega
  · rw [if_neg hi]

/-! ## The four paths of `alloc_asid` -/

theorem alloc_asid_eq (cfg : Config) (cpu a : Nat) (s : Asid_alloc) :
    alloc_asid cfg cpu a s =
      ((slow_path cfg a s).2.tlb_flush_pending cpu, (slow_path cfg a s).1,
        { (slow_path cfg a s).2 with
          asids := set_cpu (slow_path cfg a s).2.asids cpu
            { (slow_path cfg a s).2.asids cpu with active := (slow_path cfg a s).1 }
          tlb_flush_pending := fun c =>
            if c = cpu then false else (slow_path cfg a s).2.tlb_flush_pending c }) := rfl

theorem find_next_bits {cfg : Config} (wf : cfg.wf) (bm : Asid_bitmap) :
    (find_next cfg bm).2.bits = bm.bits := by
  rcases find_next_spec wf bm with ⟨_, e, _⟩ | ⟨_, _, _, _, e⟩ <;> rw [e]

theorem find_next_le {cfg : Config} (wf : cfg.wf) (bm : Asid_bitmap) :
    (find_next cfg bm).1 ≤ Asid_num cfg := by
  rcases find_next_spec wf bm with ⟨e, _, _⟩ | ⟨_, e, _⟩ <;> omega

theorem slow_path_same (cfg : Config) (a : Nat) (s : Asid_alloc)
    (h : is_same_generation cfg a s.gen = true) : slow_path cfg a s = (a, s) := by
  unfold slow_path
  simp [h]

theorem slow_path_carry (cfg : Config) (a : Nat) (s : Asid_alloc)
    (h : is_same_generation cfg a s.gen = false) (hc : carries_over cfg a s) :
    slow_path cfg a s =
      (asid cfg a ||| s.gen, (check_and_update_reserved cfg a (asid cfg a ||| s.gen) s).2) := by
  unfold slow_path
  simp only [h, Bool.not_false, if_true]
  exact new_asid_carry cfg a s.gen s hc

theorem slow_path_found {cfg : Config} (wf : cfg.wf) (a : Nat) (s : Asid_alloc)
    (h : is_same_generation cfg a s.gen = false) (hc : ¬ carries_over cfg a s)
    (hf : (find_next cfg s.reserved).1 ≠ Asid_num cfg) :
    slow_path cfg a s =
      ((find_next cfg s.reserved).1 ||| s.gen,
        { s with reserved :=
          { s.reserved with current_idx := (find_next cfg s.reserved).1 + 1 } }) := by
  unfold slow_path
  simp only [h, Bool.not_false, if_true]
  rw [new_asid_no_carry cfg a s.gen s hc, new_asid_fresh_found wf s.gen s hf]

theorem slow_path_roll {cfg : Config} (wf : cfg.wf) (a : Nat) (s : Asid_alloc)
    (h : is_same_generation cfg a s.gen = false) (hc : ¬ carries_over cfg a s)
    (hf : (find_next cfg s.reserved).1 = Asid_num cfg) :
    slow_path cfg a s =
      ((find_next cfg (rolled cfg s).reserved).1 ||| next_gen cfg s.gen,
        { rolled cfg s with reserved := (find_next cfg (rolled cfg s).reserved).2 }) := by
  unfold slow_path
  simp only [h, Bool.not_false, if_true]
  rw [new_asid_no_carry cfg a s.gen s hc, new_asid_fresh_roll wf s.gen s hf]
  rfl

theorem Sys.alloc_asid_slots (cfg : Config) (cpu slot : Nat) (w : Sys) (i : Nat) :
    (Sys.alloc_asid cfg cpu slot w).slots i =
      if i = slot then (slow_path cfg (w.slots slot) w.alloc).1 else w.slots i := rfl

theorem Sys.alloc_asid_gen (cfg : Config) (cpu slot : Nat) (w : Sys) :
    (Sys.alloc_asid cfg cpu slot w).alloc.gen = (slow_path cfg (w.slots slot) w.alloc).2.gen := rfl

theorem Sys.alloc_asid_reserved (cfg : Config) (cpu slot : Nat) (w : Sys) :
    (Sys.alloc_asid cfg cpu slot w).alloc.reserved =
      (slow_path cfg (w.slots slot) w.alloc).2.reserved := rfl

theorem Sys.alloc_asid_active (cfg : Config) (cpu slot : Nat) (w : Sys) (c : Nat) :
    ((Sys.alloc_asid cfg cpu slot w).alloc.asids c).active =
      if c = cpu then (slow_path cfg (w.slots slot) w.alloc).1
      else ((slow_path cfg (w.slots slot) w.alloc).2.asids c).active := by
  show (set_cpu _ _ _ c).active = _
  unfold set_cpu
  split <;> rfl

theorem Sys.alloc_asid_cpu_reserved (cfg : Config) (cpu slot : Nat) (w : Sys) (c : Nat) :
    ((Sys.alloc_asid cfg cpu slot w).alloc.asids c).reserved =
      ((slow_path cfg (w.slots slot) w.alloc).2.asids c).reserved := by
  show (set_cpu _ _ _ c).reserved = _
  unfold set_cpu
  split
  · rename_i h; rw [h]; rfl
  · rfl

theorem Sys.alloc_asid_pending (cfg : Config) (cpu slot : Nat) (w : Sys) (c : Nat) :
    (Sys.alloc_asid cfg cpu slot w).alloc.tlb_flush_pending c =
      if c = cpu then false
      else (slow_path cfg (w.slots slot) w.alloc).2.tlb_flush_pending c := rfl

theorem rolled_spec (cfg : Config) (s : Asid_alloc) :
    (rolled cfg s).gen = next_gen cfg s.gen ∧
    (rolled cfg s).tlb_flush_pending = cfg.online ∧
    (rolled cfg s).reserved.current_idx = to_unsigned cfg.ASID_BASE ∧
    (∀ c, (rolled cfg s).asids c =
      if Cpu_online cfg c then
        { active := Invalid cfg, reserved := rolled_reserved cfg s c }
      else s.asids c) ∧
    (∀ k, (rolled cfg s).reserved.bits k = true ↔
      ∃ c, Cpu_online cfg c ∧
        is_valid cfg (rolled_reserved cfg s c) = true ∧ asid cfg (rolled_reserved cfg s c) = k) := by
  obtain ⟨h1, h2, h3, h4, h5⟩ := roll_over_spec cfg { s with gen := next_gen cfg s.gen }
  refine ⟨h1, h2, h3, h4, ?_⟩
  intro k
  rw [rolled, h5 k]
  constructor
  · rintro ⟨c, c1, c2, c3, c4⟩; exact ⟨c, ⟨c1, c2⟩, c3, c4⟩
  · rintro ⟨c, ⟨c1, c2⟩, c3, c4⟩; exact ⟨c, c1, c2, c3, c4⟩

theorem carry_spec (cfg : Config) (a update : Nat) (s : Asid_alloc) :
    (check_and_update_reserved cfg a update s).2.gen = s.gen ∧
    (check_and_update_reserved cfg a update s).2.tlb_flush_pending = s.tlb_flush_pending ∧
    (check_and_update_reserved cfg a update s).2.reserved = s.reserved ∧
    (∀ c, ((check_and_update_reserved cfg a update s).2.asids c).active = (s.asids c).active) ∧
    (∀ c, ((check_and_update_reserved cfg a update s).2.asids c).reserved =
      if Cpu_online cfg c ∧ (s.asids c).reserved = a then update else (s.asids c).reserved) := by
  obtain ⟨h1, h2, h3, h4, _⟩ := check_and_update_reserved_spec cfg a update s
  refine ⟨h1, h2, h3, ?_, ?_⟩
  · intro c
    rw [h4 c]
    split <;> rfl
  · intro c
    rw [h4 c]
    by_cases h : c < cfg.max_num_cpus ∧ cfg.online c = true ∧ (s.asids c).reserved = a
    · rw [if_pos h, if_pos ⟨⟨h.1, h.2.1⟩, h.2.2⟩]
    · rw [if_neg h, if_neg]
      rintro ⟨⟨c1, c2⟩, c3⟩
      exact h ⟨c1, c2, c3⟩

/-! ## Basic invariant of the allocator -/

theorem Alloc_ok_init {cfg : Config} (wf : cfg.wf) : Alloc_ok cfg (Asid_alloc.init cfg) := by
  have h4 := pow_bits_lt wf
  have hp := Nat.two_pow_pos cfg.ASID_BITS
  refine ⟨?_, ?_, ?_, fun _ => Invalid_lt cfg, fun _ => Invalid_lt cfg, ?_⟩
  · show Generation_inc cfg % _ = 0
    rw [Generation_inc_eq wf, Nat.mod_self]
  · show Generation_inc cfg < _
    rw [Generation_inc_eq wf]; omega
  · show is_invalid_generation cfg (Generation_inc cfg) = false
    cases hb : is_invalid_generation cfg (Generation_inc cfg) with
    | false => rfl
    | true =>
      rw [is_invalid_generation_iff wf, Generation_inc_eq wf] at hb
      omega
  · intro c _ hv
    exfalso
    have : is_valid cfg (Invalid cfg) = true := hv
    rw [is_valid_iff wf _ (Invalid_lt cfg)] at this
    exact this rfl

theorem rolled_reserved_lt {cfg : Config} {s : Asid_alloc} (hs : Alloc_ok cfg s) (c : Nat) :
    rolled_reserved cfg s c < 2 ^ cfg.width := by
  unfold rolled_reserved
  split
  · exact hs.active_lt c
  · exact hs.reserved_lt c

theorem slow_path_ok {cfg : Config} (wf : cfg.wf) (a : Nat) (s : Asid_alloc)
    (ha : a < 2 ^ cfg.width) (hs : Alloc_ok cfg s) :
    (slow_path cfg a s).1 < 2 ^ cfg.width ∧ Alloc_ok cfg (slow_path cfg a s).2 := by
  by_cases hsame : is_same_generation cfg a s.gen = true
  · rw [slow_path_same cfg a s hsame]
    exact ⟨ha, hs⟩
  have hstale : is_same_generation cfg a s.gen = false := by simpa using hsame
  by_cases hc : carries_over cfg a s
  · rw [slow_path_carry cfg a s hstale hc]
    obtain ⟨c1, c2, c3, c4, c5⟩ := carry_spec cfg a (asid cfg a ||| s.gen) s
    have hv : asid cfg a ||| s.gen < 2 ^ cfg.width :=
      packed_lt wf (le_of_lt (asid_lt wf a)) hs.gen_lt
    refine ⟨hv, ?_, ?_, ?_, ?_, ?_, ?_⟩
    · show (check_and_update_reserved cfg a _ s).2.gen % _ = 0
      rw [c1]; exact hs.gen_aligned
    · show (check_and_update_reserved cfg a _ s).2.gen < _
      rw [c1]; exact hs.gen_lt
    · show is_invalid_generation cfg (check_and_update_reserved cfg a _ s).2.gen = false
      rw [c1]; exact hs.gen_ok
    · intro c
      show ((check_and_update_reserved cfg a _ s).2.asids c).active < _
      rw [c4 c]; exact hs.active_lt c
    · intro c
      show ((check_and_update_reserved cfg a _ s).2.asids c).reserved < _
      rw [c5 c]
      split
      · exact hv
      · exact hs.reserved_lt c
    · intro c hon
      show is_valid cfg ((check_and_update_reserved cfg a _ s).2.asids c).reserved = true →
        (check_and_update_reserved cfg a _ s).2.reserved.bits
          (asid cfg ((check_and_update_reserved cfg a _ s).2.asids c).reserved) = true
      rw [c5 c, c3]
      split
      · intro _
        rw [asid_packed wf (asid_lt wf a) hs.gen_aligned]
        exact hc.2.1
      · exact hs.reserved_marked c hon
  by_cases hf : (find_next cfg s.reserved).1 = Asid_num cfg
  · rw [slow_path_roll wf a s hstale hc hf]
    obtain ⟨r1, r2, r3, r4, r5⟩ := rolled_spec cfg s
    have hle := find_next_le wf (rolled cfg s).reserved
    rw [Asid_num_eq] at hle
    refine ⟨packed_lt wf hle (next_gen_lt cfg s.gen), ?_, ?_, ?_, ?_, ?_, ?_⟩
    · show (rolled cfg s).gen % _ = 0
      rw [r1]; exact next_gen_aligned wf hs.gen_aligned
    · show (rolled cfg s).gen < _
      rw [r1]; exact next_gen_lt cfg s.gen
    · show is_invalid_generation cfg (rolled cfg s).gen = false
      rw [r1]; exact next_gen_ok wf s.gen
    · intro c
      show ((rolled cfg s).asids c).active < _
      rw [r4 c]
      split
      · exact Invalid_lt cfg
      · exact hs.active_lt c
    · intro c
      show ((rolled cfg s).asids c).reserved < _
      rw [r4 c]
      split
      · exact rolled_reserved_lt hs c
      · exact hs.reserved_lt c
    · intro c hon
      show is_valid cfg ((rolled cfg s).asids c).reserved = true →
        (find_next cfg (rolled cfg s).reserved).2.bits
          (asid cfg ((rolled cfg s).asids c).reserved) = true
      rw [r4 c, if_pos hon, find_next_bits wf]
      intro hv
      exact (r5 _).2 ⟨c, hon, hv, rfl⟩
  · rw [slow_path_found wf a s hstale hc hf]
    have hle := find_next_le wf s.reserved
    rw [Asid_num_eq] at hle
    exact ⟨packed_lt wf hle hs.gen_lt,
      hs.gen_aligned, hs.gen_lt, hs.gen_ok, hs.active_lt, hs.reserved_lt, hs.reserved_marked⟩

theorem Sys_ok_init {cfg : Config} (wf : cfg.wf) : Sys_ok cfg (Sys.init cfg) :=
  ⟨Alloc_ok_init wf, fun _ => Invalid_lt cfg⟩

theorem Sys_ok_can_use_asid {cfg : Config} (cpu slot : Nat) (w : Sys) (h : Sys_ok cfg w) :
    Sys_ok cfg (Sys.can_use_asid cfg cpu slot w) := by
  refine ⟨?_, h.slot_lt⟩
  unfold Sys.can_use_asid AsidAlloc.can_use_asid
  by_cases hs : is_same_generation cfg (w.slots slot) w.alloc.gen = true
  · simp only [hs, if_true]
    have ha := h.alloc_ok
    refine ⟨ha.gen_aligned, ha.gen_lt, ha.gen_ok, ?_, ?_, ?_⟩
    · intro c
      simp only [set_cpu]
      split
      · exact h.slot_lt slot
      · exact ha.active_lt c
    · intro c
      simp only [set_cpu]
      split
      · exact ha.reserved_lt cpu
      · exact ha.reserved_lt c
    · intro c hon
      simp only [set_cpu]
      split
      · rename_i e; subst e; exact ha.reserved_marked c hon
      · exact ha.reserved_marked c hon
  · simp only [hs, if_false]
    exact h.alloc_ok

theorem Sys_ok_alloc_asid {cfg : Config} (wf : cfg.wf) (cpu slot : Nat) (w : Sys)
    (h : Sys_ok cfg w) : Sys_ok cfg (Sys.alloc_asid cfg cpu slot w) := by
  obtain ⟨hv, ht⟩ := slow_path_ok wf (w.slots slot) w.alloc (h.slot_lt slot) h.alloc_ok
  refine ⟨⟨?_, ?_, ?_, ?_, ?_, ?_⟩, ?_⟩
  · rw [Sys.alloc_asid_gen]; exact ht.gen_aligned
  · rw [Sys.alloc_asid_gen]; exact ht.gen_lt
  · rw [Sys.alloc_asid_gen]; exact ht.gen_ok
  · intro c
    rw [Sys.alloc_asid_active]
    split
    · exact hv
    · exact ht.active_lt c
  · intro c
    rw [Sys.alloc_asid_cpu_reserved]; exact ht.reserved_lt c
  · intro c hon
    rw [Sys.alloc_asid_cpu_reserved, Sys.alloc_asid_reserved]
    exact ht.reserved_marked c hon
  · intro i
    rw [Sys.alloc_asid_slots]
    split
    · exact hv
    · exact h.slot_lt i

theorem Reachable.sys_ok {cfg : Config} (wf : cfg.wf) {w : Sys} (h : Reachable cfg w) :
    Sys_ok cfg w := by
  induction h with
  | init => exact Sys_ok_init wf
  | can_use_asid w cpu slot _ _ ih => exact Sys_ok_can_use_asid cpu slot w ih
  | alloc_asid w cpu slot _ _ ih => exact Sys_ok_alloc_asid wf cpu slot w ih

theorem Reachable_no_wrap.reachable {cfg : Config} {w : Sys} (h : Reachable_no_wrap cfg w) :
    Reachable cfg w := by
  induction h with
  | init => exact Reachable.init
  | can_use_asid w cpu slot _ hc ih => exact Reachable.can_use_asid w cpu slot ih hc
  | alloc_asid w cpu slot _ hc _ ih => exact Reachable.alloc_asid w cpu slot ih hc

/-! ## Uniqueness of the ids of a generation -/

theorem not_current_Invalid {cfg : Config} {g : Nat} (hg : is_invalid_generation cfg g = false) :
    ¬ is_same_generation cfg (Invalid cfg) g = true := by
  intro h
  rw [is_same_generation_Invalid g h] at hg
  exact Bool.noConfusion hg

theorem Unique_inv_init {cfg : Config} (wf : cfg.wf) : Unique_inv cfg (Sys.init cfg) := by
  have hok := (Alloc_ok_init wf).gen_ok
  have hnc : ∀ i, ¬ is_current cfg (Sys.init cfg) i := fun i => not_current_Invalid hok
  have hnv : ¬ is_valid cfg (Invalid cfg) = true := by
    rw [is_valid_iff wf _ (Invalid_lt cfg)]; exact fun h => h rfl
  refine ⟨fun _ => Or.inl rfl, ?_, ?_, ?_, ?_, ?_⟩
  · intro i j _ hi; exact absurd hi (hnc i)
  · intro i hi; exact absurd hi (hnc i)
  · intro i hi; exact absurd hi (hnc i)
  · intro c d _ _ hv; exact absurd hv hnv
  · intro c _ hv; exact absurd hv hnv

/-- A step that only stores the value of a current slot into the `active`
field of one CPU keeps the invariant. -/
theorem Unique_inv_of_active {cfg : Config} {w w2 : Sys} (cpu slot : Nat) (h : Unique_inv cfg w)
    (hcur : is_current cfg w slot)
    (hs : w2.slots = w.slots) (hg : w2.alloc.gen = w.alloc.gen)
    (hb : w2.alloc.reserved = w.alloc.reserved)
    (hact : ∀ c, (w2.alloc.asids c).active =
      if c = cpu then w.slots slot else (w.alloc.asids c).active)
    (hres : ∀ c, (w2.alloc.asids c).reserved = (w.alloc.asids c).reserved) :
    Unique_inv cfg w2 := by
  have hc : ∀ i, is_current cfg w2 i ↔ is_current cfg w i := by
    intro i; unfold is_current; rw [hs, hg]
  refine ⟨?_, ?_, ?_, ?_, ?_, ?_⟩
  · intro i; rw [hs, hg]; exact h.slot_gen i
  · intro i j hij hi hj
    rw [hs]
    exact h.unique i j hij ((hc i).1 hi) ((hc j).1 hj)
  · intro i hi
    rw [hs, hb]
    exact h.fresh_below i ((hc i).1 hi)
  · intro i hi
    rw [hs, hb]
    intro hbit
    obtain ⟨c, c1, c2⟩ := h.carried_reserved i ((hc i).1 hi) hbit
    exact ⟨c, c1, by rw [hres c]; exact c2⟩
  · intro c d hc1 hd1
    rw [hres c, hres d]
    exact h.reserved_agree c d hc1 hd1
  · intro c hon
    rw [hact c, hs]
    by_cases e : c = cpu
    · rw [if_pos e]
      intro _
      exact ⟨slot, rfl, (hc slot).2 hcur⟩
    · rw [if_neg e]
      intro hv
      obtain ⟨i, i1, i2⟩ := h.active_slot c hon hv
      exact ⟨i, i1, (hc i).2 i2⟩

theorem Unique_inv_can_use_asid {cfg : Config} (cpu slot : Nat) (w : Sys)
    (h : Unique_inv cfg w) : Unique_inv cfg (Sys.can_use_asid cfg cpu slot w) := by
  by_cases hs : is_same_generation cfg (w.slots slot) w.alloc.gen = true
  · apply Unique_inv_of_active cpu slot h hs
    · rfl
    · simp [Sys.can_use_asid, AsidAlloc.can_use_asid, hs]
    · simp [Sys.can_use_asid, AsidAlloc.can_use_asid, hs]
    · intro c
      simp only [Sys.can_use_asid, AsidAlloc.can_use_asid, hs, if_true, set_cpu]
      split <;> rfl
    · intro c
      simp only [Sys.can_use_asid, AsidAlloc.can_use_asid, hs, if_true, set_cpu]
      split
      · rename_i e; rw [e]
      · rfl
  · have e : Sys.can_use_asid cfg cpu slot w = w := by
      simp [Sys.can_use_asid, AsidAlloc.can_use_asid, hs]
    rw [e]
    exact h

theorem Unique_inv_alloc_same {cfg : Config} (cpu slot : Nat) (w : Sys)
    (h : Unique_inv cfg w) (hs : is_same_generation cfg (w.slots slot) w.alloc.gen = true) :
    Unique_inv cfg (Sys.alloc_asid cfg cpu slot w) := by
  have e := slow_path_same cfg (w.slots slot) w.alloc hs
  apply Unique_inv_of_active cpu slot h hs
  · funext i
    rw [Sys.alloc_asid_slots, e]
    split
    · rename_i hi; rw [hi]
    · rfl
  · rw [Sys.alloc_asid_gen, e]
  · rw [Sys.alloc_asid_reserved, e]
  · intro c
    rw [Sys.alloc_asid_active, e]
  · intro c
    rw [Sys.alloc_asid_cpu_reserved, e]

/-- A stale slot is given the id `k` under the unchanged generation: what is
left to check is that no other current slot has `k`, where `k` lies with
respect to bitmap and cursor, and that the reservations still agree. -/
theorem Unique_inv_assign {cfg : Config} (wf : cfg.wf) {w w2 : Sys} (cpu slot k : Nat)
    (hok : Sys_ok cfg w) (h : Unique_inv cfg w)
    (hstale : ¬ is_current cfg w slot) (hk : k < 2 ^ cfg.ASID_BITS)
    (hs : ∀ i, w2.slots i = if i = slot then k ||| w.alloc.gen else w.slots i)
    (hg : w2.alloc.gen = w.alloc.gen)
    (hact : ∀ c, (w2.alloc.asids c).active =
      if c = cpu then k ||| w.alloc.gen else (w.alloc.asids c).active)
    (hb : w2.alloc.reserved.bits = w.alloc.reserved.bits)
    (hidx : w.alloc.reserved.current_idx ≤ w2.alloc.reserved.current_idx)
    (hU : ∀ j, j ≠ slot → is_current cfg w j → asid cfg (w.slots j) ≠ k)
    (hK1 : w.alloc.reserved.bits k = false → k < w2.alloc.reserved.current_idx)
    (hK2 : w.alloc.reserved.bits k = true →
      ∃ c, Cpu_online cfg c ∧ (w2.alloc.asids c).reserved = k ||| w.alloc.gen)
    (hK3 : ∀ i, i ≠ slot → is_current cfg w i → ∀ c,
      (w.alloc.asids c).reserved = w.slots i → (w2.alloc.asids c).reserved = w.slots i)
    (hL : ∀ c d, Cpu_online cfg c → Cpu_online cfg d →
      is_valid cfg (w2.alloc.asids c).reserved = true →
      is_valid cfg (w2.alloc.asids d).reserved = true →
      asid cfg (w2.alloc.asids c).reserved = asid cfg (w2.alloc.asids d).reserved →
      (w2.alloc.asids c).reserved = (w2.alloc.asids d).reserved) :
    Unique_inv cfg w2 := by
  have ha := hok.alloc_ok
  have hslot : w2.slots slot = k ||| w.alloc.gen := by rw [hs slot, if_pos rfl]
  have hoth : ∀ i, i ≠ slot → w2.slots i = w.slots i := fun i hi => by rw [hs i, if_neg hi]
  have hasid : asid cfg (k ||| w.alloc.gen) = k := asid_packed wf hk ha.gen_aligned
  have hcs : is_current cfg w2 slot := by
    unfold is_current
    rw [hslot, hg]
    exact (is_same_generation_packed wf _ hk ha.gen_aligned ha.gen_lt).2 rfl
  have hco : ∀ i, i ≠ slot → (is_current cfg w2 i ↔ is_current cfg w i) := by
    intro i hi
    unfold is_current
    rw [hoth i hi, hg]
  refine ⟨?_, ?_, ?_, ?_, hL, ?_⟩
  · intro i
    rw [hg]
    by_cases hi : i = slot
    · right
      rw [hi, hslot, gen_packed hk ha.gen_aligned]
    · rw [hoth i hi]; exact h.slot_gen i
  · intro i j hij hi hj
    by_cases e1 : i = slot
    · have e2 : j ≠ slot := fun e => hij (e1.trans e.symm)
      rw [e1, hslot, hasid, hoth j e2]
      exact fun e => hU j e2 ((hco j e2).1 hj) e.symm
    · by_cases e2 : j = slot
      · rw [e2, hslot, hasid, hoth i e1]
        exact hU i e1 ((hco i e1).1 hi)
      · rw [hoth i e1, hoth j e2]
        exact h.unique i j hij ((hco i e1).1 hi) ((hco j e2).1 hj)
  · intro i hi
    rw [hb]
    by_cases e1 : i = slot
    · rw [e1, hslot, hasid]; exact hK1
    · rw [hoth i e1]
      intro hbit
      exact lt_of_lt_of_le (h.fresh_below i ((hco i e1).1 hi) hbit) hidx
  · intro i hi
    rw [hb]
    by_cases e1 : i = slot
    · rw [e1, hslot, hasid]; exact hK2
    · rw [hoth i e1]
      intro hbit
      obtain ⟨c, c1, c2⟩ := h.carried_reserved i ((hco i e1).1 hi) hbit
      exact ⟨c, c1, hK3 i e1 ((hco i e1).1 hi) c c2⟩
  · intro c hon
    rw [hact c]
    by_cases e : c = cpu
    · rw [if_pos e]
      intro _
      exact ⟨slot, hslot, hcs⟩
    · rw [if_neg e]
      intro hv
      obtain ⟨i, i1, i2⟩ := h.active_slot c hon hv
      have hi : i ≠ slot := by rintro rfl; exact hstale i2
      exact ⟨i, by rw [hoth i hi]; exact i1, (hco i hi).2 i2⟩

theorem Unique_inv_alloc_found {cfg : Config} (wf : cfg.wf) (cpu slot : Nat) (w : Sys)
    (hok : Sys_ok cfg w) (h : Unique_inv cfg w)
    (hstale : is_same_generation cfg (w.slots slot) w.alloc.gen = false)
    (hc : ¬ carries_over cfg (w.slots slot) w.alloc)
    (hf : (find_next cfg w.alloc.reserved).1 ≠ Asid_num cfg) :
    Unique_inv cfg (Sys.alloc_asid cfg cpu slot w) := by
  have e := slow_path_found wf (w.slots slot) w.alloc hstale hc hf
  have hst : ¬ is_current cfg w slot := by unfold is_current; rw [hstale]; decide
  rcases find_next_spec wf w.alloc.reserved with ⟨e1, _, _⟩ | ⟨f1, f2, f3, _, _⟩
  · exact absurd e1 hf
  rw [Asid_num_eq] at f2
  apply Unique_inv_assign wf cpu slot (find_next cfg w.alloc.reserved).1 hok h hst f2
  · intro i; rw [Sys.alloc_asid_slots, e]
  · rw [Sys.alloc_asid_gen, e]
  · intro c; rw [Sys.alloc_asid_active, e]
  · rw [Sys.alloc_asid_reserved, e]
  · rw [Sys.alloc_asid_reserved, e]; show _ ≤ _ + 1; omega
  · intro j _ hj e2
    have := h.fresh_below j hj (by rw [e2]; exact f3)
    omega
  · intro _; rw [Sys.alloc_asid_reserved, e]; show _ < _ + 1; omega
  · intro hbit; rw [f3] at hbit; exact Bool.noConfusion hbit
  · intro i _ _ c hcr; rw [Sys.alloc_asid_cpu_reserved, e]; exact hcr
  · intro c d hc1 hd1
    rw [Sys.alloc_asid_cpu_reserved, Sys.alloc_asid_cpu_reserved, e]
    exact h.reserved_agree c d hc1 hd1

theorem is_valid_of_current {cfg : Config} (wf : cfg.wf) {w : Sys} (hok : Sys_ok cfg w) {i : Nat}
    (hi : is_current cfg w i) : is_valid cfg (w.slots i) = true :=
  is_valid_of_same_generation wf (hok.slot_lt i) hok.alloc_ok.gen_ok hi

theorem Unique_inv_alloc_carry {cfg : Config} (wf : cfg.wf) (cpu slot : Nat) (w : Sys)
    (hok : Sys_ok cfg w) (h : Unique_inv cfg w)
    (hstale : is_same_generation cfg (w.slots slot) w.alloc.gen = false)
    (hc : carries_over cfg (w.slots slot) w.alloc) :
    Unique_inv cfg (Sys.alloc_asid cfg cpu slot w) := by
  have e := slow_path_carry cfg (w.slots slot) w.alloc hstale hc
  have hst : ¬ is_current cfg w slot := by unfold is_current; rw [hstale]; decide
  obtain ⟨c1, _, c3, c4, c5⟩ :=
    carry_spec cfg (w.slots slot) (asid cfg (w.slots slot) ||| w.alloc.gen) w.alloc
  obtain ⟨hv, hbit, d, hd1, hd2⟩ := hc
  have hk := asid_lt wf (w.slots slot)
  have hasid : asid cfg (asid cfg (w.slots slot) ||| w.alloc.gen) = asid cfg (w.slots slot) :=
    asid_packed wf hk hok.alloc_ok.gen_aligned
  -- a current slot never equals the stale value
  have hne : ∀ i, is_current cfg w i → w.slots i ≠ w.slots slot := by
    intro i hi e2
    unfold is_current at hi
    rw [e2, hstale] at hi
    exact Bool.noConfusion hi
  apply Unique_inv_assign wf cpu slot (asid cfg (w.slots slot)) hok h hst hk
  · intro i; rw [Sys.alloc_asid_slots, e]
  · rw [Sys.alloc_asid_gen, e]; exact c1
  · intro c; rw [Sys.alloc_asid_active, e]
    split
    · rfl
    · exact c4 c
  · rw [Sys.alloc_asid_reserved, e]; show (check_and_update_reserved _ _ _ _).2.reserved.bits = _
    rw [c3]
  · rw [Sys.alloc_asid_reserved, e]
    show _ ≤ (check_and_update_reserved _ _ _ _).2.reserved.current_idx
    rw [c3]
  · intro j _ hj e2
    obtain ⟨c, hc1, hc2⟩ := h.carried_reserved j hj (by rw [e2]; exact hbit)
    have := h.reserved_agree c d hc1 hd1 (by rw [hc2]; exact is_valid_of_current wf hok hj)
      (by rw [hd2]; exact hv) (by rw [hc2, hd2]; exact e2)
    rw [hc2, hd2] at this
    exact hne j hj this
  · intro hb2; rw [hbit] at hb2; exact Bool.noConfusion hb2
  · intro _
    refine ⟨d, hd1, ?_⟩
    rw [Sys.alloc_asid_cpu_reserved, e]
    show ((check_and_update_reserved _ _ _ _).2.asids d).reserved = _
    rw [c5 d, if_pos ⟨hd1, hd2⟩]
  · intro i _ hi c hcr
    rw [Sys.alloc_asid_cpu_reserved, e]
    show ((check_and_update_reserved _ _ _ _).2.asids c).reserved = _
    rw [c5 c, if_neg]
    · exact hcr
    · rintro ⟨_, e2⟩
      exact hne i hi (hcr.symm.trans e2)
  · intro c c2 hc1 hc2
    rw [Sys.alloc_asid_cpu_reserved, Sys.alloc_asid_cpu_reserved, e]
    show is_valid cfg ((check_and_update_reserved _ _ _ _).2.asids c).reserved = true →
      is_valid cfg ((check_and_update_reserved _ _ _ _).2.asids c2).reserved = true →
      asid cfg ((check_and_update_reserved _ _ _ _).2.asids c).reserved =
        asid cfg ((check_and_update_reserved _ _ _ _).2.asids c2).reserved →
      ((check_and_update_reserved _ _ _ _).2.asids c).reserved =
        ((check_and_update_reserved _ _ _ _).2.asids c2).reserved
    rw [c5 c, c5 c2]
    by_cases m1 : Cpu_online cfg c ∧ (w.alloc.asids c).reserved = w.slots slot
    · by_cases m2 : Cpu_online cfg c2 ∧ (w.alloc.asids c2).reserved = w.slots slot
      · rw [if_pos m1, if_pos m2]; intros; rfl
      · rw [if_pos m1, if_neg m2, hasid]
        intro _ v2 ea
        exfalso
        apply m2
        refine ⟨hc2, ?_⟩
        have := h.reserved_agree c c2 hc1 hc2 (by rw [m1.2]; exact hv) v2 (by rw [m1.2]; exact ea)
        rw [← this]; exact m1.2
    · by_cases m2 : Cpu_online cfg c2 ∧ (w.alloc.asids c2).reserved = w.slots slot
      · rw [if_neg m1, if_pos m2, hasid]
        intro v1 _ ea
        exfalso
        apply m1
        refine ⟨hc1, ?_⟩
        have := h.reserved_agree c c2 hc1 hc2 v1 (by rw [m2.2]; exact hv) (by rw [m2.2]; exact ea)
        rw [this]; exact m2.2
      · rw [if_neg m1, if_neg m2]
        exact h.reserved_agree c c2 hc1 hc2

/-- The fields `roll_over` reserves agree on every id. -/
theorem rolled_reserved_agree {cfg : Config} {w : Sys}
    (hok : Sys_ok cfg w) (h : Unique_inv cfg w) (c d : Nat)
    (hc : Cpu_online cfg c) (hd : Cpu_online cfg d)
    (vc : is_valid cfg (rolled_reserved cfg w.alloc c) = true)
    (vd : is_valid cfg (rolled_reserved cfg w.alloc d) = true)
    (ea : asid cfg (rolled_reserved cfg w.alloc c) = asid cfg (rolled_reserved cfg w.alloc d)) :
    rolled_reserved cfg w.alloc c = rolled_reserved cfg w.alloc d := by
  -- an active value and a reservation of the same id
  have hX : ∀ c d, Cpu_online cfg c → Cpu_online cfg d →
      is_valid cfg (w.alloc.asids c).active = true →
      is_valid cfg (w.alloc.asids d).reserved = true →
      asid cfg (w.alloc.asids c).active = asid cfg (w.alloc.asids d).reserved →
      (w.alloc.asids c).active = (w.alloc.asids d).reserved := by
    intro c d hc hd v1 v2 e
    obtain ⟨i, i1, i2⟩ := h.active_slot c hc v1
    have hb := hok.alloc_ok.reserved_marked d hd v2
    rw [← e, ← i1] at hb
    obtain ⟨c3, c31, c32⟩ := h.carried_reserved i i2 hb
    have := h.reserved_agree c3 d c31 hd (by rw [c32, i1]; exact v1) v2 (by rw [c32, i1]; exact e)
    rw [← i1, ← c32]; exact this
  unfold rolled_reserved at vc vd ea ⊢
  by_cases v1 : is_valid cfg (w.alloc.asids c).active = true
  · by_cases v2 : is_valid cfg (w.alloc.asids d).active = true
    · rw [if_pos v1] at vc ea ⊢
      rw [if_pos v2] at vd ea ⊢
      obtain ⟨i, i1, i2⟩ := h.active_slot c hc v1
      obtain ⟨j, j1, j2⟩ := h.active_slot d hd v2
      by_cases hij : i = j
      · rw [← i1, ← j1, hij]
      · exact absurd (by rw [i1, j1]; exact ea) (h.unique i j hij i2 j2)
    · rw [if_pos v1] at vc ea ⊢
      rw [if_neg v2] at vd ea ⊢
      exact hX c d hc hd v1 vd ea
  · by_cases v2 : is_valid cfg (w.alloc.asids d).active = true
    · rw [if_neg v1] at vc ea ⊢
      rw [if_pos v2] at vd ea ⊢
      exact (hX d c hd hc v2 vc ea.symm).symm
    · rw [if_neg v1] at vc ea ⊢
      rw [if_neg v2] at vd ea ⊢
      exact h.reserved_agree c d hc hd vc vd ea

theorem Unique_inv_alloc_roll {cfg : Config} (wf : cfg.wf) (cpu slot : Nat) (w : Sys)
    (hok : Sys_ok cfg w) (h : Unique_inv cfg w)
    (hn : num_online cfg < Asid_num cfg - cfg.ASID_BASE)
    (hwrap : w.alloc.gen ≤ (Sys.alloc_asid cfg cpu slot w).alloc.gen)
    (hstale : is_same_generation cfg (w.slots slot) w.alloc.gen = false)
    (hc : ¬ carries_over cfg (w.slots slot) w.alloc)
    (hf : (find_next cfg w.alloc.reserved).1 = Asid_num cfg) :
    Unique_inv cfg (Sys.alloc_asid cfg cpu slot w) := by
  have e := slow_path_roll wf (w.slots slot) w.alloc hstale hc hf
  have ha := hok.alloc_ok
  obtain ⟨r1, _, _, r4, r5⟩ := rolled_spec cfg w.alloc
  obtain ⟨_, f2, f3, f4⟩ :=
    find_next_after_roll_over wf { w.alloc with gen := next_gen cfg w.alloc.gen } hn
  change (find_next cfg (rolled cfg w.alloc).reserved).1 < Asid_num cfg at f2
  change (rolled cfg w.alloc).reserved.bits (find_next cfg (rolled cfg w.alloc).reserved).1 = false
    at f3
  change (find_next cfg (rolled cfg w.alloc).reserved).2 =
    { (rolled cfg w.alloc).reserved with
      current_idx := (find_next cfg (rolled cfg w.alloc).reserved).1 + 1 } at f4
  rw [Asid_num_eq] at f2
  rw [Sys.alloc_asid_gen, e] at hwrap
  change w.alloc.gen ≤ (rolled cfg w.alloc).gen at hwrap
  rw [r1] at hwrap
  have hng := next_gen_of_le wf ha.gen_aligned ha.gen_lt ha.gen_ok hwrap
  have hp := Nat.two_pow_pos cfg.ASID_BITS
  have hal := next_gen_aligned wf ha.gen_aligned
  have hlt := next_gen_lt cfg w.alloc.gen
  have hgen : (Sys.alloc_asid cfg cpu slot w).alloc.gen = next_gen cfg w.alloc.gen := by
    rw [Sys.alloc_asid_gen, e]; exact r1
  have hslot : (Sys.alloc_asid cfg cpu slot w).slots slot =
      (find_next cfg (rolled cfg w.alloc).reserved).1 ||| next_gen cfg w.alloc.gen := by
    rw [Sys.alloc_asid_slots, if_pos rfl, e]
  have hoth : ∀ i, i ≠ slot → (Sys.alloc_asid cfg cpu slot w).slots i = w.slots i :=
    fun i hi => by rw [Sys.alloc_asid_slots, if_neg hi]
  have hasid : asid cfg ((find_next cfg (rolled cfg w.alloc).reserved).1 |||
      next_gen cfg w.alloc.gen) = (find_next cfg (rolled cfg w.alloc).reserved).1 :=
    asid_packed wf f2 hal
  have hcs : is_current cfg (Sys.alloc_asid cfg cpu slot w) slot := by
    unfold is_current
    rw [hslot, hgen]
    exact (is_same_generation_packed wf _ f2 hal hlt).2 rfl
  have hnc : ∀ i, i ≠ slot → ¬ is_current cfg (Sys.alloc_asid cfg cpu slot w) i := by
    intro i hi hcur
    unfold is_current at hcur
    rw [hoth i hi, hgen] at hcur
    rcases h.slot_gen i with e1 | e1
    · rw [e1] at hcur
      exact not_current_Invalid (next_gen_ok wf _) hcur
    · rw [is_same_generation_iff wf _ _ (hok.slot_lt i)] at hcur
      omega
  have hbits : (Sys.alloc_asid cfg cpu slot w).alloc.reserved.bits =
      (rolled cfg w.alloc).reserved.bits := by
    rw [Sys.alloc_asid_reserved, e]
    exact find_next_bits wf _
  have hres : ∀ c, Cpu_online cfg c → ((Sys.alloc_asid cfg cpu slot w).alloc.asids c).reserved =
      rolled_reserved cfg w.alloc c := by
    intro c hon
    rw [Sys.alloc_asid_cpu_reserved, e]
    show ((rolled cfg w.alloc).asids c).reserved = _
    rw [r4 c, if_pos hon]
  refine ⟨?_, ?_, ?_, ?_, ?_, ?_⟩
  · intro i
    rw [hgen]
    by_cases hi : i = slot
    · right
      rw [hi, hslot, gen_packed f2 hal]
    · rw [hoth i hi]
      rcases h.slot_gen i with e1 | e1
      · left; exact e1
      · right; omega
  · intro i j hij hi hj
    have e1 : i = slot := by by_contra hne; exact hnc i hne hi
    have e2 : j = slot := by by_contra hne; exact hnc j hne hj
    exact absurd (e1.trans e2.symm) hij
  · intro i hi _
    have e1 : i = slot := by by_contra hne; exact hnc i hne hi
    rw [e1, hslot, hasid, Sys.alloc_asid_reserved, e]
    show _ < (find_next cfg (rolled cfg w.alloc).reserved).2.current_idx
    rw [f4]
    show _ < _ + 1
    omega
  · intro i hi
    have e1 : i = slot := by by_contra hne; exact hnc i hne hi
    rw [e1, hslot, hasid, hbits, f3]
    intro hb; exact Bool.noConfusion hb
  · intro c d hc1 hd1
    rw [hres c hc1, hres d hd1]
    exact rolled_reserved_agree hok h c d hc1 hd1
  · intro c hon
    rw [Sys.alloc_asid_active]
    by_cases ec : c = cpu
    · rw [if_pos ec]
      intro _
      exact ⟨slot, by rw [hslot, e], hcs⟩
    · rw [if_neg ec, e]
      show is_valid cfg ((rolled cfg w.alloc).asids c).active = true → _
      rw [r4 c, if_pos hon]
      intro hv
      exfalso
      have : is_valid cfg (Invalid cfg) = true := hv
      rw [is_valid_iff wf _ (Invalid_lt cfg)] at this
      exact this rfl

/-- One `alloc_asid` call keeps the invariant while the counter does not wrap
and the id space is larger than the set of online CPUs. -/
theorem Unique_inv_alloc_asid {cfg : Config} (wf : cfg.wf) (cpu slot : Nat) (w : Sys)
    (hok : Sys_ok cfg w) (h : Unique_inv cfg w)
    (hn : num_online cfg < Asid_num cfg - cfg.ASID_BASE)
    (hwrap : w.alloc.gen ≤ (Sys.alloc_asid cfg cpu slot w).alloc.gen) :
    Unique_inv cfg (Sys.alloc_asid cfg cpu slot w) := by
  by_cases hsame : is_same_generation cfg (w.slots slot) w.alloc.gen = true
  · exact Unique_inv_alloc_same cpu slot w h hsame
  have hstale : is_same_generation cfg (w.slots slot) w.alloc.gen = false := by simpa using hsame
  by_cases hc : carries_over cfg (w.slots slot) w.alloc
  · exact Unique_inv_alloc_carry wf cpu slot w hok h hstale hc
  by_cases hf : (find_next cfg w.alloc.reserved).1 = Asid_num cfg
  · exact Unique_inv_alloc_roll wf cpu slot w hok h hn hwrap hstale hc hf
  · exact Unique_inv_alloc_found wf cpu slot w hok h hstale hc hf

theorem Reachable_no_wrap.unique_inv {cfg : Config} (wf : cfg.wf)
    (hn : num_online cfg < Asid_num cfg - cfg.ASID_BASE) {w : Sys}
    (h : Reachable_no_wrap cfg w) : Unique_inv cfg w := by
  induction h with
  | init => exact Unique_inv_init wf
  | can_use_asid w cpu slot _ _ ih => exact Unique_inv_can_use_asid cpu slot w ih
  | alloc_asid w cpu slot hr _ hw ih =>
    exact Unique_inv_alloc_asid wf cpu slot w (hr.reachable.sys_ok wf) ih hn hw

/-! ## The claims -/

theorem scenario_cfg_wf : scenario_cfg.wf :=
  ⟨by decide, by decide, by decide, Or.inl rfl⟩

theorem scenario_5_reachable : Reachable_no_wrap scenario_cfg scenario_5 := by
  have h0 : Reachable_no_wrap scenario_cfg (Sys.init scenario_cfg) := Reachable_no_wrap.init
  have h1 : Reachable_no_wrap scenario_cfg scenario_1 :=
    Reachable_no_wrap.alloc_asid _ 0 0 h0 (by decide) (by decide)
  have h2 : Reachable_no_wrap scenario_cfg scenario_2 :=
    Reachable_no_wrap.alloc_asid _ 1 1 h1 (by decide) (by decide)
  have h3 : Reachable_no_wrap scenario_cfg scenario_3 :=
    Reachable_no_wrap.alloc_asid _ 0 2 h2 (by decide) (by decide)
  have h4 : Reachable_no_wrap scenario_cfg scenario_4 :=
    Reachable_no_wrap.alloc_asid _ 1 3 h3 (by decide) (by decide)
  exact Reachable_no_wrap.alloc_asid _ 1 1 h4 (by decide) (by decide)

theorem scenario_3_reachable : Reachable scenario_cfg scenario_3 :=
  Reachable.alloc_asid _ 0 2
    (Reachable.alloc_asid _ 1 1
      (Reachable.alloc_asid _ 0 0 Reachable.init (by decide)) (by decide)) (by decide)

/-- C1: in every state reachable from the initial state by `can_use_asid` and
`alloc_asid` calls on online CPUs, with fewer online CPUs than
`2 ^ ASID_BITS - ASID_BASE` and a generation counter that has not wrapped, two
distinct slots that both carry the current generation have different ids. -/
theorem unique_ids_in_generation (cfg : Config) (wf : cfg.wf)
    (hn : num_online cfg < 2 ^ cfg.ASID_BITS - cfg.ASID_BASE) (w : Sys)
    (hr : Reachable_no_wrap cfg w) (i j : Nat) (hij : i ≠ j)
    (hi : is_same_generation cfg (w.slots i) w.alloc.gen = true)
    (hj : is_same_generation cfg (w.slots j) w.alloc.gen = true) :
    asid cfg (w.slots i) ≠ asid cfg (w.slots j) :=
  (hr.unique_inv wf (by rw [Asid_num_eq]; exact hn)).unique i j hij hi hj

/-- Witness for C1: the example scenario after five allocations (one roll-over, one carry-over); B and D are the current slots. -/
theorem unique_ids_in_generation_witness :
    Reachable_no_wrap scenario_cfg scenario_5 ∧
    is_same_generation scenario_cfg (scenario_5.slots 1) scenario_5.alloc.gen = true ∧
    is_same_generation scenario_cfg (scenario_5.slots 3) scenario_5.alloc.gen = true ∧
    asid scenario_cfg (scenario_5.slots 1) ≠ asid scenario_cfg (scenario_5.slots 3) :=
  ⟨scenario_5_reachable, by decide, by decide,
    unique_ids_in_generation scenario_cfg scenario_cfg_wf (by decide) scenario_5
      scenario_5_reachable 1 3 (by decide) (by decide) (by decide)⟩

theorem slow_path_current {cfg : Config} (wf : cfg.wf)
    (hn : num_online cfg < 2 ^ cfg.ASID_BITS - cfg.ASID_BASE) (a : Nat) (s : Asid_alloc)
    (hs : Alloc_ok cfg s) :
    is_same_generation cfg (slow_path cfg a s).1 (slow_path cfg a s).2.gen = true := by
  by_cases hsame : is_same_generation cfg a s.gen = true
  · rw [slow_path_same cfg a s hsame]
    exact hsame
  have hstale : is_same_generation cfg a s.gen = false := by simpa using hsame
  by_cases hc : carries_over cfg a s
  · rw [slow_path_carry cfg a s hstale hc]
    show is_same_generation cfg _ (check_and_update_reserved cfg a _ s).2.gen = true
    rw [(carry_spec cfg a _ s).1]
    exact (is_same_generation_packed wf _ (asid_lt wf a) hs.gen_aligned hs.gen_lt).2 rfl
  by_cases hf : (find_next cfg s.reserved).1 = Asid_num cfg
  · rw [slow_path_roll wf a s hstale hc hf]
    show is_same_generation cfg _ (rolled cfg s).gen = true
    rw [(rolled_spec cfg s).1]
    have f2 := (find_next_after_roll_over wf { s with gen := next_gen cfg s.gen }
      (by rw [Asid_num_eq]; exact hn)).2.1
    rw [Asid_num_eq] at f2
    exact (is_same_generation_packed wf _ f2 (next_gen_aligned wf hs.gen_aligned)
      (next_gen_lt cfg s.gen)).2 rfl
  · rw [slow_path_found wf a s hstale hc hf]
    have f2 := find_next_le wf s.reserved
    have f3 : (find_next cfg s.reserved).1 < 2 ^ cfg.ASID_BITS := by
      rw [Asid_num_eq] at f2 hf; omega
    exact (is_same_generation_packed wf _ f3 hs.gen_aligned hs.gen_lt).2 rfl

/-- C2: in every reachable state with fewer online CPUs than
`2 ^ ASID_BITS - ASID_BASE`, after `alloc_asid` the slot and the caller's
`active` field hold the same value, and this value has the generation the
allocator has after the call. -/
theorem alloc_asid_slot_eq_active_current (cfg : Config) (wf : cfg.wf)
    (hn : num_online cfg < 2 ^ cfg.ASID_BITS - cfg.ASID_BASE) (w : Sys)
    (hr : Reachable cfg w) (cpu slot : Nat) :
    (alloc_asid cfg cpu (w.slots slot) w.alloc).2.1 =
      ((alloc_asid cfg cpu (w.slots slot) w.alloc).2.2.asids cpu).active ∧
    is_same_generation cfg (alloc_asid cfg cpu (w.slots slot) w.alloc).2.1
      (alloc_asid cfg cpu (w.slots slot) w.alloc).2.2.gen = true := by
  refine ⟨?_, ?_⟩
  · rw [alloc_asid_eq]
    simp [set_cpu]
  · rw [alloc_asid_eq]
    exact slow_path_current wf hn (w.slots slot) w.alloc (hr.sys_ok wf).alloc_ok

/-- Witness for C2: the allocation for D on CPU 1 in the example scenario, which rolls over. -/
theorem alloc_asid_slot_eq_active_current_witness :
    (alloc_asid scenario_cfg 1 (scenario_3.slots 3) scenario_3.alloc).2.1 =
      ((alloc_asid scenario_cfg 1 (scenario_3.slots 3) scenario_3.alloc).2.2.asids 1).active ∧
    is_same_generation scenario_cfg (alloc_asid scenario_cfg 1 (scenario_3.slots 3) scenario_3.alloc).2.1
      (alloc_asid scenario_cfg 1 (scenario_3.slots 3) scenario_3.alloc).2.2.gen = true :=
  alloc_asid_slot_eq_active_current scenario_cfg scenario_cfg_wf (by decide) scenario_3
    scenario_3_reachable 1 3

/-- C3 (as stated, refuted): after A was allocated on CPU 0, A's slot holds a
valid value of the current generation, yet `can_use_asid` for A on CPU 1,
whose `active` field is still `Invalid`, returns false. -/
theorem can_use_asid_true_counterexample :
    is_valid scenario_cfg (scenario_1.slots 0) = true ∧
    is_same_generation scenario_cfg (scenario_1.slots 0) scenario_1.alloc.gen = true ∧
    (can_use_asid scenario_cfg 1 (scenario_1.slots 0) scenario_1.alloc).1 = false := by
  decide

/-- C3 (amended): if the slot holds a valid value of the current generation,
`can_use_asid` stores that value into the caller's `active` field, and it
returns true exactly when the previous `active` value was valid. -/
theorem can_use_asid_current (cfg : Config) (cpu a : Nat) (s : Asid_alloc)
    (_hv : is_valid cfg a = true) (hg : is_same_generation cfg a s.gen = true) :
    ((can_use_asid cfg cpu a s).2.asids cpu).active = a ∧
    (can_use_asid cfg cpu a s).1 = is_valid cfg (s.asids cpu).active := by
  unfold can_use_asid
  simp [hg, set_cpu]

/-- Witness for C3 (amended): `can_use_asid` for A on CPU 0 right after A was allocated there. -/
theorem can_use_asid_current_witness :
    ((can_use_asid scenario_cfg 0 (scenario_1.slots 0) scenario_1.alloc).2.asids 0).active =
      scenario_1.slots 0 ∧
    (can_use_asid scenario_cfg 0 (scenario_1.slots 0) scenario_1.alloc).1 =
      is_valid scenario_cfg (scenario_1.alloc.asids 0).active :=
  can_use_asid_current scenario_cfg 0 (scenario_1.slots 0) scenario_1.alloc
    (by decide) (by decide)

/-- C4: in every reachable state `can_use_asid` returns false whenever the
slot's generation differs from the current one; `Invalid` never has the
current generation, so it returns false for a slot that was never assigned. -/
theorem can_use_asid_false_of_stale (cfg : Config) (wf : cfg.wf) (w : Sys)
    (hr : Reachable cfg w) :
    (∀ cpu a, is_same_generation cfg a w.alloc.gen = false →
      (can_use_asid cfg cpu a w.alloc).1 = false) ∧
    is_same_generation cfg (Invalid cfg) w.alloc.gen = false ∧
    ∀ cpu, (can_use_asid cfg cpu (Invalid cfg) w.alloc).1 = false := by
  have h1 : ∀ cpu a, is_same_generation cfg a w.alloc.gen = false →
      (can_use_asid cfg cpu a w.alloc).1 = false := by
    intro cpu a h
    unfold can_use_asid
    simp [h]
  have h2 : is_same_generation cfg (Invalid cfg) w.alloc.gen = false := by
    cases hb : is_same_generation cfg (Invalid cfg) w.alloc.gen with
    | false => rfl
    | true => exact absurd hb (not_current_Invalid (hr.sys_ok wf).alloc_ok.gen_ok)
  exact ⟨h1, h2, fun cpu => h1 cpu _ h2⟩

/-- Witness for C4: the example scenario after A, B and C were allocated. -/
theorem can_use_asid_false_of_stale_witness :
    (∀ cpu a, is_same_generation scenario_cfg a scenario_3.alloc.gen = false →
      (can_use_asid scenario_cfg cpu a scenario_3.alloc).1 = false) ∧
    is_same_generation scenario_cfg (Invalid scenario_cfg) scenario_3.alloc.gen = false ∧
    ∀ cpu, (can_use_asid scenario_cfg cpu (Invalid scenario_cfg) scenario_3.alloc).1 = false :=
  can_use_asid_false_of_stale scenario_cfg scenario_cfg_wf scenario_3 scenario_3_reachable

theorem new_asid_rolls_over_iff (cfg : Config) (a g : Nat) (s : Asid_alloc) :
    new_asid_rolls_over cfg a g s = true ↔
      ¬ carries_over cfg a s ∧ (find_next cfg s.reserved).1 = Asid_num cfg := by
  unfold new_asid_rolls_over
  by_cases hc : (is_valid cfg a && s.reserved.bits (asid cfg a)) = true
  · rw [if_pos hc]
    rw [Bool.and_eq_true] at hc
    dsimp only
    cases hr : (check_and_update_reserved cfg a (asid cfg a ||| g) s).1 with
    | true =>
      have := (check_and_update_reserved_true_iff cfg a _ s).1 hr
      simp only [if_true, Bool.false_eq_true, false_iff, not_and]
      intro hnc
      exact absurd ⟨hc.1, hc.2, this⟩ hnc
    | false =>
      rw [check_and_update_reserved_false cfg a _ s hr]
      simp only [Bool.false_eq_true, if_false, beq_iff_eq]
      constructor
      · intro h
        refine ⟨?_, h⟩
        rintro ⟨_, _, h3⟩
        have := (check_and_update_reserved_true_iff cfg a (asid cfg a ||| g) s).2 h3
        rw [hr] at this
        exact Bool.noConfusion this
      · exact fun h => h.2
  · rw [if_neg hc]
    simp only [beq_iff_eq]
    constructor
    · intro h
      refine ⟨?_, h⟩
      rintro ⟨h1, h2, _⟩
      apply hc
      rw [h1, h2]
      rfl
    · exact fun h => h.2

theorem new_asid_of_rolls_over {cfg : Config} (wf : cfg.wf) (a g : Nat) (s : Asid_alloc)
    (h : new_asid_rolls_over cfg a g s = true) :
    new_asid cfg a g s =
      ((find_next cfg (rolled cfg s).reserved).1 ||| next_gen cfg s.gen,
        { rolled cfg s with reserved := (find_next cfg (rolled cfg s).reserved).2 }) := by
  obtain ⟨h1, h2⟩ := (new_asid_rolls_over_iff cfg a g s).1 h
  rw [new_asid_no_carry cfg a g s h1, new_asid_fresh_roll wf g s h2]
  rfl

/-- C5 (as stated, refuted): with one id bit, `ASID_BASE = 1` and one online
CPU whose active Asid holds the only id, `new_asid` rolls over and the retried
`find_next` still returns `Asid_num`. -/
theorem find_next_after_roll_over_counterexample :
    new_asid_rolls_over small_cfg (small_1.slots 1) small_1.alloc.gen small_1.alloc = true ∧
    (find_next small_cfg
      (roll_over small_cfg
        { small_1.alloc with gen := next_gen small_cfg small_1.alloc.gen }).reserved).1 =
      Asid_num small_cfg := by
  decide

/-- C5 (amended): with fewer online CPUs than `2 ^ ASID_BITS - ASID_BASE`,
whenever `new_asid` rolls over, the retried `find_next` returns an id in
`[ASID_BASE, 2 ^ ASID_BITS)` that is free in the rebuilt bitmap, and `new_asid`
returns that id packed with the new generation. -/
theorem new_asid_roll_over_succeeds (cfg : Config) (wf : cfg.wf)
    (hn : num_online cfg < 2 ^ cfg.ASID_BITS - cfg.ASID_BASE)
    (a g : Nat) (s : Asid_alloc) (h : new_asid_rolls_over cfg a g s = true) :
    (find_next cfg (roll_over cfg { s with gen := next_gen cfg s.gen }).reserved).1 <
      2 ^ cfg.ASID_BITS ∧
    cfg.ASID_BASE ≤
      (find_next cfg (roll_over cfg { s with gen := next_gen cfg s.gen }).reserved).1 ∧
    (roll_over cfg { s with gen := next_gen cfg s.gen }).reserved.bits
      (find_next cfg (roll_over cfg { s with gen := next_gen cfg s.gen }).reserved).1 = false ∧
    (new_asid cfg a g s).1 =
      (find_next cfg (roll_over cfg { s with gen := next_gen cfg s.gen }).reserved).1 |||
        next_gen cfg s.gen := by
  obtain ⟨f1, f2, f3, _⟩ :=
    find_next_after_roll_over wf { s with gen := next_gen cfg s.gen }
      (by rw [Asid_num_eq]; exact hn)
  rw [Asid_num_eq] at f2
  refine ⟨f2, f1, f3, ?_⟩
  rw [new_asid_of_rolls_over wf a g s h]
  rfl

/-- Witness for C5 (amended): `new_asid` for D in the example scenario, where ids 1, 2, 3 are taken. -/
theorem new_asid_roll_over_succeeds_witness :
    (find_next scenario_cfg (roll_over scenario_cfg
      { scenario_3.alloc with gen := next_gen scenario_cfg scenario_3.alloc.gen }).reserved).1 <
      2 ^ scenario_cfg.ASID_BITS ∧
    scenario_cfg.ASID_BASE ≤
      (find_next scenario_cfg (roll_over scenario_cfg
        { scenario_3.alloc with gen := next_gen scenario_cfg scenario_3.alloc.gen }).reserved).1 ∧
    (roll_over scenario_cfg
      { scenario_3.alloc with gen := next_gen scenario_cfg scenario_3.alloc.gen }).reserved.bits
      (find_next scenario_cfg (roll_over scenario_cfg
        { scenario_3.alloc with gen := next_gen scenario_cfg scenario_3.alloc.gen }).reserved).1 =
        false ∧
    (new_asid scenario_cfg (scenario_3.slots 3) scenario_3.alloc.gen scenario_3.alloc).1 =
      (find_next scenario_cfg (roll_over scenario_cfg
        { scenario_3.alloc with gen := next_gen scenario_cfg scenario_3.alloc.gen }).reserved).1 |||
        next_gen scenario_cfg scenario_3.alloc.gen :=
  new_asid_roll_over_succeeds scenario_cfg scenario_cfg_wf (by decide)
    (scenario_3.slots 3) scenario_3.alloc.gen scenario_3.alloc (by decide)

theorem packed_ne_Invalid_of_even {cfg : Config} (wf : cfg.wf) {g : Nat}
    (hg : g % 2 ^ cfg.ASID_BITS = 0) : 2 ^ cfg.ASID_BITS ||| g ≠ Invalid cfg := by
  intro e
  have h0 : (2 ^ cfg.ASID_BITS ||| g).testBit 0 = false := by
    rw [Nat.testBit_or, Nat.testBit_two_pow]
    have hB := wf.bits_pos
    have h1 : decide (cfg.ASID_BITS = 0) = false := by
      rw [decide_eq_false_iff_not]; omega
    have h2 : g.testBit 0 = false := by
      have : g % 2 ^ cfg.ASID_BITS % 2 = g % 2 :=
        Nat.mod_mod_of_dvd g (dvd_pow_self 2 (by omega))
      rw [hg] at this
      rw [Nat.testBit_zero]
      simp only [decide_eq_false_iff_not]
      omega
    rw [h1, h2]
    rfl
  rw [e] at h0
  unfold Invalid at h0
  rw [Nat.testBit_two_pow_sub_one] at h0
  have hW : 0 < cfg.width := by have := wf.bits_lt; omega
  simp [hW] at h0

theorem slow_path_valid {cfg : Config} (wf : cfg.wf) (a : Nat) (s : Asid_alloc)
    (ha : a < 2 ^ cfg.width) (hs : Alloc_ok cfg s) :
    is_valid cfg (slow_path cfg a s).1 = true := by
  by_cases hsame : is_same_generation cfg a s.gen = true
  · rw [slow_path_same cfg a s hsame]
    exact is_valid_of_same_generation wf ha hs.gen_ok hsame
  have hstale : is_same_generation cfg a s.gen = false := by simpa using hsame
  by_cases hc : carries_over cfg a s
  · rw [slow_path_carry cfg a s hstale hc]
    exact is_valid_of_same_generation wf (packed_lt wf (le_of_lt (asid_lt wf a)) hs.gen_lt)
      hs.gen_ok ((is_same_generation_packed wf _ (asid_lt wf a) hs.gen_aligned hs.gen_lt).2 rfl)
  by_cases hf : (find_next cfg s.reserved).1 = Asid_num cfg
  · rw [slow_path_roll wf a s hstale hc hf]
    have hle := find_next_le wf (rolled cfg s).reserved
    rw [Asid_num_eq] at hle
    have hal := next_gen_aligned wf hs.gen_aligned
    have hlt := next_gen_lt cfg s.gen
    rcases Nat.lt_or_ge (find_next cfg (rolled cfg s).reserved).1 (2 ^ cfg.ASID_BITS) with h1 | h1
    · exact is_valid_of_same_generation wf (packed_lt wf hle hlt) (next_gen_ok wf s.gen)
        ((is_same_generation_packed wf _ h1 hal hlt).2 rfl)
    · have e : (find_next cfg (rolled cfg s).reserved).1 = 2 ^ cfg.ASID_BITS := le_antisymm hle h1
      show is_valid cfg ((find_next cfg (rolled cfg s).reserved).1 ||| next_gen cfg s.gen) = true
      rw [e, is_valid_iff wf _ (packed_lt wf (le_refl _) hlt)]
      exact packed_ne_Invalid_of_even wf hal
  · rw [slow_path_found wf a s hstale hc hf]
    have f2 := find_next_le wf s.reserved
    have f3 : (find_next cfg s.reserved).1 < 2 ^ cfg.ASID_BITS := by
      rw [Asid_num_eq] at f2 hf; omega
    exact is_valid_of_same_generation wf (packed_lt wf (le_of_lt f3) hs.gen_lt) hs.gen_ok
      ((is_same_generation_packed wf _ f3 hs.gen_aligned hs.gen_lt).2 rfl)

/-- C6: in every reachable state the value `alloc_asid` stores into the slot
and into the caller's `active` field is valid, never the `Invalid` sentinel. -/
theorem alloc_asid_stores_valid (cfg : Config) (wf : cfg.wf) (w : Sys)
    (hr : Reachable cfg w) (cpu slot : Nat) :
    is_valid cfg (alloc_asid cfg cpu (w.slots slot) w.alloc).2.1 = true ∧
    is_valid cfg ((alloc_asid cfg cpu (w.slots slot) w.alloc).2.2.asids cpu).active = true := by
  have hv := slow_path_valid wf (w.slots slot) w.alloc ((hr.sys_ok wf).slot_lt slot)
    (hr.sys_ok wf).alloc_ok
  refine ⟨?_, ?_⟩
  · rw [alloc_asid_eq]; exact hv
  · rw [alloc_asid_eq]
    simp only [set_cpu, if_true]
    exact hv

/-- Witness for C6: the allocation for D on CPU 1 in the example scenario. -/
theorem alloc_asid_stores_valid_witness :
    is_valid scenario_cfg (alloc_asid scenario_cfg 1 (scenario_3.slots 3) scenario_3.alloc).2.1 =
      true ∧
    is_valid scenario_cfg
      ((alloc_asid scenario_cfg 1 (scenario_3.slots 3) scenario_3.alloc).2.2.asids 1).active =
      true :=
  alloc_asid_stores_valid scenario_cfg scenario_cfg_wf scenario_3 scenario_3_reachable 1 3

theorem slow_path_pending_of_not_roll (cfg : Config) (a : Nat) (s : Asid_alloc)
    (h : alloc_asid_rolls_over cfg a s = false) :
    (slow_path cfg a s).2.tlb_flush_pending = s.tlb_flush_pending := by
  by_cases hsame : is_same_generation cfg a s.gen = true
  · rw [slow_path_same cfg a s hsame]
  have hstale : is_same_generation cfg a s.gen = false := by simpa using hsame
  have h2 : new_asid_rolls_over cfg a s.gen s = false := by
    unfold alloc_asid_rolls_over at h
    rw [hstale] at h
    simpa using h
  by_cases hc : carries_over cfg a s
  · rw [slow_path_carry cfg a s hstale hc]
    exact (carry_spec cfg a _ s).2.1
  · have hf : (find_next cfg s.reserved).1 ≠ Asid_num cfg := by
      intro e
      have := (new_asid_rolls_over_iff cfg a s.gen s).2 ⟨hc, e⟩
      rw [h2] at this
      exact Bool.noConfusion this
    unfold slow_path
    simp only [hstale, Bool.not_false, if_true]
    rw [new_asid_no_carry cfg a s.gen s hc]
    unfold new_asid_fresh
    simp only [hf, if_false]

/-- C7: when `alloc_asid` on CPU `c` performs no roll-over, it returns the
value `c`'s bit of `flush_pending` had before the call, the bit is clear
afterwards, and the bits of all other CPUs are unchanged. -/
theorem alloc_asid_flush_no_roll_over (cfg : Config) (c a : Nat) (s : Asid_alloc)
    (h : alloc_asid_rolls_over cfg a s = false) :
    (alloc_asid cfg c a s).1 = s.tlb_flush_pending c ∧
    (alloc_asid cfg c a s).2.2.tlb_flush_pending c = false ∧
    ∀ d, d ≠ c → (alloc_asid cfg c a s).2.2.tlb_flush_pending d = s.tlb_flush_pending d := by
  have hp := slow_path_pending_of_not_roll cfg a s h
  rw [alloc_asid_eq]
  refine ⟨?_, ?_, ?_⟩
  · show (slow_path cfg a s).2.tlb_flush_pending c = _
    rw [hp]
  · show (if c = c then false else (slow_path cfg a s).2.tlb_flush_pending c) = false
    rw [if_pos rfl]
  · intro d hd
    show (if d = c then false else (slow_path cfg a s).2.tlb_flush_pending d) = _
    rw [if_neg hd, hp]

/-- Witness for C7: CPU 1 switching back to B after the roll-over of the example scenario. -/
theorem alloc_asid_flush_no_roll_over_witness :
    (alloc_asid scenario_cfg 1 (scenario_4.slots 1) scenario_4.alloc).1 =
      scenario_4.alloc.tlb_flush_pending 1 ∧
    (alloc_asid scenario_cfg 1 (scenario_4.slots 1) scenario_4.alloc).2.2.tlb_flush_pending 1 =
      false ∧
    ∀ d, d ≠ 1 →
      (alloc_asid scenario_cfg 1 (scenario_4.slots 1) scenario_4.alloc).2.2.tlb_flush_pending d =
        scenario_4.alloc.tlb_flush_pending d :=
  alloc_asid_flush_no_roll_over scenario_cfg 1 (scenario_4.slots 1) scenario_4.alloc (by decide)

/-- C8: when an `alloc_asid` call on an online CPU `c` performs a roll-over,
it returns true and afterwards `flush_pending` holds exactly the online CPUs
other than `c`. -/
theorem alloc_asid_flush_roll_over (cfg : Config) (c a : Nat) (s : Asid_alloc)
    (hc : cfg.online c = true) (h : alloc_asid_rolls_over cfg a s = true) :
    (alloc_asid cfg c a s).1 = true ∧
    ∀ d, (alloc_asid cfg c a s).2.2.tlb_flush_pending d = (cfg.online d && decide (d ≠ c)) := by
  unfold alloc_asid_rolls_over at h
  rw [Bool.and_eq_true] at h
  obtain ⟨h1, h2⟩ := h
  obtain ⟨h3, h4⟩ := (new_asid_rolls_over_iff cfg a s.gen s).1 h2
  have hp : (slow_path cfg a s).2.tlb_flush_pending = cfg.online := by
    unfold slow_path
    rw [if_pos h1, new_asid_no_carry cfg a s.gen s h3]
    unfold new_asid_fresh
    simp only [h4, if_true]
    rfl
  rw [alloc_asid_eq]
  refine ⟨?_, ?_⟩
  · show (slow_path cfg a s).2.tlb_flush_pending c = true
    rw [hp]; exact hc
  · intro d
    show (if d = c then false else (slow_path cfg a s).2.tlb_flush_pending d) = _
    rw [hp]
    by_cases hd : d = c
    · simp [hd]
    · simp [hd]

/-- Witness for C8: the allocation for D on CPU 1 in the example scenario, which rolls over. -/
theorem alloc_asid_flush_roll_over_witness :
    (alloc_asid scenario_cfg 1 (scenario_3.slots 3) scenario_3.alloc).1 = true ∧
    ∀ d, (alloc_asid scenario_cfg 1 (scenario_3.slots 3) scenario_3.alloc).2.2.tlb_flush_pending d =
      (scenario_cfg.online d && decide (d ≠ 1)) :=
  alloc_asid_flush_roll_over scenario_cfg 1 (scenario_3.slots 3) scenario_3.alloc
    (by decide) (by decide)

/-- C9: if `old_asid` is valid, its id is marked in the bitmap and some online
CPU has exactly `old_asid` reserved, `new_asid` returns the id of `old_asid`
or-ed with `generation` and leaves the bitmap, the cursor, the generation
counter and `flush_pending` as they are. -/
theorem new_asid_carry_over (cfg : Config) (a g : Nat) (s : Asid_alloc)
    (hv : is_valid cfg a = true) (hb : s.reserved.bits (asid cfg a) = true)
    (hc : ∃ c, Cpu_online cfg c ∧ (s.asids c).reserved = a) :
    (new_asid cfg a g s).1 = asid cfg a ||| g ∧
    (new_asid cfg a g s).2.reserved = s.reserved ∧
    (new_asid cfg a g s).2.gen = s.gen ∧
    (new_asid cfg a g s).2.tlb_flush_pending = s.tlb_flush_pending := by
  rw [new_asid_carry cfg a g s ⟨hv, hb, hc⟩]
  obtain ⟨c1, c2, c3, _, _⟩ := carry_spec cfg a (asid cfg a ||| g) s
  exact ⟨rfl, c3, c1, c2⟩

/-- Witness for C9: `new_asid` for B after the roll-over of the example scenario; CPU 1 has B's old value reserved. -/
theorem new_asid_carry_over_witness :
    (new_asid scenario_cfg (scenario_4.slots 1) scenario_4.alloc.gen scenario_4.alloc).1 =
      asid scenario_cfg (scenario_4.slots 1) ||| scenario_4.alloc.gen ∧
    (new_asid scenario_cfg (scenario_4.slots 1) scenario_4.alloc.gen scenario_4.alloc).2.reserved =
      scenario_4.alloc.reserved ∧
    (new_asid scenario_cfg (scenario_4.slots 1) scenario_4.alloc.gen scenario_4.alloc).2.gen =
      scenario_4.alloc.gen ∧
    (new_asid scenario_cfg (scenario_4.slots 1) scenario_4.alloc.gen
      scenario_4.alloc).2.tlb_flush_pending = scenario_4.alloc.tlb_flush_pending :=
  new_asid_carry_over scenario_cfg (scenario_4.slots 1) scenario_4.alloc.gen scenario_4.alloc
    (by decide) (by decide) ⟨1, by decide, by decide⟩

/-- C10 (as stated, refuted): address space 1 holds a valid stale Asid with
id 2 and the online CPU 0 has a reserved field with the same id 2, but of a
later owner; `alloc_asid` gives address space 1 another id. -/
theorem alloc_asid_same_id_counterexample :
    Reachable scenario_cfg reuse_w ∧
    is_valid scenario_cfg (reuse_w.slots 1) = true ∧
    is_same_generation scenario_cfg (reuse_w.slots 1) reuse_w.alloc.gen = false ∧
    Cpu_online scenario_cfg 0 ∧
    asid scenario_cfg (reuse_w.alloc.asids 0).reserved = asid scenario_cfg (reuse_w.slots 1) ∧
    asid scenario_cfg (alloc_asid scenario_cfg 0 (reuse_w.slots 1) reuse_w.alloc).2.1 ≠
      asid scenario_cfg (reuse_w.slots 1) := by
  refine ⟨?_, by decide, by decide, by decide, by decide, by decide⟩
  have h0 : Cpu_online scenario_cfg 0 := by decide
  exact Reachable.alloc_asid _ 0 5 (Reachable.alloc_asid _ 0 4 (Reachable.alloc_asid _ 0 3
    (Reachable.alloc_asid _ 0 2 (Reachable.alloc_asid _ 0 1 (Reachable.alloc_asid _ 0 0
      Reachable.init h0) h0) h0) h0) h0) h0

/-- C10 (amended): in every reachable state in which the slot holds a valid
stale Asid and some online CPU's reserved field equals that Asid exactly,
`alloc_asid` gives the address space the same id stamped with the current
generation and leaves bitmap, cursor and generation counter unchanged. -/
theorem alloc_asid_carry_over (cfg : Config) (wf : cfg.wf) (w : Sys) (hr : Reachable cfg w)
    (cpu slot : Nat) (hv : is_valid cfg (w.slots slot) = true)
    (hstale : is_same_generation cfg (w.slots slot) w.alloc.gen = false)
    (hc : ∃ c, Cpu_online cfg c ∧ (w.alloc.asids c).reserved = w.slots slot) :
    asid cfg (alloc_asid cfg cpu (w.slots slot) w.alloc).2.1 = asid cfg (w.slots slot) ∧
    is_same_generation cfg (alloc_asid cfg cpu (w.slots slot) w.alloc).2.1 w.alloc.gen = true ∧
    (alloc_asid cfg cpu (w.slots slot) w.alloc).2.2.gen = w.alloc.gen ∧
    (alloc_asid cfg cpu (w.slots slot) w.alloc).2.2.reserved = w.alloc.reserved := by
  have hok := (hr.sys_ok wf).alloc_ok
  obtain ⟨c, c1, c2⟩ := hc
  have hb : w.alloc.reserved.bits (asid cfg (w.slots slot)) = true := by
    have := hok.reserved_marked c c1 (by rw [c2]; exact hv)
    rw [c2] at this
    exact this
  have e := slow_path_carry cfg (w.slots slot) w.alloc hstale ⟨hv, hb, c, c1, c2⟩
  obtain ⟨s1, _, s3, _, _⟩ :=
    carry_spec cfg (w.slots slot) (asid cfg (w.slots slot) ||| w.alloc.gen) w.alloc
  have hk := asid_lt wf (w.slots slot)
  rw [alloc_asid_eq, e]
  exact ⟨asid_packed wf hk hok.gen_aligned,
    (is_same_generation_packed wf _ hk hok.gen_aligned hok.gen_lt).2 rfl, s1, s3⟩

theorem scenario_4_reachable : Reachable scenario_cfg scenario_4 :=
  Reachable.alloc_asid _ 1 3 scenario_3_reachable (by decide)

/-- Witness for C10 (amended): CPU 1 switching back to B after the roll-over of the example scenario. -/
theorem alloc_asid_carry_over_witness :
    asid scenario_cfg (alloc_asid scenario_cfg 1 (scenario_4.slots 1) scenario_4.alloc).2.1 =
      asid scenario_cfg (scenario_4.slots 1) ∧
    is_same_generation scenario_cfg
      (alloc_asid scenario_cfg 1 (scenario_4.slots 1) scenario_4.alloc).2.1
      scenario_4.alloc.gen = true ∧
    (alloc_asid scenario_cfg 1 (scenario_4.slots 1) scenario_4.alloc).2.2.gen =
      scenario_4.alloc.gen ∧
    (alloc_asid scenario_cfg 1 (scenario_4.slots 1) scenario_4.alloc).2.2.reserved =
      scenario_4.alloc.reserved :=
  alloc_asid_carry_over scenario_cfg scenario_cfg_wf scenario_4 scenario_4_reachable 1 1
    (by decide) (by decide) ⟨1, by decide, by decide⟩

/-- C13: in every state reachable from the initial state by `alloc_asid` and
`can_use_asid` calls, `is_invalid_generation` of the generation counter is
false. -/
theorem generation_never_invalid (cfg : Config) (wf : cfg.wf) (w : Sys)
    (hr : Reachable cfg w) : is_invalid_generation cfg w.alloc.gen = false :=
  (hr.sys_ok wf).alloc_ok.gen_ok

/-- Witness for C13: the example scenario after the roll-over. -/
theorem generation_never_invalid_witness :
    is_invalid_generation scenario_cfg scenario_4.alloc.gen = false :=
  generation_never_invalid scenario_cfg scenario_cfg_wf scenario_4 scenario_4_reachable

theorem roll_over_asids (cfg : Config) (s : Asid_alloc) (c : Nat) :
    (roll_over cfg s).asids c =
      if Cpu_online cfg c then { active := Invalid cfg, reserved := rolled_reserved cfg s c }
      else s.asids c :=
  (roll_over_spec cfg s).2.2.2.1 c

/-- C14: after `roll_over` the set bits of the bitmap are exactly the ids of
the valid `reserved` fields of the online CPUs, and the cursor is `ASID_BASE`
(a value of type `unsigned`). -/
theorem roll_over_bitmap (cfg : Config) (s : Asid_alloc) (hb : cfg.ASID_BASE < 2 ^ 32) :
    (∀ k, (roll_over cfg s).reserved.bits k = true ↔
      ∃ c, Cpu_online cfg c ∧ is_valid cfg ((roll_over cfg s).asids c).reserved = true ∧
        asid cfg ((roll_over cfg s).asids c).reserved = k) ∧
    (roll_over cfg s).reserved.current_idx = cfg.ASID_BASE := by
  obtain ⟨_, _, h3, _, h5⟩ := roll_over_spec cfg s
  have h4 := roll_over_asids cfg s
  have hres : ∀ c, Cpu_online cfg c →
      ((roll_over cfg s).asids c).reserved = rolled_reserved cfg s c := by
    intro c hc
    rw [h4 c, if_pos hc]
  refine ⟨?_, by rw [h3]; exact to_unsigned_of_lt hb⟩
  intro k
  rw [h5 k]
  constructor
  · rintro ⟨c, c1, c2, c3, c4⟩
    exact ⟨c, ⟨c1, c2⟩, by rw [hres c ⟨c1, c2⟩]; exact c3, by rw [hres c ⟨c1, c2⟩]; exact c4⟩
  · rintro ⟨c, hc, c3, c4⟩
    rw [hres c hc] at c3 c4
    exact ⟨c, hc.1, hc.2, c3, c4⟩

/-- Witness for C14: `roll_over` on the example scenario after A, B and C
were allocated. -/
theorem roll_over_bitmap_witness :
    (∀ k, (roll_over scenario_cfg scenario_3.alloc).reserved.bits k = true ↔
      ∃ c, Cpu_online scenario_cfg c ∧
        is_valid scenario_cfg ((roll_over scenario_cfg scenario_3.alloc).asids c).reserved = true ∧
        asid scenario_cfg ((roll_over scenario_cfg scenario_3.alloc).asids c).reserved = k) ∧
    (roll_over scenario_cfg scenario_3.alloc).reserved.current_idx = scenario_cfg.ASID_BASE :=
  roll_over_bitmap scenario_cfg scenario_3.alloc (by decide)

/-- C15: after `roll_over` every online CPU has `active = Invalid` and its
`reserved` field is its former `active` value if that was valid and is
otherwise unchanged; the fields of the other CPUs are untouched. -/
theorem roll_over_per_cpu (cfg : Config) (s : Asid_alloc) :
    (∀ c, Cpu_online cfg c →
      ((roll_over cfg s).asids c).active = Invalid cfg ∧
      ((roll_over cfg s).asids c).reserved =
        if is_valid cfg (s.asids c).active then (s.asids c).active
        else (s.asids c).reserved) ∧
    (∀ c, ¬ Cpu_online cfg c → (roll_over cfg s).asids c = s.asids c) := by
  have h4 := roll_over_asids cfg s
  refine ⟨?_, ?_⟩
  · intro c hc
    rw [h4 c, if_pos hc]
    exact ⟨rfl, rfl⟩
  · intro c hc
    rw [h4 c, if_neg hc]

/-- Witness for C15: CPU 0 in `roll_over` on the example scenario after A, B
and C were allocated. -/
theorem roll_over_per_cpu_witness :
    ((roll_over scenario_cfg scenario_3.alloc).asids 0).active = Invalid scenario_cfg ∧
    ((roll_over scenario_cfg scenario_3.alloc).asids 0).reserved =
      if is_valid scenario_cfg (scenario_3.alloc.asids 0).active then
        (scenario_3.alloc.asids 0).active
      else (scenario_3.alloc.asids 0).reserved :=
  (roll_over_per_cpu scenario_cfg scenario_3.alloc).1 0 (by decide)

/-- C16: after `roll_over` the number of set bits of the bitmap is at most
the number of online CPUs. -/
theorem roll_over_count_le (cfg : Config) (s : Asid_alloc) :
    (roll_over cfg s).reserved.count_set cfg ≤ num_online cfg := by
  unfold Asid_bitmap.count_set
  rw [← List.toFinset_card_of_nodup ((List.nodup_range _).filter _)]
  apply roll_over_bits_card_le cfg s
  intro k hk
  rw [List.mem_toFinset, List.mem_filter] at hk
  exact hk.2

theorem is_valid_Invalid {cfg : Config} (wf : cfg.wf) : is_valid cfg (Invalid cfg) = false := by
  cases h : is_valid cfg (Invalid cfg) with
  | false => rfl
  | true =>
    rw [is_valid_iff wf _ (Invalid_lt cfg)] at h
    exact absurd rfl h

theorem ASID_BASE_lt {cfg : Config} (wf : cfg.wf)
    (hn : num_online cfg < 2 ^ cfg.ASID_BITS - cfg.ASID_BASE) : cfg.ASID_BASE < 2 ^ 32 := by
  have := Asid_num_lt wf
  rw [Asid_num_eq] at this
  omega

theorem slow_path_range {cfg : Config} (wf : cfg.wf)
    (hn : num_online cfg < 2 ^ cfg.ASID_BITS - cfg.ASID_BASE) (a : Nat) (s : Asid_alloc)
    (hlt : a < 2 ^ cfg.width) (hs : Alloc_ok cfg s) (hr : Range_ok cfg s)
    (ha : is_valid cfg a = true → cfg.ASID_BASE ≤ asid cfg a) :
    cfg.ASID_BASE ≤ asid cfg (slow_path cfg a s).1 ∧ Range_ok cfg (slow_path cfg a s).2 := by
  by_cases hsame : is_same_generation cfg a s.gen = true
  · rw [slow_path_same cfg a s hsame]
    exact ⟨ha (is_valid_of_same_generation wf hlt hs.gen_ok hsame), hr⟩
  have hstale : is_same_generation cfg a s.gen = false := by simpa using hsame
  by_cases hc : carries_over cfg a s
  · rw [slow_path_carry cfg a s hstale hc]
    obtain ⟨_, _, c3, c4, c5⟩ := carry_spec cfg a (asid cfg a ||| s.gen) s
    have hid : asid cfg (asid cfg a ||| s.gen) = asid cfg a :=
      asid_packed wf (asid_lt wf a) hs.gen_aligned
    have hge : cfg.ASID_BASE ≤ asid cfg (asid cfg a ||| s.gen) := by
      rw [hid]; exact ha hc.1
    refine ⟨hge, ?_, ?_, ?_⟩
    · show _ ≤ (check_and_update_reserved cfg a _ s).2.reserved.current_idx
      rw [c3]; exact hr.cursor_ge
    · intro c
      show is_valid cfg ((check_and_update_reserved cfg a _ s).2.asids c).active = true → _ ≤
        asid cfg ((check_and_update_reserved cfg a _ s).2.asids c).active
      rw [c4 c]; exact hr.active_ge c
    · intro c
      show is_valid cfg ((check_and_update_reserved cfg a _ s).2.asids c).reserved = true → _ ≤
        asid cfg ((check_and_update_reserved cfg a _ s).2.asids c).reserved
      rw [c5 c]
      split
      · exact fun _ => hge
      · exact hr.reserved_ge c
  by_cases hf : (find_next cfg s.reserved).1 = Asid_num cfg
  · rw [slow_path_roll wf a s hstale hc hf]
    obtain ⟨_, _, _, r4, _⟩ := rolled_spec cfg s
    obtain ⟨f1, f2, _, f4⟩ :=
      find_next_after_roll_over wf { s with gen := next_gen cfg s.gen }
        (by rw [Asid_num_eq]; exact hn)
    change cfg.ASID_BASE ≤ (find_next cfg (rolled cfg s).reserved).1 at f1
    change (find_next cfg (rolled cfg s).reserved).1 < Asid_num cfg at f2
    change (find_next cfg (rolled cfg s).reserved).2 =
      { (rolled cfg s).reserved with
        current_idx := (find_next cfg (rolled cfg s).reserved).1 + 1 } at f4
    rw [Asid_num_eq] at f2
    refine ⟨?_, ?_, ?_, ?_⟩
    · show _ ≤ asid cfg ((find_next cfg (rolled cfg s).reserved).1 ||| next_gen cfg s.gen)
      rw [asid_packed wf f2 (next_gen_aligned wf hs.gen_aligned)]
      exact f1
    · show _ ≤ (find_next cfg (rolled cfg s).reserved).2.current_idx
      rw [f4]
      show _ ≤ _ + 1
      omega
    · intro c
      show is_valid cfg ((rolled cfg s).asids c).active = true → _ ≤
        asid cfg ((rolled cfg s).asids c).active
      rw [r4 c]
      split
      · intro hv
        have : is_valid cfg (Invalid cfg) = true := hv
        rw [is_valid_Invalid wf] at this
        exact Bool.noConfusion this
      · exact hr.active_ge c
    · intro c
      show is_valid cfg ((rolled cfg s).asids c).reserved = true → _ ≤
        asid cfg ((rolled cfg s).asids c).reserved
      rw [r4 c]
      split
      · show is_valid cfg (rolled_reserved cfg s c) = true → _ ≤
          asid cfg (rolled_reserved cfg s c)
        unfold rolled_reserved
        split
        · exact hr.active_ge c
        · exact hr.reserved_ge c
      · exact hr.reserved_ge c
  · rw [slow_path_found wf a s hstale hc hf]
    rcases find_next_spec wf s.reserved with ⟨e1, _, _⟩ | ⟨f1, f2, _, _, _⟩
    · exact absurd e1 hf
    rw [Asid_num_eq] at f2
    have hcur := hr.cursor_ge
    refine ⟨?_, ?_, hr.active_ge, hr.reserved_ge⟩
    · rw [asid_packed wf f2 hs.gen_aligned]
      omega
    · show _ ≤ _ + 1
      omega

theorem Sys_range_init {cfg : Config} (wf : cfg.wf)
    (hn : num_online cfg < 2 ^ cfg.ASID_BITS - cfg.ASID_BASE) : Sys_range cfg (Sys.init cfg) := by
  have hv : ∀ P : Prop, is_valid cfg (Invalid cfg) = true → P := by
    intro P h
    rw [is_valid_Invalid wf] at h
    exact Bool.noConfusion h
  refine ⟨⟨?_, fun _ => hv _, fun _ => hv _⟩, fun _ => hv _⟩
  show _ ≤ to_unsigned cfg.ASID_BASE
  rw [to_unsigned_of_lt (ASID_BASE_lt wf hn)]

theorem Sys_range_can_use_asid {cfg : Config} (cpu slot : Nat) (w : Sys)
    (h : Sys_range cfg w) : Sys_range cfg (Sys.can_use_asid cfg cpu slot w) := by
  refine ⟨?_, h.slot_ge⟩
  unfold Sys.can_use_asid AsidAlloc.can_use_asid
  by_cases hs : is_same_generation cfg (w.slots slot) w.alloc.gen = true
  · simp only [hs, if_true]
    refine ⟨h.alloc_range.cursor_ge, ?_, ?_⟩
    · intro c
      simp only [set_cpu]
      split
      · exact h.slot_ge slot
      · exact h.alloc_range.active_ge c
    · intro c
      simp only [set_cpu]
      split
      · exact h.alloc_range.reserved_ge cpu
      · exact h.alloc_range.reserved_ge c
  · simp only [hs, if_false]
    exact h.alloc_range

theorem Sys_range_alloc_asid {cfg : Config} (wf : cfg.wf)
    (hn : num_online cfg < 2 ^ cfg.ASID_BITS - cfg.ASID_BASE) (cpu slot : Nat) (w : Sys)
    (hok : Sys_ok cfg w) (h : Sys_range cfg w) : Sys_range cfg (Sys.alloc_asid cfg cpu slot w) := by
  obtain ⟨hv, ht⟩ := slow_path_range wf hn (w.slots slot) w.alloc (hok.slot_lt slot)
    hok.alloc_ok h.alloc_range (h.slot_ge slot)
  refine ⟨⟨?_, ?_, ?_⟩, ?_⟩
  · rw [Sys.alloc_asid_reserved]; exact ht.cursor_ge
  · intro c
    rw [Sys.alloc_asid_active]
    split
    · exact fun _ => hv
    · exact ht.active_ge c
  · intro c
    rw [Sys.alloc_asid_cpu_reserved]; exact ht.reserved_ge c
  · intro i
    rw [Sys.alloc_asid_slots]
    split
    · exact fun _ => hv
    · exact h.slot_ge i

theorem Reachable.sys_range {cfg : Config} (wf : cfg.wf)
    (hn : num_online cfg < 2 ^ cfg.ASID_BITS - cfg.ASID_BASE) {w : Sys}
    (h : Reachable cfg w) : Sys_range cfg w := by
  induction h with
  | init => exact Sys_range_init wf hn
  | can_use_asid w cpu slot _ _ ih => exact Sys_range_can_use_asid cpu slot w ih
  | alloc_asid w cpu slot hr _ ih =>
    exact Sys_range_alloc_asid wf hn cpu slot w (hr.sys_ok wf) ih

/-- C11: in every reachable state with fewer online CPUs than
`2 ^ ASID_BITS - ASID_BASE`, every valid value in a slot, in an `active` field
or in a `reserved` field has an id in `[ASID_BASE, 2 ^ ASID_BITS)`. -/
theorem valid_ids_in_range (cfg : Config) (wf : cfg.wf)
    (hn : num_online cfg < 2 ^ cfg.ASID_BITS - cfg.ASID_BASE) (w : Sys)
    (hr : Reachable cfg w) :
    (∀ i, is_valid cfg (w.slots i) = true →
      cfg.ASID_BASE ≤ asid cfg (w.slots i) ∧ asid cfg (w.slots i) < 2 ^ cfg.ASID_BITS) ∧
    (∀ c, is_valid cfg (w.alloc.asids c).active = true →
      cfg.ASID_BASE ≤ asid cfg (w.alloc.asids c).active ∧
      asid cfg (w.alloc.asids c).active < 2 ^ cfg.ASID_BITS) ∧
    (∀ c, is_valid cfg (w.alloc.asids c).reserved = true →
      cfg.ASID_BASE ≤ asid cfg (w.alloc.asids c).reserved ∧
      asid cfg (w.alloc.asids c).reserved < 2 ^ cfg.ASID_BITS) := by
  have h := hr.sys_range wf hn
  exact ⟨fun i hv => ⟨h.slot_ge i hv, asid_lt wf _⟩,
    fun c hv => ⟨h.alloc_range.active_ge c hv, asid_lt wf _⟩,
    fun c hv => ⟨h.alloc_range.reserved_ge c hv, asid_lt wf _⟩⟩

theorem scenario_5_reachable_any : Reachable scenario_cfg scenario_5 :=
  Reachable.alloc_asid _ 1 1 scenario_4_reachable (by decide)

/-- Witness for C11: the example scenario after five allocations. -/
theorem valid_ids_in_range_witness :
    (∀ i, is_valid scenario_cfg (scenario_5.slots i) = true →
      scenario_cfg.ASID_BASE ≤ asid scenario_cfg (scenario_5.slots i) ∧
      asid scenario_cfg (scenario_5.slots i) < 2 ^ scenario_cfg.ASID_BITS) ∧
    (∀ c, is_valid scenario_cfg (scenario_5.alloc.asids c).active = true →
      scenario_cfg.ASID_BASE ≤ asid scenario_cfg (scenario_5.alloc.asids c).active ∧
      asid scenario_cfg (scenario_5.alloc.asids c).active < 2 ^ scenario_cfg.ASID_BITS) ∧
    (∀ c, is_valid scenario_cfg (scenario_5.alloc.asids c).reserved = true →
      scenario_cfg.ASID_BASE ≤ asid scenario_cfg (scenario_5.alloc.asids c).reserved ∧
      asid scenario_cfg (scenario_5.alloc.asids c).reserved < 2 ^ scenario_cfg.ASID_BITS) :=
  valid_ids_in_range scenario_cfg scenario_cfg_wf (by decide) scenario_5 scenario_5_reachable_any

theorem can_use_asid_true_iff (cfg : Config) (cpu a : Nat) (s : Asid_alloc) :
    (can_use_asid cfg cpu a s).1 = true ↔
      is_same_generation cfg a s.gen = true ∧ is_valid cfg (s.asids cpu).active = true := by
  unfold can_use_asid
  by_cases h : is_same_generation cfg a s.gen = true
  · simp [h]
  · simp [h]

theorem Sys.can_use_asid_slots (cfg : Config) (cpu slot : Nat) (w : Sys) :
    (Sys.can_use_asid cfg cpu slot w).slots = w.slots := rfl

theorem Sys.can_use_asid_gen (cfg : Config) (cpu slot : Nat) (w : Sys) :
    (Sys.can_use_asid cfg cpu slot w).alloc.gen = w.alloc.gen := by
  unfold Sys.can_use_asid AsidAlloc.can_use_asid
  split <;> rfl

theorem Sys.can_use_asid_active (cfg : Config) (cpu slot : Nat) (w : Sys) (c : Nat) :
    ((Sys.can_use_asid cfg cpu slot w).alloc.asids c).active =
      if c = cpu ∧ is_same_generation cfg (w.slots slot) w.alloc.gen = true then w.slots slot
      else (w.alloc.asids c).active := by
  unfold Sys.can_use_asid AsidAlloc.can_use_asid
  by_cases h : is_same_generation cfg (w.slots slot) w.alloc.gen = true
  · simp only [h, if_true, set_cpu, and_true]
    split <;> rfl
  · have h2 : is_same_generation cfg (w.slots slot) w.alloc.gen = false := by simpa using h
    rw [h2, if_neg (by decide), if_neg (by simp)]

/-- Calls of `can_use_asid` keep slots and generation, and keep a valid
`active` field valid. -/
theorem can_use_asid_calls_keep {cfg : Config} (wf : cfg.wf) (cpu : Nat) (calls : List (Nat × Nat)) :
    ∀ w : Sys, Sys_ok cfg w → is_valid cfg (w.alloc.asids cpu).active = true →
      (Sys.can_use_asid_calls cfg calls w).slots = w.slots ∧
      (Sys.can_use_asid_calls cfg calls w).alloc.gen = w.alloc.gen ∧
      is_valid cfg ((Sys.can_use_asid_calls cfg calls w).alloc.asids cpu).active = true := by
  induction calls with
  | nil => intro w _ hv; exact ⟨rfl, rfl, hv⟩
  | cons c rest ih =>
    intro w hok hv
    have hok2 := Sys_ok_can_use_asid c.1 c.2 w hok
    have hv2 : is_valid cfg ((Sys.can_use_asid cfg c.1 c.2 w).alloc.asids cpu).active = true := by
      rw [Sys.can_use_asid_active]
      split
      · rename_i hc
        exact is_valid_of_same_generation wf (hok.slot_lt _) hok.alloc_ok.gen_ok hc.2
      · exact hv
    obtain ⟨h1, h2, h3⟩ := ih (Sys.can_use_asid cfg c.1 c.2 w) hok2 hv2
    refine ⟨?_, ?_, h3⟩
    · show (Sys.can_use_asid_calls cfg rest (Sys.can_use_asid cfg c.1 c.2 w)).slots = _
      rw [h1]; rfl
    · show (Sys.can_use_asid_calls cfg rest (Sys.can_use_asid cfg c.1 c.2 w)).alloc.gen = _
      rw [h2, Sys.can_use_asid_gen]

/-- C12: in every reachable state, once `can_use_asid` has returned true for
a CPU and a slot, a later call for the same CPU and slot, with only
`can_use_asid` calls in between, returns true again, finds the slot's value
unchanged and leaves the CPU's `active` field as the first call left it. -/
theorem can_use_asid_repeat (cfg : Config) (wf : cfg.wf) (w : Sys) (hr : Reachable cfg w)
    (cpu slot : Nat) (calls : List (Nat × Nat))
    (h : (can_use_asid cfg cpu (w.slots slot) w.alloc).1 = true) :
    (can_use_asid cfg cpu
      ((Sys.can_use_asid_calls cfg calls (Sys.can_use_asid cfg cpu slot w)).slots slot)
      (Sys.can_use_asid_calls cfg calls (Sys.can_use_asid cfg cpu slot w)).alloc).1 = true ∧
    (Sys.can_use_asid cfg cpu slot
      (Sys.can_use_asid_calls cfg calls (Sys.can_use_asid cfg cpu slot w))).slots slot =
      w.slots slot ∧
    ((Sys.can_use_asid cfg cpu slot
      (Sys.can_use_asid_calls cfg calls (Sys.can_use_asid cfg cpu slot w))).alloc.asids cpu).active =
      ((Sys.can_use_asid cfg cpu slot w).alloc.asids cpu).active := by
  have hok := hr.sys_ok wf
  obtain ⟨hg, _⟩ := (can_use_asid_true_iff cfg cpu _ _).1 h
  have hok1 := Sys_ok_can_use_asid cpu slot w hok
  have hact1 : ((Sys.can_use_asid cfg cpu slot w).alloc.asids cpu).active = w.slots slot := by
    rw [Sys.can_use_asid_active, if_pos ⟨rfl, hg⟩]
  have hv1 : is_valid cfg ((Sys.can_use_asid cfg cpu slot w).alloc.asids cpu).active = true := by
    rw [hact1]
    exact is_valid_of_same_generation wf (hok.slot_lt _) hok.alloc_ok.gen_ok hg
  obtain ⟨k1, k2, k3⟩ := can_use_asid_calls_keep wf cpu calls _ hok1 hv1
  rw [Sys.can_use_asid_slots] at k1
  rw [Sys.can_use_asid_gen] at k2
  have hg2 : is_same_generation cfg
      ((Sys.can_use_asid_calls cfg calls (Sys.can_use_asid cfg cpu slot w)).slots slot)
      (Sys.can_use_asid_calls cfg calls (Sys.can_use_asid cfg cpu slot w)).alloc.gen = true := by
    rw [k1, k2]; exact hg
  refine ⟨(can_use_asid_true_iff cfg cpu _ _).2 ⟨hg2, k3⟩, ?_, ?_⟩
  · rw [Sys.can_use_asid_slots, k1]
  · rw [Sys.can_use_asid_active, if_pos ⟨rfl, hg2⟩, k1, hact1]

/-- Witness for C12: after CPU 1 switched back to B in the example scenario,
`can_use_asid` for B on CPU 1, then for D on CPU 1 and for A on CPU 0, then
again for B on CPU 1. -/
theorem can_use_asid_repeat_witness :
    (can_use_asid scenario_cfg 1
      ((Sys.can_use_asid_calls scenario_cfg [(1, 3), (0, 0)]
        (Sys.can_use_asid scenario_cfg 1 1 scenario_5)).slots 1)
      (Sys.can_use_asid_calls scenario_cfg [(1, 3), (0, 0)]
        (Sys.can_use_asid scenario_cfg 1 1 scenario_5)).alloc).1 = true ∧
    (Sys.can_use_asid scenario_cfg 1 1
      (Sys.can_use_asid_calls scenario_cfg [(1, 3), (0, 0)]
        (Sys.can_use_asid scenario_cfg 1 1 scenario_5))).slots 1 = scenario_5.slots 1 ∧
    ((Sys.can_use_asid scenario_cfg 1 1
      (Sys.can_use_asid_calls scenario_cfg [(1, 3), (0, 0)]
        (Sys.can_use_asid scenario_cfg 1 1 scenario_5))).alloc.asids 1).active =
      ((Sys.can_use_asid scenario_cfg 1 1 scenario_5).alloc.asids 1).active :=
  can_use_asid_repeat scenario_cfg scenario_cfg_wf scenario_5 scenario_5_reachable_any 1 1
    [(1, 3), (0, 0)] (by decide)

theorem alloc_asid_rolls_over_iff (cfg : Config) (a : Nat) (s : Asid_alloc) :
    alloc_asid_rolls_over cfg a s = true ↔
      is_same_generation cfg a s.gen = false ∧ ¬ carries_over cfg a s ∧
        (find_next cfg s.reserved).1 = Asid_num cfg := by
  unfold alloc_asid_rolls_over
  rw [Bool.and_eq_true, new_asid_rolls_over_iff]
  simp

theorem slow_path_pending_of_roll (cfg : Config) (a : Nat) (s : Asid_alloc)
    (h : alloc_asid_rolls_over cfg a s = true) :
    (slow_path cfg a s).2.tlb_flush_pending = cfg.online := by
  obtain ⟨h1, h3, h4⟩ := (alloc_asid_rolls_over_iff cfg a s).1 h
  unfold slow_path
  simp only [h1, Bool.not_false, if_true]
  rw [new_asid_no_carry cfg a s.gen s h3]
  unfold new_asid_fresh
  simp only [h4, if_true]
  rfl

theorem slow_path_active {cfg : Config} (wf : cfg.wf) (a : Nat) (s : Asid_alloc) (c : Nat) :
    ((slow_path cfg a s).2.asids c).active =
      if alloc_asid_rolls_over cfg a s = true ∧ Cpu_online cfg c then Invalid cfg
      else (s.asids c).active := by
  by_cases hsame : is_same_generation cfg a s.gen = true
  · have hno : ¬ (alloc_asid_rolls_over cfg a s = true ∧ Cpu_online cfg c) := by
      rintro ⟨h, _⟩
      have := ((alloc_asid_rolls_over_iff cfg a s).1 h).1
      rw [hsame] at this
      exact Bool.noConfusion this
    rw [slow_path_same cfg a s hsame, if_neg hno]
  have hstale : is_same_generation cfg a s.gen = false := by simpa using hsame
  by_cases hc : carries_over cfg a s
  · have hno : ¬ (alloc_asid_rolls_over cfg a s = true ∧ Cpu_online cfg c) := by
      rintro ⟨h, _⟩
      exact ((alloc_asid_rolls_over_iff cfg a s).1 h).2.1 hc
    rw [slow_path_carry cfg a s hstale hc, if_neg hno]
    exact (carry_spec cfg a _ s).2.2.2.1 c
  by_cases hf : (find_next cfg s.reserved).1 = Asid_num cfg
  · have hr := (alloc_asid_rolls_over_iff cfg a s).2 ⟨hstale, hc, hf⟩
    rw [slow_path_roll wf a s hstale hc hf]
    show ((rolled cfg s).asids c).active = _
    rw [(rolled_spec cfg s).2.2.2.1 c]
    by_cases hon : Cpu_online cfg c
    · rw [if_pos hon, if_pos ⟨hr, hon⟩]
    · rw [if_neg hon, if_neg (fun h => hon h.2)]
  · have hno : ¬ (alloc_asid_rolls_over cfg a s = true ∧ Cpu_online cfg c) := by
      rintro ⟨h, _⟩
      exact hf ((alloc_asid_rolls_over_iff cfg a s).1 h).2.2
    rw [slow_path_found wf a s hstale hc hf, if_neg hno]

/-- C17: a set `flush_pending` bit of an online CPU `c` stays set over any
`can_use_asid` call and over any `alloc_asid` call made on another CPU; an
`alloc_asid` call on `c` itself clears it. -/
theorem flush_pending_kept (cfg : Config) (c : Nat) (s : Asid_alloc)
    (hc : cfg.online c = true) (hp : s.tlb_flush_pending c = true) :
    (∀ d a, (can_use_asid cfg d a s).2.tlb_flush_pending c = true) ∧
    (∀ d a, d ≠ c → (alloc_asid cfg d a s).2.2.tlb_flush_pending c = true) ∧
    (∀ a, (alloc_asid cfg c a s).2.2.tlb_flush_pending c = false) := by
  refine ⟨?_, ?_, ?_⟩
  · intro d a
    unfold can_use_asid
    split
    · exact hp
    · exact hp
  · intro d a hd
    rw [alloc_asid_eq]
    show (if c = d then false else (slow_path cfg a s).2.tlb_flush_pending c) = true
    rw [if_neg (fun e => hd e.symm)]
    cases hr : alloc_asid_rolls_over cfg a s with
    | true => rw [slow_path_pending_of_roll cfg a s hr]; exact hc
    | false => rw [slow_path_pending_of_not_roll cfg a s hr]; exact hp
  · intro a
    rw [alloc_asid_eq]
    show (if c = c then false else (slow_path cfg a s).2.tlb_flush_pending c) = false
    rw [if_pos rfl]

/-- Witness for C17: CPU 0 after the roll-over of the example scenario. -/
theorem flush_pending_kept_witness :
    (∀ d a, (can_use_asid scenario_cfg d a scenario_4.alloc).2.tlb_flush_pending 0 = true) ∧
    (∀ d a, d ≠ 0 → (alloc_asid scenario_cfg d a scenario_4.alloc).2.2.tlb_flush_pending 0 = true) ∧
    (∀ a, (alloc_asid scenario_cfg 0 a scenario_4.alloc).2.2.tlb_flush_pending 0 = false) :=
  flush_pending_kept scenario_cfg 0 scenario_4.alloc (by decide) (by decide)

theorem Flush_inv_init {cfg : Config} : Flush_inv cfg (Sys.init cfg) := by
  intro c _ hp
  exact Bool.noConfusion hp

theorem Flush_inv_switch {cfg : Config} (wf : cfg.wf) (cpu slot : Nat) (w : Sys)
    (h : Flush_inv cfg w) (hcpu : Cpu_online cfg cpu) :
    Flush_inv cfg (context_switch cfg cpu slot w) := by
  have hpend : (Sys.can_use_asid cfg cpu slot w).alloc.tlb_flush_pending =
      w.alloc.tlb_flush_pending := by
    unfold Sys.can_use_asid AsidAlloc.can_use_asid
    split <;> rfl
  unfold context_switch
  by_cases hr : (AsidAlloc.can_use_asid cfg cpu (w.slots slot) w.alloc).1 = true
  · rw [if_pos hr]
    obtain ⟨hg, hv⟩ := (can_use_asid_true_iff cfg cpu _ _).1 hr
    intro c hon hp
    rw [hpend] at hp
    rw [Sys.can_use_asid_active]
    by_cases hcc : c = cpu
    · subst hcc
      rw [h c hon hp] at hv
      exact Bool.noConfusion hv
    · rw [if_neg (fun e => hcc e.1)]
      exact h c hon hp
  · rw [if_neg hr]
    intro c hon hp
    rw [Sys.alloc_asid_pending] at hp
    by_cases hcc : c = cpu
    · rw [if_pos hcc] at hp
      exact Bool.noConfusion hp
    · rw [if_neg hcc] at hp
      rw [Sys.alloc_asid_active, if_neg hcc, slow_path_active wf]
      cases hro : alloc_asid_rolls_over cfg ((Sys.can_use_asid cfg cpu slot w).slots slot)
          (Sys.can_use_asid cfg cpu slot w).alloc with
      | true =>
        rw [if_pos ⟨rfl, hon⟩]
        exact is_valid_Invalid wf
      | false =>
        rw [if_neg (fun e => Bool.noConfusion e.1)]
        rw [slow_path_pending_of_not_roll _ _ _ hro, hpend] at hp
        rw [Sys.can_use_asid_active, if_neg (fun e => hcc e.1)]
        exact h c hon hp

theorem Reachable_switch.flush_inv {cfg : Config} (wf : cfg.wf) {w : Sys}
    (h : Reachable_switch cfg w) : Flush_inv cfg w := by
  induction h with
  | init => exact Flush_inv_init
  | switch w cpu slot _ hc ih => exact Flush_inv_switch wf cpu slot w ih hc

/-- C18: in every state reached through context switches (`can_use_asid`,
and `alloc_asid` on the same CPU and slot exactly when it returned false), a
`can_use_asid` call that succeeds on an online CPU `c` finds `c`'s
`flush_pending` bit clear. -/
theorem fast_path_owes_no_flush (cfg : Config) (wf : cfg.wf) (w : Sys)
    (hr : Reachable_switch cfg w) (c slot : Nat) (hc : Cpu_online cfg c)
    (h : (can_use_asid cfg c (w.slots slot) w.alloc).1 = true) :
    w.alloc.tlb_flush_pending c = false := by
  obtain ⟨_, hv⟩ := (can_use_asid_true_iff cfg c _ _).1 h
  cases hp : w.alloc.tlb_flush_pending c with
  | false => rfl
  | true =>
    rw [hr.flush_inv wf c hc hp] at hv
    exact Bool.noConfusion hv

theorem switch_w_reachable : Reachable_switch scenario_cfg switch_w := by
  have h0 : Cpu_online scenario_cfg 0 := by decide
  have h1 : Cpu_online scenario_cfg 1 := by decide
  exact Reachable_switch.switch _ 0 2 (Reachable_switch.switch _ 1 3
    (Reachable_switch.switch _ 0 2 (Reachable_switch.switch _ 1 1
      (Reachable_switch.switch _ 0 0 Reachable_switch.init h0) h1) h0) h1) h0

/-- Witness for C18: after the roll-over of the example scenario CPU 0 went
through the slow path for C; `can_use_asid` for C on CPU 0 then succeeds. -/
theorem fast_path_owes_no_flush_witness :
    (can_use_asid scenario_cfg 0 (switch_w.slots 2) switch_w.alloc).1 = true ∧
    switch_w.alloc.tlb_flush_pending 0 = false :=
  ⟨by decide,
    fast_path_owes_no_flush scenario_cfg scenario_cfg_wf switch_w switch_w_reachable 0 2
      (by decide) (by decide)⟩

/-- C19: the example scenario with `ASID_BITS = 2`, `ASID_BASE = 1` and CPUs 0
and 1 online. A, B and C get the ids 1, 2 and 3 in the initial generation;
the allocation for D on CPU 1 rolls over, leaves C's value reserved on CPU 0
and B's value reserved on CPU 1, the bitmap equal to {2, 3} and the generation
one `Generation_inc` further, and D gets id 1 in the new generation. -/
theorem example_scenario_roll_over :
    scenario_cfg.ASID_BITS = 2 ∧ scenario_cfg.ASID_BASE = 1 ∧
    Cpu_online scenario_cfg 0 ∧ Cpu_online scenario_cfg 1 ∧
    asid scenario_cfg (scenario_1.slots 0) = 1 ∧
    is_same_generation scenario_cfg (scenario_1.slots 0) (Asid_alloc.init scenario_cfg).gen = true ∧
    asid scenario_cfg (scenario_2.slots 1) = 2 ∧
    is_same_generation scenario_cfg (scenario_2.slots 1) (Asid_alloc.init scenario_cfg).gen = true ∧
    asid scenario_cfg (scenario_3.slots 2) = 3 ∧
    is_same_generation scenario_cfg (scenario_3.slots 2) (Asid_alloc.init scenario_cfg).gen = true ∧
    scenario_3.alloc.gen = (Asid_alloc.init scenario_cfg).gen ∧
    alloc_asid_rolls_over scenario_cfg (scenario_3.slots 3) scenario_3.alloc = true ∧
    (scenario_4.alloc.asids 0).reserved = scenario_3.slots 2 ∧
    asid scenario_cfg (scenario_4.alloc.asids 0).reserved = 3 ∧
    (scenario_4.alloc.asids 1).reserved = scenario_3.slots 1 ∧
    asid scenario_cfg (scenario_4.alloc.asids 1).reserved = 2 ∧
    (List.range (Asid_num scenario_cfg)).map scenario_4.alloc.reserved.bits =
      [false, false, true, true] ∧
    scenario_4.alloc.gen = (Asid_alloc.init scenario_cfg).gen + Generation_inc scenario_cfg ∧
    asid scenario_cfg (scenario_4.slots 3) = 1 ∧
    is_same_generation scenario_cfg (scenario_4.slots 3) scenario_4.alloc.gen = true := by
  decide

theorem alloc_asid_reserved_of_carry (cfg : Config) (cpu a : Nat) (s : Asid_alloc)
    (h : is_same_generation cfg a s.gen = false) (hc : carries_over cfg a s) :
    (alloc_asid cfg cpu a s).2.2.reserved = s.reserved := by
  rw [alloc_asid_eq, slow_path_carry cfg a s h hc]
  exact (carry_spec cfg a (asid cfg a ||| s.gen) s).2.2.1

theorem scenario_4_can_use_asid : Sys.can_use_asid scenario_cfg 1 1 scenario_4 = scenario_4 := by
  have hs : is_same_generation scenario_cfg (scenario_4.slots 1) scenario_4.alloc.gen = false := by
    decide
  simp [Sys.can_use_asid, AsidAlloc.can_use_asid, hs]

/-- C20 (as stated, refuted): in the example scenario the allocation for D on
CPU 1, which rolled over, has itself returned true and cleared CPU 1's
`flush_pending` bit; the later `alloc_asid` for B on CPU 1 therefore finds the
bit clear and returns false. -/
theorem example_scenario_carry_over_counterexample :
    (alloc_asid scenario_cfg 1 (scenario_3.slots 3) scenario_3.alloc).1 = true ∧
    scenario_4.alloc.tlb_flush_pending 1 = false ∧
    (can_use_asid scenario_cfg 1 (scenario_4.slots 1) scenario_4.alloc).1 = false ∧
    (alloc_asid scenario_cfg 1 ((Sys.can_use_asid scenario_cfg 1 1 scenario_4).slots 1)
      (Sys.can_use_asid scenario_cfg 1 1 scenario_4).alloc).1 = false := by
  decide

/-- C20 (amended): the example scenario continued. `can_use_asid` for B on
CPU 1 returns false; the following `alloc_asid` for B on CPU 1 takes the
carry-over branch, gives B the id 2 in the new generation and leaves the
bitmap as it is; CPU 1's `flush_pending` bit is clear before and after the
call, which returns false. -/
theorem example_scenario_carry_over :
    (can_use_asid scenario_cfg 1 (scenario_4.slots 1) scenario_4.alloc).1 = false ∧
    (check_and_update_reserved scenario_cfg ((Sys.can_use_asid scenario_cfg 1 1 scenario_4).slots 1)
      (asid scenario_cfg ((Sys.can_use_asid scenario_cfg 1 1 scenario_4).slots 1) |||
        (Sys.can_use_asid scenario_cfg 1 1 scenario_4).alloc.gen)
      (Sys.can_use_asid scenario_cfg 1 1 scenario_4).alloc).1 = true ∧
    asid scenario_cfg (alloc_asid scenario_cfg 1 ((Sys.can_use_asid scenario_cfg 1 1 scenario_4).slots 1)
      (Sys.can_use_asid scenario_cfg 1 1 scenario_4).alloc).2.1 = 2 ∧
    is_same_generation scenario_cfg
      (alloc_asid scenario_cfg 1 ((Sys.can_use_asid scenario_cfg 1 1 scenario_4).slots 1)
        (Sys.can_use_asid scenario_cfg 1 1 scenario_4).alloc).2.1
      ((Asid_alloc.init scenario_cfg).gen + Generation_inc scenario_cfg) = true ∧
    (alloc_asid scenario_cfg 1 ((Sys.can_use_asid scenario_cfg 1 1 scenario_4).slots 1)
      (Sys.can_use_asid scenario_cfg 1 1 scenario_4).alloc).2.2.reserved =
      scenario_4.alloc.reserved ∧
    (Sys.can_use_asid scenario_cfg 1 1 scenario_4).alloc.tlb_flush_pending 1 = false ∧
    (alloc_asid scenario_cfg 1 ((Sys.can_use_asid scenario_cfg 1 1 scenario_4).slots 1)
      (Sys.can_use_asid scenario_cfg 1 1 scenario_4).alloc).2.2.tlb_flush_pending 1 = false ∧
    (alloc_asid scenario_cfg 1 ((Sys.can_use_asid scenario_cfg 1 1 scenario_4).slots 1)
      (Sys.can_use_asid scenario_cfg 1 1 scenario_4).alloc).1 = false := by
  refine ⟨by decide, by decide, by decide, by decide, ?_, by decide, by decide, by decide⟩
  rw [scenario_4_can_use_asid]
  exact alloc_asid_reserved_of_carry scenario_cfg 1 (scenario_4.slots 1) scenario_4.alloc
    (by decide) ⟨by decide, by decide, 1, by decide, by decide⟩

theorem new_asid_fresh_gen (cfg : Config) (g : Nat) (s : Asid_alloc) :
    (new_asid_fresh cfg g s).2.gen =
      if (find_next cfg s.reserved).1 = Asid_num cfg then next_gen cfg s.gen else s.gen := by
  unfold new_asid_fresh
  by_cases h : (find_next cfg s.reserved).1 = Asid_num cfg
  · simp only [h, if_true]
    show (roll_over cfg _).gen = _
    rw [(roll_over_spec cfg _).1]
    unfold next_gen bump_gen
    split <;> rfl
  · simp only [h, if_false]

/-- C21: a `new_asid` call that performs no roll-over leaves the generation
counter as it is; one that rolls over adds `Generation_inc` modulo
`2 ^ width`, and adds it a second time exactly when the first sum is the
invalid generation. -/
theorem new_asid_generation (cfg : Config) (a g : Nat) (s : Asid_alloc) :
    (new_asid cfg a g s).2.gen =
      if new_asid_rolls_over cfg a g s = true then
        if is_invalid_generation cfg ((s.gen + Generation_inc cfg) % 2 ^ cfg.width) = true then
          ((s.gen + Generation_inc cfg) % 2 ^ cfg.width + Generation_inc cfg) % 2 ^ cfg.width
        else (s.gen + Generation_inc cfg) % 2 ^ cfg.width
      else s.gen := by
  by_cases hc : carries_over cfg a s
  · have hno : ¬ new_asid_rolls_over cfg a g s = true := fun h =>
      ((new_asid_rolls_over_iff cfg a g s).1 h).1 hc
    rw [if_neg hno, new_asid_carry cfg a g s hc]
    exact (carry_spec cfg a _ s).1
  · rw [new_asid_no_carry cfg a g s hc, new_asid_fresh_gen]
    by_cases hf : (find_next cfg s.reserved).1 = Asid_num cfg
    · rw [if_pos hf, if_pos ((new_asid_rolls_over_iff cfg a g s).2 ⟨hc, hf⟩)]
      rfl
    · have hno : ¬ new_asid_rolls_over cfg a g s = true := fun h =>
        hf ((new_asid_rolls_over_iff cfg a g s).1 h).2
      rw [if_neg hf, if_neg hno]

theorem is_valid_split_iff (a : Nat) (ha : a < 2 ^ 64) :
    is_valid_split a = true ↔ a ≠ 2 ^ 64 - 1 := by
  unfold is_valid_split
  have h1 : (a >>> 32) % 2 ^ 32 &&& a % 2 ^ 32 ≤ (a >>> 32) % 2 ^ 32 := Nat.and_le_left
  have h2 : (a >>> 32) % 2 ^ 32 &&& a % 2 ^ 32 ≤ a % 2 ^ 32 := Nat.and_le_right
  rw [Nat.shiftRight_eq_div_pow] at h1 h2 ⊢
  constructor
  · intro h e
    subst e
    revert h
    decide
  · intro h
    simp only [bne_iff_ne, ne_eq]
    intro e
    apply h
    rw [e] at h1 h2
    omega

/-- C22: for a 64-bit value the split check of `is_valid` (the 32-bit AND of
the high and the low half differs from `0xFFFFFFFF`) holds exactly when the
value is not `Invalid`; so `is_valid` computes `v != Invalid` in both of its
branches. -/
theorem is_valid_refines_spec (cfg : Config) (hw : cfg.width = 64) (a : Nat) (ha : a < 2 ^ 64) :
    is_valid_split a = is_valid_spec cfg a ∧ is_valid cfg a = is_valid_spec cfg a := by
  have hs : is_valid_split a = is_valid_spec cfg a := by
    have h := is_valid_split_iff a ha
    unfold is_valid_spec Invalid
    rw [hw]
    cases hb : is_valid_split a with
    | true =>
      have := h.1 hb
      symm
      simpa using this
    | false =>
      have : ¬ a ≠ 2 ^ 64 - 1 := fun hne => by
        rw [h.2 hne] at hb
        exact Bool.noConfusion hb
      symm
      simpa using this
  refine ⟨hs, ?_⟩
  unfold is_valid
  split
  · rfl
  · exact hs

/-- Witness for C22: the all-ones value on a 32-bit machine. -/
theorem is_valid_refines_spec_witness :
    is_valid_split (2 ^ 64 - 1) = is_valid_spec split_cfg (2 ^ 64 - 1) ∧
    is_valid split_cfg (2 ^ 64 - 1) = is_valid_spec split_cfg (2 ^ 64 - 1) :=
  is_valid_refines_spec split_cfg rfl (2 ^ 64 - 1) (by decide)

theorem and_not_Mask_of_aligned (cfg : Config) (v : Nat) (hv : v < 2 ^ cfg.width)
    (hm : v &&& Mask cfg = 0) : v &&& not_Mask cfg = v := by
  apply Nat.eq_of_testBit_eq
  intro i
  have h1 : (v &&& Mask cfg).testBit i = false := by rw [hm]; exact Nat.zero_testBit i
  rw [Nat.testBit_and] at h1
  unfold not_Mask Invalid
  rw [Nat.testBit_and, Nat.testBit_xor, Nat.testBit_two_pow_sub_one]
  cases hb : v.testBit i with
  | false => rfl
  | true =>
    rw [hb] at h1
    have hM : (Mask cfg).testBit i = false := by simpa using h1
    have hi : i < cfg.width := by
      by_contra hge
      have : v.testBit i = false :=
        Nat.testBit_lt_two_pow (lt_of_lt_of_le hv (Nat.pow_le_pow_right (by decide) (by omega)))
      rw [this] at hb
      exact Bool.noConfusion hb
    simp [hM, hi]

theorem not_Mask_and_Mask (cfg : Config) : not_Mask cfg &&& Mask cfg = 0 := by
  apply Nat.eq_of_testBit_eq
  intro i
  have hlt : Mask cfg < 2 ^ cfg.width := by
    unfold Mask
    exact Nat.mod_lt _ (Nat.two_pow_pos _)
  rw [Nat.zero_testBit, Nat.testBit_and]
  unfold not_Mask Invalid
  rw [Nat.testBit_xor, Nat.testBit_two_pow_sub_one]
  cases hM : (Mask cfg).testBit i with
  | false => simp
  | true =>
    have hi : i < cfg.width := by
      by_contra hge
      have : (Mask cfg).testBit i = false :=
        Nat.testBit_lt_two_pow (lt_of_lt_of_le hlt (Nat.pow_le_pow_right (by decide) (by omega)))
      rw [this] at hM
      exact Bool.noConfusion hM
    simp [hi]

theorem and_not_Mask_and_Mask (cfg : Config) (a : Nat) :
    (a &&& not_Mask cfg) &&& Mask cfg = 0 := by
  rw [Nat.land_assoc, not_Mask_and_Mask, Nat.and_zero]

/-- C23 (as stated, refuted): `Invalid` itself has the generation field of
`Invalid`, yet `is_invalid_generation` is false for it, because the source
compares the whole value with `Invalid & ~Mask`. -/
theorem is_invalid_generation_counterexample :
    is_invalid_generation_spec scenario_cfg (Invalid scenario_cfg) = true ∧
    is_invalid_generation scenario_cfg (Invalid scenario_cfg) = false := by
  decide

/-- C23 (amended): for every value `v`, `is_invalid_generation(v)` is true iff
`v` equals `Invalid & ~Mask`; so it is false for every `v` with a non-zero
numeric id, and for a value whose id bits are zero it is the same as
`(v & ~Mask) == (Invalid & ~Mask)`. -/
theorem is_invalid_generation_unmasked (cfg : Config) (v : Nat) :
    (is_invalid_generation cfg v = true ↔ v = Invalid cfg &&& not_Mask cfg) ∧
    (v &&& Mask cfg ≠ 0 → is_invalid_generation cfg v = false) ∧
    (v < 2 ^ cfg.width → v &&& Mask cfg = 0 →
      is_invalid_generation cfg v = is_invalid_generation_spec cfg v) := by
  have h1 : is_invalid_generation cfg v = true ↔ v = Invalid cfg &&& not_Mask cfg := by
    unfold is_invalid_generation
    exact beq_iff_eq
  refine ⟨h1, ?_, ?_⟩
  · intro hne
    cases h : is_invalid_generation cfg v with
    | false => rfl
    | true =>
      exfalso
      apply hne
      rw [h1.1 h]
      exact and_not_Mask_and_Mask cfg (Invalid cfg)
  · intro hv hm
    unfold is_invalid_generation is_invalid_generation_spec
    rw [and_not_Mask_of_aligned cfg v hv hm]

/-- Instances of C23 (amended) in the scenario instance: `Invalid & ~Mask` is
the invalid generation, `Invalid` is not, and on the generation counter after
the roll-over the two readings agree. -/
theorem is_invalid_generation_unmasked_witness :
    is_invalid_generation scenario_cfg (Invalid scenario_cfg &&& not_Mask scenario_cfg) = true ∧
    is_invalid_generation scenario_cfg (Invalid scenario_cfg) = false ∧
    is_invalid_generation scenario_cfg scenario_4.alloc.gen =
      is_invalid_generation_spec scenario_cfg scenario_4.alloc.gen :=
  ⟨(is_invalid_generation_unmasked scenario_cfg
      (Invalid scenario_cfg &&& not_Mask scenario_cfg)).1.2 rfl,
   (is_invalid_generation_unmasked scenario_cfg (Invalid scenario_cfg)).2.1 (by decide),
   (is_invalid_generation_unmasked scenario_cfg scenario_4.alloc.gen).2.2
      (by decide) (by decide)⟩

/-- C24 (as stated, refuted): A's value in the example scenario has the same
generation field as itself, yet `is_same_generation` of it with itself is
false, because the source does not mask its argument. -/
theorem is_same_generation_counterexample :
    same_generation_spec scenario_cfg (scenario_1.slots 0) (scenario_1.slots 0) = true ∧
    is_same_generation scenario_cfg (scenario_1.slots 0) (scenario_1.slots 0) = false := by
  decide

/-- C24 (amended): for all values `a` and `b`, `a.is_same_generation(b)` is
true iff `(a & ~Mask) == b`; so it is false for every `b` with a non-zero
numeric id, and when the id bits of `b` are zero it is the same as
`(a & ~Mask) == (b & ~Mask)`. -/
theorem is_same_generation_unmasked (cfg : Config) (a b : Nat) :
    (is_same_generation cfg a b = true ↔ a &&& not_Mask cfg = b) ∧
    (b &&& Mask cfg ≠ 0 → is_same_generation cfg a b = false) ∧
    (b < 2 ^ cfg.width → b &&& Mask cfg = 0 →
      is_same_generation cfg a b = same_generation_spec cfg a b) := by
  have h1 : is_same_generation cfg a b = true ↔ a &&& not_Mask cfg = b := by
    unfold is_same_generation
    exact beq_iff_eq
  refine ⟨h1, ?_, ?_⟩
  · intro hne
    cases h : is_same_generation cfg a b with
    | false => rfl
    | true =>
      exfalso
      apply hne
      rw [← h1.1 h]
      exact and_not_Mask_and_Mask cfg a
  · intro hb hm
    unfold is_same_generation same_generation_spec
    rw [and_not_Mask_of_aligned cfg b hb hm]

/-- Instances of C24 (amended) in the example scenario after the roll-over:
D's value has the generation of the counter, no value has the generation of
D's value (its id is not zero), and on B's stale value against the counter the
two readings agree. -/
theorem is_same_generation_unmasked_witness :
    is_same_generation scenario_cfg (scenario_4.slots 3) scenario_4.alloc.gen = true ∧
    is_same_generation scenario_cfg (scenario_4.slots 3) (scenario_4.slots 3) = false ∧
    is_same_generation scenario_cfg (scenario_4.slots 1) scenario_4.alloc.gen =
      same_generation_spec scenario_cfg (scenario_4.slots 1) scenario_4.alloc.gen :=
  ⟨(is_same_generation_unmasked scenario_cfg (scenario_4.slots 3) scenario_4.alloc.gen).1.2
      (by decide),
   (is_same_generation_unmasked scenario_cfg (scenario_4.slots 3) (scenario_4.slots 3)).2.1
      (by decide),
   (is_same_generation_unmasked scenario_cfg (scenario_4.slots 1) scenario_4.alloc.gen).2.2
      (by decide) (by decide)⟩

/-- C25: when the slot's value already has the current generation,
`alloc_asid` leaves the slot, the generation counter, the bitmap with its
cursor and every `reserved` field as they are; it writes the slot's value
into the caller's `active` field, clears the caller's `flush_pending` bit and
returns the bit's former value. -/
theorem alloc_asid_current_frame (cfg : Config) (cpu a : Nat) (s : Asid_alloc)
    (h : is_same_generation cfg a s.gen = true) :
    (alloc_asid cfg cpu a s).2.1 = a ∧
    (alloc_asid cfg cpu a s).2.2.gen = s.gen ∧
    (alloc_asid cfg cpu a s).2.2.reserved = s.reserved ∧
    (∀ c, ((alloc_asid cfg cpu a s).2.2.asids c).reserved = (s.asids c).reserved) ∧
    (∀ c, ((alloc_asid cfg cpu a s).2.2.asids c).active =
      if c = cpu then a else (s.asids c).active) ∧
    (∀ c, (alloc_asid cfg cpu a s).2.2.tlb_flush_pending c =
      if c = cpu then false else s.tlb_flush_pending c) ∧
    (alloc_asid cfg cpu a s).1 = s.tlb_flush_pending cpu := by
  rw [alloc_asid_eq, slow_path_same cfg a s h]
  refine ⟨rfl, rfl, rfl, ?_, ?_, fun _ => rfl, rfl⟩
  · intro c
    simp only [set_cpu]
    split
    · rename_i e; rw [e]
    · rfl
  · intro c
    simp only [set_cpu]
    split <;> rfl

/-- Witness for C25: `alloc_asid` on CPU 0 for B, which CPU 1 has already
re-stamped after the roll-over of the example scenario. -/
theorem alloc_asid_current_frame_witness :
    (alloc_asid scenario_cfg 0 (scenario_5.slots 1) scenario_5.alloc).2.1 = scenario_5.slots 1 ∧
    (alloc_asid scenario_cfg 0 (scenario_5.slots 1) scenario_5.alloc).2.2.gen =
      scenario_5.alloc.gen ∧
    (alloc_asid scenario_cfg 0 (scenario_5.slots 1) scenario_5.alloc).2.2.reserved =
      scenario_5.alloc.reserved ∧
    (∀ c, ((alloc_asid scenario_cfg 0 (scenario_5.slots 1) scenario_5.alloc).2.2.asids c).reserved =
      (scenario_5.alloc.asids c).reserved) ∧
    (∀ c, ((alloc_asid scenario_cfg 0 (scenario_5.slots 1) scenario_5.alloc).2.2.asids c).active =
      if c = 0 then scenario_5.slots 1 else (scenario_5.alloc.asids c).active) ∧
    (∀ c, (alloc_asid scenario_cfg 0 (scenario_5.slots 1) scenario_5.alloc).2.2.tlb_flush_pending c =
      if c = 0 then false else scenario_5.alloc.tlb_flush_pending c) ∧
    (alloc_asid scenario_cfg 0 (scenario_5.slots 1) scenario_5.alloc).1 =
      scenario_5.alloc.tlb_flush_pending 0 :=
  alloc_asid_current_frame scenario_cfg 0 (scenario_5.slots 1) scenario_5.alloc (by decide)

/-- C26 (the code at the failing input): the first allocation from the initial
state returns the id 1 and the bit of id 1 is clear in the bitmap afterwards:
the fresh-allocation path moves the cursor and marks nothing. -/
theorem new_asid_fresh_id_unmarked :
    asid scenario_cfg
      (new_asid scenario_cfg (Invalid scenario_cfg) (Asid_alloc.init scenario_cfg).gen
        (Asid_alloc.init scenario_cfg)).1 = 1 ∧
    (new_asid scenario_cfg (Invalid scenario_cfg) (Asid_alloc.init scenario_cfg).gen
      (Asid_alloc.init scenario_cfg)).2.reserved.bits 1 = false ∧
    (new_asid scenario_cfg (Invalid scenario_cfg) (Asid_alloc.init scenario_cfg).gen
      (Asid_alloc.init scenario_cfg)).2.reserved.current_idx = 2 := by
  decide

/-- C27: `find_next` returns the smallest index at or above the cursor and
below `2 ^ ASID_BITS` whose bit is clear and puts the cursor right behind it,
without touching a bit; if there is no such index it returns `Asid_num`
(`2 ^ ASID_BITS`) and leaves the bitmap and its cursor as they are. -/
theorem find_next_smallest_free (cfg : Config) (wf : cfg.wf) (bm : Asid_bitmap) :
    ((∃ i, bm.current_idx ≤ i ∧ i < 2 ^ cfg.ASID_BITS ∧ bm.bits i = false) →
      bm.current_idx ≤ (find_next cfg bm).1 ∧ (find_next cfg bm).1 < 2 ^ cfg.ASID_BITS ∧
      bm.bits (find_next cfg bm).1 = false ∧
      (∀ j, bm.current_idx ≤ j → j < (find_next cfg bm).1 → bm.bits j = true) ∧
      (find_next cfg bm).2.current_idx = (find_next cfg bm).1 + 1 ∧
      (find_next cfg bm).2.bits = bm.bits) ∧
    ((¬ ∃ i, bm.current_idx ≤ i ∧ i < 2 ^ cfg.ASID_BITS ∧ bm.bits i = false) →
      (find_next cfg bm).1 = Asid_num cfg ∧ Asid_num cfg = 2 ^ cfg.ASID_BITS ∧
      (find_next cfg bm).2 = bm) := by
  have hN := Asid_num_eq cfg
  refine ⟨?_, ?_⟩
  · rintro ⟨i, i1, i2, i3⟩
    rcases find_next_spec wf bm with ⟨_, _, e3⟩ | ⟨e1, e2, e3, e4, e5⟩
    · have := e3 i i1 (by rw [hN]; exact i2)
      rw [i3] at this
      exact Bool.noConfusion this
    · rw [hN] at e2
      refine ⟨e1, e2, e3, e4, ?_, ?_⟩
      · rw [e5]
      · rw [e5]
  · intro hno
    rcases find_next_spec wf bm with ⟨e1, e2, _⟩ | ⟨e1, e2, e3, _, _⟩
    · exact ⟨e1, hN, e2⟩
    · exact absurd ⟨_, e1, by rw [← hN]; exact e2, e3⟩ hno

/-- Witness for C27: the bitmap after the roll-over of the example scenario,
bits {2, 3}, cursor 1. -/
theorem find_next_smallest_free_witness :
    ((∃ i, (rolled scenario_cfg scenario_3.alloc).reserved.current_idx ≤ i ∧
        i < 2 ^ scenario_cfg.ASID_BITS ∧
        (rolled scenario_cfg scenario_3.alloc).reserved.bits i = false) →
      (rolled scenario_cfg scenario_3.alloc).reserved.current_idx ≤
        (find_next scenario_cfg (rolled scenario_cfg scenario_3.alloc).reserved).1 ∧
      (find_next scenario_cfg (rolled scenario_cfg scenario_3.alloc).reserved).1 <
        2 ^ scenario_cfg.ASID_BITS ∧
      (rolled scenario_cfg scenario_3.alloc).reserved.bits
        (find_next scenario_cfg (rolled scenario_cfg scenario_3.alloc).reserved).1 = false ∧
      (∀ j, (rolled scenario_cfg scenario_3.alloc).reserved.current_idx ≤ j →
        j < (find_next scenario_cfg (rolled scenario_cfg scenario_3.alloc).reserved).1 →
        (rolled scenario_cfg scenario_3.alloc).reserved.bits j = true) ∧
      (find_next scenario_cfg (rolled scenario_cfg scenario_3.alloc).reserved).2.current_idx =
        (find_next scenario_cfg (rolled scenario_cfg scenario_3.alloc).reserved).1 + 1 ∧
      (find_next scenario_cfg (rolled scenario_cfg scenario_3.alloc).reserved).2.bits =
        (rolled scenario_cfg scenario_3.alloc).reserved.bits) ∧
    ((¬ ∃ i, (rolled scenario_cfg scenario_3.alloc).reserved.current_idx ≤ i ∧
        i < 2 ^ scenario_cfg.ASID_BITS ∧
        (rolled scenario_cfg scenario_3.alloc).reserved.bits i = false) →
      (find_next scenario_cfg (rolled scenario_cfg scenario_3.alloc).reserved).1 =
        Asid_num scenario_cfg ∧
      Asid_num scenario_cfg = 2 ^ scenario_cfg.ASID_BITS ∧
      (find_next scenario_cfg (rolled scenario_cfg scenario_3.alloc).reserved).2 =
        (rolled scenario_cfg scenario_3.alloc).reserved) :=
  find_next_smallest_free scenario_cfg scenario_cfg_wf (rolled scenario_cfg scenario_3.alloc).reserved

/-- C29: the allocator's `check_and_update_reserved(asid, update)` returns
true iff some online CPU has `asid` reserved; every online CPU that had
`asid` reserved holds `update` afterwards, and nothing else changes: not the
other `reserved` fields, no `active` field, no field of an offline CPU, and
no other part of the allocator. -/
theorem check_and_update_reserved_effect (cfg : Config) (a update : Nat) (s : Asid_alloc) :
    ((check_and_update_reserved cfg a update s).1 = true ↔
      ∃ c, Cpu_online cfg c ∧ (s.asids c).reserved = a) ∧
    (∀ c, Cpu_online cfg c → (s.asids c).reserved = a →
      ((check_and_update_reserved cfg a update s).2.asids c).reserved = update) ∧
    (∀ c, (s.asids c).reserved ≠ a →
      ((check_and_update_reserved cfg a update s).2.asids c).reserved = (s.asids c).reserved) ∧
    (∀ c, ((check_and_update_reserved cfg a update s).2.asids c).active = (s.asids c).active) ∧
    (∀ c, ¬ Cpu_online cfg c → (check_and_update_reserved cfg a update s).2.asids c = s.asids c) ∧
    (check_and_update_reserved cfg a update s).2.gen = s.gen ∧
    (check_and_update_reserved cfg a update s).2.reserved = s.reserved ∧
    (check_and_update_reserved cfg a update s).2.tlb_flush_pending = s.tlb_flush_pending := by
  obtain ⟨c1, c2, c3, c4, c5⟩ := carry_spec cfg a update s
  obtain ⟨_, _, _, h4, _⟩ := check_and_update_reserved_spec cfg a update s
  refine ⟨check_and_update_reserved_true_iff cfg a update s, ?_, ?_, c4, ?_, c1, c3, c2⟩
  · intro c hc hr
    rw [c5 c, if_pos ⟨hc, hr⟩]
  · intro c hr
    rw [c5 c, if_neg (fun h => hr h.2)]
  · intro c hc
    rw [h4 c, if_neg (fun h => hc ⟨h.1, h.2.1⟩)]

/-- C30: `can_use_asid` never writes the generation counter, the bitmap, the
cursor, a `reserved` field or `flush_pending` (the slot it only reads); when
the slot's generation differs from the current one it returns false and
changes nothing; when it matches it writes the slot's value into the caller's
`active` field and returns whether the previous `active` value was valid. -/
theorem can_use_asid_effect (cfg : Config) (cpu a : Nat) (s : Asid_alloc) (w : Sys) (slot : Nat) :
    (Sys.can_use_asid cfg cpu slot w).slots = w.slots ∧
    (can_use_asid cfg cpu a s).2.gen = s.gen ∧
    (can_use_asid cfg cpu a s).2.reserved = s.reserved ∧
    (can_use_asid cfg cpu a s).2.tlb_flush_pending = s.tlb_flush_pending ∧
    (∀ c, ((can_use_asid cfg cpu a s).2.asids c).reserved = (s.asids c).reserved) ∧
    (is_same_generation cfg a s.gen = false → can_use_asid cfg cpu a s = (false, s)) ∧
    (is_same_generation cfg a s.gen = true →
      (can_use_asid cfg cpu a s).1 = is_valid cfg (s.asids cpu).active ∧
      ∀ c, ((can_use_asid cfg cpu a s).2.asids c).active =
        if c = cpu then a else (s.asids c).active) := by
  refine ⟨rfl, ?_⟩
  unfold can_use_asid
  cases h : is_same_generation cfg a s.gen with
  | false =>
    simp
  | true =>
    simp only [if_true, true_and, Bool.true_eq_false, false_implies, forall_const, set_cpu]
    refine ⟨?_, ?_⟩
    · intro c
      split
      · rename_i e; rw [e]
      · rfl
    · intro c
      split <;> rfl

theorem and_Mask_eq_zero_iff {cfg : Config} (wf : cfg.wf) (g : Nat) :
    g &&& Mask cfg = 0 ↔ g % 2 ^ cfg.ASID_BITS = 0 := by
  rw [Mask_eq wf, Nat.and_pow_two_sub_one_eq_mod]

/-- C31: in every reachable state, every online CPU whose `reserved` field is
valid has the id of that field set in the bitmap. -/
theorem reserved_ids_marked (cfg : Config) (wf : cfg.wf) (w : Sys) (hr : Reachable cfg w)
    (c : Nat) (hc : Cpu_online cfg c) (hv : is_valid cfg (w.alloc.asids c).reserved = true) :
    w.alloc.reserved.bits (asid cfg (w.alloc.asids c).reserved) = true :=
  (hr.sys_ok wf).alloc_ok.reserved_marked c hc hv

/-- Witness for C31: CPU 1 after the roll-over of the example scenario, with
B's value reserved. -/
theorem reserved_ids_marked_witness :
    is_valid scenario_cfg (scenario_4.alloc.asids 1).reserved = true ∧
    scenario_4.alloc.reserved.bits (asid scenario_cfg (scenario_4.alloc.asids 1).reserved) = true :=
  ⟨by decide,
    reserved_ids_marked scenario_cfg scenario_cfg_wf scenario_4 scenario_4_reachable 1
      (by decide) (by decide)⟩

/-- C36: in every reachable state the id bits of the generation counter are
zero, so `is_same_generation` against it compares generation fields. -/
theorem generation_aligned (cfg : Config) (wf : cfg.wf) (w : Sys) (hr : Reachable cfg w) :
    w.alloc.gen &&& Mask cfg = 0 ∧
    ∀ a, is_same_generation cfg a w.alloc.gen = same_generation_spec cfg a w.alloc.gen := by
  have hok := (hr.sys_ok wf).alloc_ok
  have h0 : w.alloc.gen &&& Mask cfg = 0 := (and_Mask_eq_zero_iff wf _).2 hok.gen_aligned
  refine ⟨h0, ?_⟩
  intro a
  unfold is_same_generation same_generation_spec
  rw [and_not_Mask_of_aligned cfg _ hok.gen_lt h0]

/-- Witness for C36: the example scenario after five allocations. -/
theorem generation_aligned_witness :
    scenario_5.alloc.gen &&& Mask scenario_cfg = 0 ∧
    ∀ a, is_same_generation scenario_cfg a scenario_5.alloc.gen =
      same_generation_spec scenario_cfg a scenario_5.alloc.gen :=
  generation_aligned scenario_cfg scenario_cfg_wf scenario_5 scenario_5_reachable_any

/-- C37: for an id below `2 ^ ASID_BITS` and a generation `g` with zero id
bits, the packed value `id | g` has `asid() = id` and the generation `g`, and
it has no other generation. -/
theorem packed_value (cfg : Config) (wf : cfg.wf) (id g : Nat) (hid : id < 2 ^ cfg.ASID_BITS)
    (hg : g < 2 ^ cfg.width) (hm : g &&& Mask cfg = 0) :
    asid cfg (id ||| g) = id ∧
    is_same_generation cfg (id ||| g) g = true ∧
    ∀ g2, g2 ≠ g → is_same_generation cfg (id ||| g) g2 = false := by
  have ha := (and_Mask_eq_zero_iff wf g).1 hm
  refine ⟨asid_packed wf hid ha, (is_same_generation_packed wf g hid ha hg).2 rfl, ?_⟩
  intro g2 hne
  cases hb : is_same_generation cfg (id ||| g) g2 with
  | false => rfl
  | true => exact absurd ((is_same_generation_packed wf g2 hid ha hg).1 hb).symm hne

/-- Witness for C37: id 3 packed with the second generation of the scenario
instance. -/
theorem packed_value_witness :
    asid scenario_cfg (3 ||| 8) = 3 ∧
    is_same_generation scenario_cfg (3 ||| 8) 8 = true ∧
    ∀ g2, g2 ≠ 8 → is_same_generation scenario_cfg (3 ||| 8) g2 = false :=
  packed_value scenario_cfg scenario_cfg_wf 3 8 (by decide) (by decide) (by decide)

theorem find_next_cursor_le {cfg : Config} (wf : cfg.wf) (bm : Asid_bitmap) :
    bm.current_idx ≤ (find_next cfg bm).2.current_idx := by
  rcases find_next_spec wf bm with ⟨_, e, _⟩ | ⟨e1, _, _, _, e5⟩
  · rw [e]
  · rw [e5]
    show _ ≤ _ + 1
    omega

theorem find_next_iter_cursor_mono {cfg : Config} (wf : cfg.wf) (bm : Asid_bitmap) (m : Nat) :
    ∀ k, (find_next_iter cfg m bm).current_idx ≤ (find_next_iter cfg (m + k) bm).current_idx := by
  intro k
  induction k with
  | zero => exact le_refl _
  | succ k ih =>
    exact le_trans ih (find_next_cursor_le wf (find_next_iter cfg (m + k) bm))

theorem find_next_iter_bits {cfg : Config} (wf : cfg.wf) (bm : Asid_bitmap) :
    ∀ n, (find_next_iter cfg n bm).bits = bm.bits := by
  intro n
  induction n with
  | zero => rfl
  | succ n ih =>
    show (find_next cfg (find_next_iter cfg n bm)).2.bits = _
    rw [find_next_bits wf, ih]

/-- C32: `find_next` changes no bit, also over any number of successive
calls, and as long as a call returns an id (not `Asid_num`) every later call
returns something larger: no id is returned twice. -/
theorem find_next_strictly_increasing (cfg : Config) (wf : cfg.wf) (bm : Asid_bitmap) :
    (find_next cfg bm).2.bits = bm.bits ∧
    (∀ n, (find_next_iter cfg n bm).bits = bm.bits) ∧
    ∀ m n, m < n → (find_next cfg (find_next_iter cfg m bm)).1 ≠ Asid_num cfg →
      (find_next cfg (find_next_iter cfg m bm)).1 < (find_next cfg (find_next_iter cfg n bm)).1 := by
  refine ⟨find_next_bits wf bm, find_next_iter_bits wf bm, ?_⟩
  intro m n hmn hne
  obtain ⟨k, rfl⟩ : ∃ k, n = (m + 1) + k := ⟨n - (m + 1), by omega⟩
  have hmono := find_next_iter_cursor_mono wf bm (m + 1) k
  have hcur : (find_next_iter cfg (m + 1) bm).current_idx =
      (find_next cfg (find_next_iter cfg m bm)).1 + 1 := by
    show (find_next cfg (find_next_iter cfg m bm)).2.current_idx = _
    rcases find_next_spec wf (find_next_iter cfg m bm) with ⟨e, _, _⟩ | ⟨_, _, _, _, e5⟩
    · exact absurd e hne
    · rw [e5]
  have hlt : (find_next cfg (find_next_iter cfg m bm)).1 < Asid_num cfg := by
    have := find_next_le wf (find_next_iter cfg m bm)
    omega
  rcases find_next_spec wf (find_next_iter cfg (m + 1 + k) bm) with ⟨e, _, _⟩ | ⟨e1, _, _, _, _⟩
  · rw [e]; exact hlt
  · omega

/-- Witness for C32: the bitmap after six allocations on CPU 0 in the scenario
instance, bits {2} and cursor 2; successive calls return 3 and then
`Asid_num`. -/
theorem find_next_strictly_increasing_witness :
    (find_next scenario_cfg reuse_w.alloc.reserved).2.bits = reuse_w.alloc.reserved.bits ∧
    (∀ n, (find_next_iter scenario_cfg n reuse_w.alloc.reserved).bits =
      reuse_w.alloc.reserved.bits) ∧
    ∀ m n, m < n →
      (find_next scenario_cfg (find_next_iter scenario_cfg m reuse_w.alloc.reserved)).1 ≠
        Asid_num scenario_cfg →
      (find_next scenario_cfg (find_next_iter scenario_cfg m reuse_w.alloc.reserved)).1 <
        (find_next scenario_cfg (find_next_iter scenario_cfg n reuse_w.alloc.reserved)).1 :=
  find_next_strictly_increasing scenario_cfg scenario_cfg_wf reuse_w.alloc.reserved

theorem set_cpu_same_active (f : Nat → Asids_per_cpu) (cpu a : Nat) (h : (f cpu).active = a) :
    set_cpu f cpu { f cpu with active := a } = f := by
  funext c
  unfold set_cpu
  split
  · rename_i e
    subst e
    rw [← h]
  · rfl

/-- A CPU whose `active` field already holds the current value of the slot
and which owes no flush: `alloc_asid` changes nothing. -/
theorem Sys.alloc_asid_fixed (cfg : Config) (cpu slot : Nat) (w : Sys)
    (h1 : is_same_generation cfg (w.slots slot) w.alloc.gen = true)
    (h2 : (w.alloc.asids cpu).active = w.slots slot)
    (h3 : w.alloc.tlb_flush_pending cpu = false) :
    Sys.alloc_asid cfg cpu slot w = w := by
  have e := slow_path_same cfg (w.slots slot) w.alloc h1
  unfold Sys.alloc_asid
  rw [alloc_asid_eq, e]
  obtain ⟨⟨g, as, tl, rs⟩, sl⟩ := w
  simp only at h1 h2 h3 ⊢
  rw [set_cpu_same_active as cpu (sl slot) h2]
  congr 1
  · congr 1
    funext c
    split
    · rename_i e2; rw [e2, h3]
    · rfl
  · funext i
    split
    · rename_i e2; rw [e2]
    · rfl

/-- A CPU whose `active` field already holds the current value of the slot:
`can_use_asid` changes nothing. -/
theorem Sys.can_use_asid_fixed (cfg : Config) (cpu slot : Nat) (w : Sys)
    (h1 : is_same_generation cfg (w.slots slot) w.alloc.gen = true)
    (h2 : (w.alloc.asids cpu).active = w.slots slot) :
    Sys.can_use_asid cfg cpu slot w = w := by
  unfold Sys.can_use_asid AsidAlloc.can_use_asid
  simp only [h1, if_true]
  rw [set_cpu_same_active w.alloc.asids cpu (w.slots slot) h2]

/-- What holds right after an `alloc_asid` call, for the caller and the slot. -/
theorem after_alloc_asid {cfg : Config} (wf : cfg.wf)
    (hn : num_online cfg < 2 ^ cfg.ASID_BITS - cfg.ASID_BASE) (w : Sys) (hr : Reachable cfg w)
    (cpu slot : Nat) :
    is_same_generation cfg ((Sys.alloc_asid cfg cpu slot w).slots slot)
      (Sys.alloc_asid cfg cpu slot w).alloc.gen = true ∧
    ((Sys.alloc_asid cfg cpu slot w).alloc.asids cpu).active =
      (Sys.alloc_asid cfg cpu slot w).slots slot ∧
    (Sys.alloc_asid cfg cpu slot w).alloc.tlb_flush_pending cpu = false ∧
    is_valid cfg ((Sys.alloc_asid cfg cpu slot w).slots slot) = true := by
  have hok := hr.sys_ok wf
  refine ⟨?_, ?_, ?_, ?_⟩
  · rw [Sys.alloc_asid_slots, if_pos rfl, Sys.alloc_asid_gen]
    exact slow_path_current wf hn (w.slots slot) w.alloc hok.alloc_ok
  · rw [Sys.alloc_asid_active, if_pos rfl, Sys.alloc_asid_slots, if_pos rfl]
  · rw [Sys.alloc_asid_pending, if_pos rfl]
  · rw [Sys.alloc_asid_slots, if_pos rfl]
    exact slow_path_valid wf (w.slots slot) w.alloc (hok.slot_lt slot) hok.alloc_ok

/-- C34: in every reachable state with fewer online CPUs than
`2 ^ ASID_BITS - ASID_BASE`, a second `alloc_asid` call on the same CPU and
slot right after a first one returns false and leaves allocator and slots as
they are. -/
theorem alloc_asid_twice (cfg : Config) (wf : cfg.wf)
    (hn : num_online cfg < 2 ^ cfg.ASID_BITS - cfg.ASID_BASE) (w : Sys) (hr : Reachable cfg w)
    (cpu slot : Nat) :
    (alloc_asid cfg cpu ((Sys.alloc_asid cfg cpu slot w).slots slot)
      (Sys.alloc_asid cfg cpu slot w).alloc).1 = false ∧
    Sys.alloc_asid cfg cpu slot (Sys.alloc_asid cfg cpu slot w) = Sys.alloc_asid cfg cpu slot w := by
  obtain ⟨h1, h2, h3, _⟩ := after_alloc_asid wf hn w hr cpu slot
  refine ⟨?_, Sys.alloc_asid_fixed cfg cpu slot _ h1 h2 h3⟩
  rw [alloc_asid_eq, slow_path_same cfg _ _ h1]
  exact h3

/-- Witness for C34: the allocation for D on CPU 1 in the example scenario
(which rolls over), made twice. -/
theorem alloc_asid_twice_witness :
    (alloc_asid scenario_cfg 1 ((Sys.alloc_asid scenario_cfg 1 3 scenario_3).slots 3)
      (Sys.alloc_asid scenario_cfg 1 3 scenario_3).alloc).1 = false ∧
    Sys.alloc_asid scenario_cfg 1 3 (Sys.alloc_asid scenario_cfg 1 3 scenario_3) =
      Sys.alloc_asid scenario_cfg 1 3 scenario_3 :=
  alloc_asid_twice scenario_cfg scenario_cfg_wf (by decide) scenario_3 scenario_3_reachable 1 3

/-- C35: in every reachable state with fewer online CPUs than
`2 ^ ASID_BITS - ASID_BASE`, `can_use_asid` on the same CPU and slot right
after `alloc_asid` returns true and changes nothing. -/
theorem can_use_asid_after_alloc_asid (cfg : Config) (wf : cfg.wf)
    (hn : num_online cfg < 2 ^ cfg.ASID_BITS - cfg.ASID_BASE) (w : Sys) (hr : Reachable cfg w)
    (cpu slot : Nat) :
    (can_use_asid cfg cpu ((Sys.alloc_asid cfg cpu slot w).slots slot)
      (Sys.alloc_asid cfg cpu slot w).alloc).1 = true ∧
    Sys.can_use_asid cfg cpu slot (Sys.alloc_asid cfg cpu slot w) =
      Sys.alloc_asid cfg cpu slot w := by
  obtain ⟨h1, h2, _, h4⟩ := after_alloc_asid wf hn w hr cpu slot
  refine ⟨?_, Sys.can_use_asid_fixed cfg cpu slot _ h1 h2⟩
  rw [can_use_asid_true_iff]
  exact ⟨h1, by rw [h2]; exact h4⟩

/-- Witness for C35: `can_use_asid` for D on CPU 1 right after the allocation
for D in the example scenario. -/
theorem can_use_asid_after_alloc_asid_witness :
    (can_use_asid scenario_cfg 1 ((Sys.alloc_asid scenario_cfg 1 3 scenario_3).slots 3)
      (Sys.alloc_asid scenario_cfg 1 3 scenario_3).alloc).1 = true ∧
    Sys.can_use_asid scenario_cfg 1 3 (Sys.alloc_asid scenario_cfg 1 3 scenario_3) =
      Sys.alloc_asid scenario_cfg 1 3 scenario_3 :=
  can_use_asid_after_alloc_asid scenario_cfg scenario_cfg_wf (by decide) scenario_3
    scenario_3_reachable 1 3

end AsidAlloc
